import Mathlib

/-!
Verification of the zerolog logging interceptors of go-grpc-middleware.

A shallow embedding of `logging/zerolog` (options.go, server_interceptors.go,
client_interceptors.go, payload_interceptors.go, ctxzerolog/context.go) and
theorems about it.

Conventions of the embedding:
* Go functions with effects are state transformers over a world state `σ`
  that may end in a panic (`Go σ α`); pure Go functions are Lean functions.
* `codes.Code` (a `uint32`) is a `Nat`; `zerolog.Level` (an `int8`) is an `Int`.
* `interface{}` values (requests, replies, messages) are a type parameter `ι`.
* What the package consumes from outside (clock, time formatting, the name of
  a code, the tag collaborator, the logging sink, the `grpc_logging` defaults)
  is gathered in `Env`.
-/

namespace grpc_zerolog

/-! gRPC status codes and zerolog levels -/

/-- The gRPC status code type `codes.Code`, an unsigned 32-bit number. -/
abbrev Code := Nat

namespace codes

def OK : Code := 0
def Canceled : Code := 1
def Unknown : Code := 2
def InvalidArgument : Code := 3
def DeadlineExceeded : Code := 4
def NotFound : Code := 5
def AlreadyExists : Code := 6
def PermissionDenied : Code := 7
def ResourceExhausted : Code := 8
def FailedPrecondition : Code := 9
def Aborted : Code := 10
def OutOfRange : Code := 11
def Unimplemented : Code := 12
def Internal : Code := 13
def Unavailable : Code := 14
def DataLoss : Code := 15
def Unauthenticated : Code := 16

end codes

/-- The severity type `zerolog.Level`, a signed 8-bit number. -/
abbrev Level := Int

namespace zerolog

def DebugLevel : Level := 0
def InfoLevel : Level := 1
def WarnLevel : Level := 2
def ErrorLevel : Level := 3
def FatalLevel : Level := 4
def PanicLevel : Level := 5
def NoLevel : Level := 6
def Disabled : Level := 7
def TraceLevel : Level := -1

end zerolog

/-- CodeToLevel function defines the mapping between gRPC return codes and interceptor log level. -/
abbrev CodeToLevel := Code → Level

/-- DefaultCodeToLevel is the default implementation of gRPC return codes and
interceptor log level for server side (options.go, the `switch` read top to bottom). -/
def DefaultCodeToLevel (code : Code) : Level :=
  if code = codes.OK then zerolog.InfoLevel
  else if code = codes.Canceled then zerolog.InfoLevel
  else if code = codes.Unknown then zerolog.ErrorLevel
  else if code = codes.InvalidArgument then zerolog.InfoLevel
  else if code = codes.DeadlineExceeded then zerolog.WarnLevel
  else if code = codes.NotFound then zerolog.InfoLevel
  else if code = codes.AlreadyExists then zerolog.InfoLevel
  else if code = codes.PermissionDenied then zerolog.WarnLevel
  else if code = codes.Unauthenticated then zerolog.InfoLevel
  else if code = codes.ResourceExhausted then zerolog.WarnLevel
  else if code = codes.FailedPrecondition then zerolog.WarnLevel
  else if code = codes.Aborted then zerolog.WarnLevel
  else if code = codes.OutOfRange then zerolog.WarnLevel
  else if code = codes.Unimplemented then zerolog.ErrorLevel
  else if code = codes.Internal then zerolog.ErrorLevel
  else if code = codes.Unavailable then zerolog.WarnLevel
  else if code = codes.DataLoss then zerolog.ErrorLevel
  else zerolog.ErrorLevel

/-- DefaultClientCodeToLevel is the default implementation of gRPC return codes
to log levels for client side (options.go). -/
def DefaultClientCodeToLevel (code : Code) : Level :=
  if code = codes.OK then zerolog.DebugLevel
  else if code = codes.Canceled then zerolog.DebugLevel
  else if code = codes.Unknown then zerolog.InfoLevel
  else if code = codes.InvalidArgument then zerolog.DebugLevel
  else if code = codes.DeadlineExceeded then zerolog.InfoLevel
  else if code = codes.NotFound then zerolog.DebugLevel
  else if code = codes.AlreadyExists then zerolog.DebugLevel
  else if code = codes.PermissionDenied then zerolog.InfoLevel
  else if code = codes.Unauthenticated then zerolog.InfoLevel
  else if code = codes.ResourceExhausted then zerolog.DebugLevel
  else if code = codes.FailedPrecondition then zerolog.DebugLevel
  else if code = codes.Aborted then zerolog.DebugLevel
  else if code = codes.OutOfRange then zerolog.DebugLevel
  else if code = codes.Unimplemented then zerolog.WarnLevel
  else if code = codes.Internal then zerolog.WarnLevel
  else if code = codes.Unavailable then zerolog.WarnLevel
  else if code = codes.DataLoss then zerolog.WarnLevel
  else zerolog.InfoLevel

/-- The classifier of client_interceptors_test.go: error for Unauthenticated,
the client default for every other code. -/
def customClientCodeToLevel (c : Code) : Level :=
  if c = codes.Unauthenticated then zerolog.ErrorLevel
  else DefaultClientCodeToLevel c

/-! Go values: panics, time, errors, maps -/

/-- The message of a Go run-time panic. -/
abbrev Panic := String

/-- An effectful Go call: from a world state it either panics or returns a
result together with the next world state. -/
abbrev Go (σ α : Type) := σ → Except Panic (α × σ)

/-- An instant of `time.Time`, in nanoseconds. -/
abbrev Time := Int

/-- A `time.Duration`: a signed 64-bit count of nanoseconds. -/
abbrev Duration := Int

namespace time

def minDuration : Duration := -(2 ^ 63)
def maxDuration : Duration := 2 ^ 63 - 1

/-- The method `Time.Sub`: the duration t-u, saturated to the range of `Duration`. -/
def Sub (t u : Time) : Duration :=
  if t - u < minDuration then minDuration
  else if maxDuration < t - u then maxDuration
  else t - u

end time

/-- A non-nil Go `error`: its text and, when it carries a gRPC status, the code. -/
structure GoError where
  text : String
  status : Option Code
deriving DecidableEq, Repr

/-- A Go `error` value; `none` is `nil`. -/
abbrev Err := Option GoError

/-- The values stored under `interface{}` in field maps. `float32Millis m` is
the `float32` number `float32(m) / 1000` of `durationToMilliseconds`, kept symbolic;
`msgObject r` is the object with the single field `msg` that
`zerologpbObjectMarshaler` writes, `r` being the rendering of the message. -/
inductive Value where
  | str (s : String)
  | int (i : Int)
  | float32Millis (micros : Int)
  | msgObject (rendered : String)
deriving DecidableEq, Repr

/-- A `map[string]interface{}`, as an association list with distinct keys. -/
abbrev GoMap := List (String × Value)

/-- The assignment `m[k] = v` on a map. -/
def GoMap.set (m : GoMap) (k : String) (v : Value) : GoMap :=
  if m.any (fun kv => kv.1 == k) then m.map (fun kv => if kv.1 == k then (k, v) else kv)
  else m ++ [(k, v)]

/-- The slice expression `s[i:]` on a string: a run-time panic when `i` exceeds the length. -/
def sliceFrom (s : String) (i : Nat) : Except Panic String :=
  if i ≤ s.data.length then .ok ⟨s.data.drop i⟩
  else .error "runtime error: slice bounds out of range"

/-! The part of zerolog the package consumes: loggers that carry fields and a
level, and events that are handed to the sink -/

namespace zerolog

/-- A `zerolog.Logger` (without sampler): the writer it was created on (`none`
for `New(nil)`), the fields of its context, in the order they were added, and
its level (set by `Logger.Level`), below which it makes no event; `New` gives
the lowest level. -/
structure Logger where
  writer : Option Nat
  fields : GoMap
  level : Level := TraceLevel
deriving DecidableEq, Repr

/-- The discarding logger `zerolog.Nop()`, which is `New(nil).Level(Disabled)`. -/
def Nop : Logger := { writer := none, fields := [], level := Disabled }

/-- The check `Logger.should(lvl)` of zerolog: no event is made for a level below
the level of the logger or below the global level `GlobalLevel()`. -/
def Logger.should (l : Logger) (globalLevel lvl : Level) : Bool :=
  decide (l.level ≤ lvl) && decide (globalLevel ≤ lvl)

/-- A `zerolog.Context`, the builder returned by `Logger.With()`. -/
structure Context where
  l : Logger
deriving DecidableEq, Repr

def Logger.With (l : Logger) : Context := { l := l }

def Context.Str (c : Context) (key val : String) : Context :=
  { l := { c.l with fields := c.l.fields ++ [(key, Value.str val)] } }

def Context.Fields (c : Context) (fields : GoMap) : Context :=
  { l := { c.l with fields := c.l.fields ++ fields } }

def Context.Logger (c : Context) : Logger := c.l

/-- A `zerolog.Event`: a record under construction, with the logger and the level
it was asked of; `Msg` hands it to the sink. For a logger disabled at the level
zerolog gives a nil event, on which every method does nothing: here the event is
built all the same and keeps what decides this (`Event.enabled`), and zerolog's
own sink drops it (`zerologEmit`). -/
structure Event where
  l : Logger
  level : Level
  fields : GoMap
  message : String
deriving DecidableEq, Repr

/-- The method `Logger.WithLevel`, for a level zerolog declares: the event of the
logger at that level, with no field yet. -/
def Logger.WithLevel (l : Logger) (level : Level) : Event :=
  { l := l, level := level, fields := [], message := "" }

/-- Whether the event is one zerolog writes, and not its nil event:
`WithLevel(Disabled)` is nil on every logger, and so is the event of a level for
which `should` says no. -/
def Event.enabled (globalLevel : Level) (e : Event) : Bool :=
  e.level != Disabled && e.l.should globalLevel e.level

/-- The events zerolog writes out of those `Msg` was called on, in order. -/
def written (globalLevel : Level) (events : List Event) : List Event :=
  events.filter (Event.enabled globalLevel)

def Event.Interface (e : Event) (key : String) (v : Value) : Event :=
  { e with fields := e.fields ++ [(key, v)] }

/-- The method `Event.Err`: adds the error under `zerolog.ErrorFieldName`, nothing for a nil error. -/
def Event.Err (e : Event) (err : Err) : Event :=
  match err with
  | none => e
  | some x => { e with fields := e.fields ++ [("error", Value.str x.text)] }

/-- The method `Event.Object` for a `zerologpbObjectMarshaler`, whose
`MarshalZerologObject` writes the message under `msg`; `rendered` is what
`json.Marshal` makes of the `jsonpbObjectMarshaler` inside. -/
def Event.Object (e : Event) (key : String) (rendered : String) : Event :=
  { e with fields := e.fields ++ [(key, Value.msgObject rendered)] }

/-- The method `Event.Stringer`, given the text `val.String()`. -/
def Event.Stringer (e : Event) (key : String) (val : String) : Event :=
  { e with fields := e.fields ++ [(key, Value.str val)] }

end zerolog

/-! The call context store (ctxzerolog/context.go) -/

namespace ctxzerolog

/-- The struct `ctxLogger`; `fields = none` is the nil map. -/
structure ctxLogger where
  logger : zerolog.Logger
  fields : Option GoMap
deriving DecidableEq, Repr

end ctxzerolog

namespace context

/-- A `context.Context`, as far as the package looks into it: its deadline, the
value stored under `ctxMarkerKey`, and a handle for everything else it carries
(the tag set of grpc_ctxtags included). -/
structure Context where
  deadline : Option Time
  marker : Option ctxzerolog.ctxLogger
  rest : Nat
deriving DecidableEq, Repr

end context

/-- Decider of `grpc_logging`: whether a call with this full method name and error is logged. -/
abbrev Decider := String → Err → Bool

/-- ErrorToCode of `grpc_logging`. -/
abbrev ErrorToCode := Err → Code

/-- What the package consumes from outside, over a world state `σ`. -/
structure Env (σ : Type) where
  /-- The clock read by `time.Now()`. -/
  now : σ → Time
  /-- The method `Time.Format(time.RFC3339)`. -/
  formatRFC3339 : Time → String
  /-- The method `codes.Code.String()`. -/
  codeString : Code → String
  /-- The tags `grpc_ctxtags.Extract(ctx).Values()` attached to a context. -/
  tags : context.Context → σ → GoMap
  /-- The sink: what `Event.Msg` does with a finished event (zerolog drops the
  event of a disabled logger and writes the others, see `zerologEmit`). -/
  emit : zerolog.Event → Go σ Unit
  /-- The function `grpc_logging.DefaultDeciderMethod` (logging/common.go). -/
  DefaultDeciderMethod : Decider
  /-- The function `grpc_logging.DefaultErrorToCode` (logging/common.go). -/
  DefaultErrorToCode : ErrorToCode

/-- The method `Event.Msg`: sets the message and sends the event to the sink. -/
def zerolog.Event.Msg {σ : Type} (env : Env σ) (e : zerolog.Event) (msg : String) : Go σ Unit :=
  env.emit { e with message := msg }

namespace ctxzerolog

def nullLogger : zerolog.Logger := zerolog.Nop

/-- TagsToFields transforms the Tags on the supplied context into fields. -/
def TagsToFields {σ : Type} (env : Env σ) (ctx : context.Context) (s : σ) : GoMap :=
  (env.tags ctx s).foldl (fun fields kv => fields.set kv.1 kv.2) []

/-- Extract takes the call-scoped Logger from grpc_zerolog middleware. -/
def Extract {σ : Type} (env : Env σ) (ctx : context.Context) (s : σ) : zerolog.Logger :=
  match ctx.marker with
  | none => nullLogger
  | some l =>
    let fields := TagsToFields env ctx s
    let fields := (l.fields.getD []).foldl (fun fields kv => fields.set kv.1 kv.2) fields
    ((l.logger.With).Fields fields).Logger

/-- ToContext adds the zerolog.Logger to the context for extraction later. -/
def ToContext (ctx : context.Context) (logger : zerolog.Logger) : context.Context :=
  { ctx with marker := some { logger := logger, fields := none } }

/-- The assignment `l.fields[k] = v`: a run-time panic on the nil map. -/
def assignField (fields : Option GoMap) (k : String) (v : Value) : Except Panic (Option GoMap) :=
  match fields with
  | none => .error "assignment to entry in nil map"
  | some m => .ok (some (m.set k v))

/-- The loop `for k, v := range fields { l.fields[k] = v }` of `AddFields`. -/
def assignFields (store : Option GoMap) : GoMap → Except Panic (Option GoMap)
  | [] => .ok store
  | kv :: rest =>
    match assignField store kv.1 kv.2 with
    | .error p => .error p
    | .ok store1 => assignFields store1 rest

/-- AddFields adds fields to the logger. The store is written in place, through
the pointer the context holds; the result is the context as it reads afterwards. -/
def AddFields (ctx : context.Context) (fields : GoMap) : Except Panic context.Context :=
  match ctx.marker with
  | none => .ok ctx
  | some l =>
    match assignFields l.fields fields with
    | .error p => .error p
    | .ok store => .ok { ctx with marker := some { l with fields := store } }

end ctxzerolog

/-! Options (options.go) -/

/-- DurationToMap function defines how to produce duration fields for logging. -/
abbrev DurationToMap := Duration → GoMap

/-- MessageProducer produces a user defined log message. -/
abbrev MessageProducer (σ : Type) :=
  context.Context → String → Level → Code → Err → GoMap → Go σ Unit

/-- The struct `options`. -/
structure options (σ : Type) where
  levelFunc : CodeToLevel
  shouldLog : Decider
  codeFunc : ErrorToCode
  durationFunc : DurationToMap
  messageFunc : MessageProducer σ

/-- The Go type `Option`, a `func(*options)`: the update it makes to the struct
it is given. -/
abbrev OptionFn (σ : Type) := options σ → options σ

/-- The conversion `float32(duration.Nanoseconds()/1000) / 1000`; the integer
division of Go truncates toward zero. -/
def durationToMilliseconds (duration : Duration) : Value :=
  Value.float32Millis (Int.tdiv duration 1000)

/-- DurationToTimeMillis converts the duration to milliseconds and uses the key `grpc.time_ms`. -/
def DurationToTimeMillis (duration : Duration) : GoMap :=
  [("grpc.time_ms", durationToMilliseconds duration)]

/-- DefaultDurationToField is the default implementation of converting request duration to a field. -/
def DefaultDurationToField : DurationToMap := DurationToTimeMillis

/-- DurationToField uses a Duration field to log the request duration. -/
def DurationToField (duration : Duration) : GoMap :=
  [("grpc.duration", Value.int duration)]

/-- DefaultMessageProducer writes the default message. -/
def DefaultMessageProducer {σ : Type} (env : Env σ) : MessageProducer σ :=
  fun ctx msg level code err duration s =>
    let l := ctxzerolog.Extract env ctx s
    let c := l.WithLevel level
    let c := duration.foldl (fun c kv => c.Interface kv.1 kv.2) c
    (((c.Err err).Stringer "grpc.code" (env.codeString code)).Msg env msg) s

/-- The event `DefaultMessageProducer` hands to the sink: on the logger
re-extracted from the context, at the given level, with the duration fields, the
error and the code, and with the message. -/
def completionEvent {σ : Type} (env : Env σ) (ctx : context.Context) (msg : String)
    (level : Level) (code : Code) (err : Err) (duration : GoMap) (s : σ) : zerolog.Event :=
  { ((duration.foldl (fun c kv => c.Interface kv.1 kv.2)
        ((ctxzerolog.Extract env ctx s).WithLevel level)).Err err).Stringer "grpc.code"
      (env.codeString code) with message := msg }

/-- The package variable `defaultOptions`. -/
def defaultOptions {σ : Type} (env : Env σ) : options σ :=
  { levelFunc := DefaultCodeToLevel
    shouldLog := env.DefaultDeciderMethod
    codeFunc := env.DefaultErrorToCode
    durationFunc := DefaultDurationToField
    messageFunc := DefaultMessageProducer env }

def evaluateServerOpt {σ : Type} (env : Env σ) (opts : List (OptionFn σ)) : options σ :=
  let optCopy := defaultOptions env
  let optCopy := { optCopy with levelFunc := DefaultCodeToLevel }
  opts.foldl (fun optCopy o => o optCopy) optCopy

def evaluateClientOpt {σ : Type} (env : Env σ) (opts : List (OptionFn σ)) : options σ :=
  let optCopy := defaultOptions env
  let optCopy := { optCopy with levelFunc := DefaultClientCodeToLevel }
  opts.foldl (fun optCopy o => o optCopy) optCopy

/-- WithDecider customizes the function for deciding if the gRPC interceptor logs should log. -/
def WithDecider {σ : Type} (f : Decider) : OptionFn σ :=
  fun o => { o with shouldLog := f }

/-- WithLevels customizes the function for mapping gRPC return codes and interceptor log level statements. -/
def WithLevels {σ : Type} (f : CodeToLevel) : OptionFn σ :=
  fun o => { o with levelFunc := f }

/-- WithCodes customizes the function for mapping errors to error codes. -/
def WithCodes {σ : Type} (f : ErrorToCode) : OptionFn σ :=
  fun o => { o with codeFunc := f }

/-- WithDurationField customizes the function for mapping request durations to fields. -/
def WithDurationField {σ : Type} (f : DurationToMap) : OptionFn σ :=
  fun o => { o with durationFunc := f }

/-- WithMessageProducer customizes the function for message formation. -/
def WithMessageProducer {σ : Type} (f : MessageProducer σ) : OptionFn σ :=
  fun o => { o with messageFunc := f }

/-! Lists of With* options, as data, and the reading "the last option that
touches a field wins" of the specification -/

/-- One call of a With* constructor of options.go. -/
inductive OptCall (σ : Type) where
  | withDecider (f : Decider)
  | withLevels (f : CodeToLevel)
  | withCodes (f : ErrorToCode)
  | withDurationField (f : DurationToMap)
  | withMessageProducer (f : MessageProducer σ)

/-- The option a With* call returns. -/
def OptCall.toOption {σ : Type} : OptCall σ → OptionFn σ
  | .withDecider f => WithDecider f
  | .withLevels f => WithLevels f
  | .withCodes f => WithCodes f
  | .withDurationField f => WithDurationField f
  | .withMessageProducer f => WithMessageProducer f

def OptCall.decider? {σ : Type} : OptCall σ → Option Decider
  | .withDecider f => some f
  | _ => none

def OptCall.levels? {σ : Type} : OptCall σ → Option CodeToLevel
  | .withLevels f => some f
  | _ => none

def OptCall.codes? {σ : Type} : OptCall σ → Option ErrorToCode
  | .withCodes f => some f
  | _ => none

def OptCall.durationField? {σ : Type} : OptCall σ → Option DurationToMap
  | .withDurationField f => some f
  | _ => none

def OptCall.messageProducer? {σ : Type} : OptCall σ → Option (MessageProducer σ)
  | .withMessageProducer f => some f
  | _ => none

/-- The specification's rule for one field: the function of the last option in
the list that touches the field (`touch` tells which do), or the default when
no option touches it. -/
def lastTouching {α β : Type} (touch : α → Option β) (dflt : β) (calls : List α) : β :=
  (calls.reverse.findSome? touch).getD dflt

/-- The options the specification assigns to a list of With* calls over a
baseline: field by field, the last option touching it, or the baseline. -/
def specOptions {σ : Type} (base : options σ) (calls : List (OptCall σ)) : options σ :=
  { levelFunc := lastTouching OptCall.levels? base.levelFunc calls
    shouldLog := lastTouching OptCall.decider? base.shouldLog calls
    codeFunc := lastTouching OptCall.codes? base.codeFunc calls
    durationFunc := lastTouching OptCall.durationField? base.durationFunc calls
    messageFunc := lastTouching OptCall.messageProducer? base.messageFunc calls }

/-- The default baseline of the server interceptors, as documented: the server
classifier and the four other defaults. -/
def serverBaseline {σ : Type} (env : Env σ) : options σ :=
  { levelFunc := DefaultCodeToLevel
    shouldLog := env.DefaultDeciderMethod
    codeFunc := env.DefaultErrorToCode
    durationFunc := DefaultDurationToField
    messageFunc := DefaultMessageProducer env }

/-- The default baseline of the client interceptors, as documented: the client
classifier and the four other defaults. -/
def clientBaseline {σ : Type} (env : Env σ) : options σ :=
  { levelFunc := DefaultClientCodeToLevel
    shouldLog := env.DefaultDeciderMethod
    codeFunc := env.DefaultErrorToCode
    durationFunc := DefaultDurationToField
    messageFunc := DefaultMessageProducer env }

/-! The functions of the Go standard package `path` that the package calls.
Strings are read as sequences of characters; the separator and the dot are
single bytes, so this agrees with Go on every string whose first character
is one byte long. -/

namespace path

/-- Where the scan of `Clean` stands: at the start of a path element, inside
the copy loop of a real element, or at the second dot of a `..` element. -/
inductive Mode where
  | scan
  | copy
  | skip
deriving DecidableEq, Repr

/-- The backtracking loop of `Clean`, `for out.w > dotdot && out.index(out.w) != '/' { out.w-- }`,
from the write index `w`; it returns the final write index. -/
def backtrack (buf : List Char) (dotdot : Nat) : Nat → Nat
  | 0 => 0
  | w + 1 =>
    if dotdot < w + 1 ∧ buf.getD (w + 1) '/' ≠ '/' then backtrack buf dotdot w else w + 1

/-- The main loop of `Clean` over the unread part of the path; `out` is the
buffer written so far (`out.w` is its length). -/
def cleanLoop (rooted : Bool) : List Char → Mode → List Char → Nat → List Char
  | [], _, out, _ => out
  | _ :: rest, Mode.skip, out, dotdot => cleanLoop rooted rest Mode.scan out dotdot
  | c :: rest, Mode.copy, out, dotdot =>
    if c = '/' then cleanLoop rooted rest Mode.scan out dotdot
    else cleanLoop rooted rest Mode.copy (out ++ [c]) dotdot
  | c :: rest, Mode.scan, out, dotdot =>
    if c = '/' then
      -- empty path element
      cleanLoop rooted rest Mode.scan out dotdot
    else if c = '.' ∧ (rest.head? = none ∨ rest.head? = some '/') then
      -- . element
      cleanLoop rooted rest Mode.scan out dotdot
    else if c = '.' ∧ rest.head? = some '.' ∧
        (rest.tail.head? = none ∨ rest.tail.head? = some '/') then
      -- .. element: remove to last /
      if dotdot < out.length then
        cleanLoop rooted rest Mode.skip (out.take (backtrack out dotdot (out.length - 1))) dotdot
      else if rooted = false then
        let out1 := if 0 < out.length then out ++ ['/'] else out
        let out2 := out1 ++ ['.', '.']
        cleanLoop rooted rest Mode.skip out2 out2.length
      else cleanLoop rooted rest Mode.skip out dotdot
    else
      -- real path element: add slash if needed, then copy the element
      let out1 :=
        if (rooted = true ∧ out.length ≠ 1) ∨ (rooted = false ∧ out.length ≠ 0) then out ++ ['/']
        else out
      cleanLoop rooted rest Mode.copy (out1 ++ [c]) dotdot

/-- The body of `Clean` on the characters of the path. -/
def cleanChars (p : List Char) : List Char :=
  match p with
  | [] => ['.']
  | c :: rest =>
    let out :=
      if c = '/' then cleanLoop true rest Mode.scan ['/'] 1
      else cleanLoop false (c :: rest) Mode.scan [] 0
    if out.length = 0 then ['.'] else out

/-- Clean returns the shortest path name equivalent to path by purely lexical processing. -/
def Clean (path : String) : String := ⟨cleanChars path.data⟩

/-- The first result of `Split`: everything up to and including the final slash. -/
def dirPart (p : List Char) : List Char :=
  (p.reverse.dropWhile (fun c => c != '/')).reverse

/-- The second result of `Split`: everything after the final slash. -/
def filePart (p : List Char) : List Char :=
  (p.reverse.takeWhile (fun c => c != '/')).reverse

/-- Dir returns all but the last element of path, typically the path's directory. -/
def Dir (path : String) : String := Clean ⟨dirPart path.data⟩

/-- Base returns the last element of path. -/
def Base (path : String) : String :=
  if path.data = [] then "."
  else
    -- strip trailing slashes, then find the last element
    let p := (path.data.reverse.dropWhile (fun c => c == '/')).reverse
    let q := filePart p
    if q = [] then "/" else ⟨q⟩

end path

/-! The gRPC types the interceptors are written against -/

/-- The struct `grpc.UnaryServerInfo`. -/
structure UnaryServerInfo (ι : Type) where
  Server : ι
  FullMethod : String

/-- The struct `grpc.StreamServerInfo`. -/
structure StreamServerInfo where
  FullMethod : String
  IsClientStream : Bool
  IsServerStream : Bool

/-- The function type `grpc.UnaryHandler`. -/
abbrev UnaryHandler (σ ι : Type) := context.Context → ι → Go σ (ι × Err)

/-- The interface `grpc.ServerStream`: its context and its message operations;
`RecvMsg m` returns the message as filled in together with the error. -/
structure ServerStream (σ ι : Type) where
  Context : context.Context
  SendMsg : ι → Go σ Err
  RecvMsg : ι → Go σ (ι × Err)

/-- The function type `grpc.StreamHandler`. -/
abbrev StreamHandler (σ ι : Type) := ι → ServerStream σ ι → Go σ Err

/-- Modelled from the spec: `grpc_middleware.WrappedServerStream` (wrappers.go of
the repository root, not among the sources), "the wrapped stream object carries
the new context", a decorator "forwarding all other operations unchanged". -/
structure WrappedServerStream (σ ι : Type) where
  ServerStream : ServerStream σ ι
  WrappedContext : context.Context

/-- Modelled from the spec: `grpc_middleware.WrapServerStream` (wrappers.go of the
repository root, not among the sources): the wrapper of a stream, carrying the
stream's own context until another one is assigned. -/
def WrapServerStream {σ ι : Type} (stream : ServerStream σ ι) : WrappedServerStream σ ι :=
  { ServerStream := stream, WrappedContext := stream.Context }

/-- The wrapper seen as a `grpc.ServerStream`: `Context()` returns the wrapped
context, the message operations are those of the stream inside. -/
def WrappedServerStream.asStream {σ ι : Type} (w : WrappedServerStream σ ι) :
    grpc_zerolog.ServerStream σ ι :=
  { w.ServerStream with Context := w.WrappedContext }

/-- The struct `grpc.ClientConn`, which the interceptors only pass on. -/
structure ClientConn where
  target : String
deriving DecidableEq, Repr

/-- A `grpc.CallOption`, which the interceptors only pass on. -/
structure CallOption where
  id : Nat
deriving DecidableEq, Repr

/-- The struct `grpc.StreamDesc`. -/
structure StreamDesc where
  StreamName : String
  ServerStreams : Bool
  ClientStreams : Bool
deriving DecidableEq, Repr

/-- The interface `grpc.ClientStream`: its context and its message operations.
`Context()` may panic, as every method of a wrapper around a nil stream does. -/
structure ClientStream (σ ι : Type) where
  Context : Except Panic context.Context
  SendMsg : ι → Go σ Err
  RecvMsg : ι → Go σ (ι × Err)
  CloseSend : Go σ Err

/-- The function type `grpc.UnaryInvoker`. -/
abbrev UnaryInvoker (σ ι : Type) :=
  context.Context → String → ι → ι → ClientConn → List CallOption → Go σ Err

/-- The function type `grpc.Streamer`; the stream is `none` for a nil stream. -/
abbrev Streamer (σ ι : Type) :=
  context.Context → StreamDesc → ClientConn → String → List CallOption →
    Go σ (Option (ClientStream σ ι) × Err)

/-! Server interceptors (server_interceptors.go) -/

/-- SystemField is used in every log statement made through grpc_zerolog. -/
def SystemField (c : zerolog.Context) : zerolog.Context := c.Str "system" "grpc"

/-- ServerField is used in every server-side log statement made through grpc_zerolog. -/
def ServerField (c : zerolog.Context) : zerolog.Context := c.Str "span.kind" "server"

def addServerCallFields (fullMethodString : String) (zerologCtx : zerolog.Context) :
    Except Panic zerolog.Context :=
  match sliceFrom (path.Dir fullMethodString) 1 with
  | .error p => .error p
  | .ok service =>
    let method := path.Base fullMethodString
    let zerologCtx := SystemField zerologCtx
    let zerologCtx := ServerField zerologCtx
    .ok ((zerologCtx.Str "grpc.service" service).Str "grpc.method" method)

def newLoggerForCall {σ : Type} (env : Env σ) (ctx : context.Context) (logger : zerolog.Logger)
    (fullMethodString : String) (start : Time) : Except Panic context.Context :=
  let zerologCtx := logger.With
  let zerologCtx := zerologCtx.Str "grpc.start_time" (env.formatRFC3339 start)
  let zerologCtx :=
    match ctx.deadline with
    | some d => zerologCtx.Str "grpc.request.deadline" (env.formatRFC3339 d)
    | none => zerologCtx
  match addServerCallFields fullMethodString zerologCtx with
  | .error p => .error p
  | .ok zerologCtx => .ok (ctxzerolog.ToContext ctx zerologCtx.Logger)

/-- UnaryServerInterceptor returns a new unary server interceptors that adds zerolog.Logger to the context. -/
def UnaryServerInterceptor {σ ι : Type} (env : Env σ) (logger : zerolog.Logger)
    (opts : List (OptionFn σ)) (ctx : context.Context) (req : ι) (info : UnaryServerInfo ι)
    (handler : UnaryHandler σ ι) : Go σ (ι × Err) :=
  let o := evaluateServerOpt env opts
  fun s =>
    let startTime := env.now s
    match newLoggerForCall env ctx logger info.FullMethod startTime with
    | .error p => .error p
    | .ok newCtx =>
      match handler newCtx req s with
      | .error p => .error p
      | .ok ((resp, err), s1) =>
        if !o.shouldLog info.FullMethod err then .ok ((resp, err), s1)
        else
          let code := o.codeFunc err
          let level := o.levelFunc code
          let duration := o.durationFunc (time.Sub (env.now s1) startTime)
          match o.messageFunc newCtx ("finished unary call with code " ++ env.codeString code)
              level code err duration s1 with
          | .error p => .error p
          | .ok (_, s2) => .ok ((resp, err), s2)

/-- StreamServerInterceptor returns a new streaming server interceptor that adds zerolog.Logger to the context. -/
def StreamServerInterceptor {σ ι : Type} (env : Env σ) (logger : zerolog.Logger)
    (opts : List (OptionFn σ)) (srv : ι) (stream : ServerStream σ ι) (info : StreamServerInfo)
    (handler : StreamHandler σ ι) : Go σ Err :=
  let o := evaluateServerOpt env opts
  fun s =>
    let startTime := env.now s
    match newLoggerForCall env stream.Context logger info.FullMethod startTime with
    | .error p => .error p
    | .ok newCtx =>
      let wrapped := WrapServerStream stream
      let wrapped := { wrapped with WrappedContext := newCtx }
      match handler srv wrapped.asStream s with
      | .error p => .error p
      | .ok (err, s1) =>
        if !o.shouldLog info.FullMethod err then .ok (err, s1)
        else
          let code := o.codeFunc err
          let level := o.levelFunc code
          let duration := o.durationFunc (time.Sub (env.now s1) startTime)
          match o.messageFunc newCtx ("finished streaming call with code " ++ env.codeString code)
              level code err duration s1 with
          | .error p => .error p
          | .ok (_, s2) => .ok (err, s2)

/-! Client interceptors (client_interceptors.go) -/

/-- ClientField is used in every client-side log statement made through grpc_zerolog. -/
def ClientField (c : zerolog.Context) : zerolog.Context := c.Str "span.kind" "client"

def logFinalClientLine {σ : Type} (env : Env σ) (ctx : context.Context) (o : options σ)
    (startTime : Time) (err : Err) (msg : String) : Go σ Unit :=
  fun s =>
    let code := o.codeFunc err
    let level := o.levelFunc code
    let duration := o.durationFunc (time.Sub (env.now s) startTime)
    o.messageFunc ctx msg level code err duration s

def newClientLogger (_ctx : context.Context) (fullMethodString : String) (logger : zerolog.Logger) :
    Except Panic zerolog.Logger :=
  match sliceFrom (path.Dir fullMethodString) 1 with
  | .error p => .error p
  | .ok service =>
    let method := path.Base fullMethodString
    let zerologCtx := logger.With
    let zerologCtx := SystemField zerologCtx
    let zerologCtx := ClientField zerologCtx
    .ok ((zerologCtx.Str "grpc.service" service).Str "grpc.method" method).Logger

/-- UnaryClientInterceptor returns a new unary client interceptor that optionally logs the execution of external gRPC calls. -/
def UnaryClientInterceptor {σ ι : Type} (env : Env σ) (logger : zerolog.Logger)
    (opts : List (OptionFn σ)) (ctx : context.Context) (method : String) (req reply : ι)
    (cc : ClientConn) (invoker : UnaryInvoker σ ι) (callOpts : List CallOption) : Go σ Err :=
  let o := evaluateClientOpt env opts
  fun s =>
    match newClientLogger ctx method logger with
    | .error p => .error p
    | .ok logger =>
      let startTime := env.now s
      match invoker ctx method req reply cc callOpts s with
      | .error p => .error p
      | .ok (err, s1) =>
        let newCtx := ctxzerolog.ToContext ctx logger
        match logFinalClientLine env newCtx o startTime err "finished client unary call" s1 with
        | .error p => .error p
        | .ok (_, s2) => .ok (err, s2)

/-- StreamClientInterceptor returns a new streaming client interceptor that optionally logs the execution of external gRPC calls. -/
def StreamClientInterceptor {σ ι : Type} (env : Env σ) (logger : zerolog.Logger)
    (opts : List (OptionFn σ)) (ctx : context.Context) (desc : StreamDesc) (cc : ClientConn)
    (method : String) (streamer : Streamer σ ι) (callOpts : List CallOption) :
    Go σ (Option (ClientStream σ ι) × Err) :=
  let o := evaluateClientOpt env opts
  fun s =>
    match newClientLogger ctx method logger with
    | .error p => .error p
    | .ok logger =>
      let startTime := env.now s
      match streamer ctx desc cc method callOpts s with
      | .error p => .error p
      | .ok ((clientStream, err), s1) =>
        let newCtx := ctxzerolog.ToContext ctx logger
        match logFinalClientLine env newCtx o startTime err "finished client streaming call" s1 with
        | .error p => .error p
        | .ok (_, s2) => .ok ((clientStream, err), s2)

/-! Payload interceptors (payload_interceptors.go) -/

/-- ServerPayloadLoggingDecider of `grpc_logging`: whether the payloads of a call
with this context, full method name and serving object are logged. -/
abbrev ServerPayloadLoggingDecider (ι : Type) := context.Context → String → ι → Bool

/-- ClientPayloadLoggingDecider of `grpc_logging`. -/
abbrev ClientPayloadLoggingDecider := context.Context → String → Bool

/-- The type assertion `pbMsg.(proto.Message)` on a value: `none` when the value
is not a protobuf message, otherwise what `json.Marshal` makes of its
`jsonpbObjectMarshaler` (the text `JsonPbMarshaller` writes, or that of the
marshalling error). A value may be a pointer (the reply of a unary client call
is filled in by the invoker), so its rendering is read in the world. -/
abbrev ProtoView (σ ι : Type) := ι → σ → Option String

/-- The event `logProtoMessageAsJson` hands to the sink for a protobuf message. -/
def payloadEvent (logger : zerolog.Logger) (key : String) (rendered : String) (msg : String) :
    zerolog.Event :=
  { (logger.WithLevel zerolog.InfoLevel).Object key rendered with message := msg }

def logProtoMessageAsJson {σ ι : Type} (env : Env σ) (asProto : ProtoView σ ι)
    (logger : zerolog.Logger) (pbMsg : ι) (key : String) (msg : String) : Go σ Unit :=
  fun s =>
    match asProto pbMsg s with
    | some rendered => (((logger.WithLevel zerolog.InfoLevel).Object key rendered).Msg env msg) s
    | none => .ok ((), s)

/-- PayloadUnaryServerInterceptor returns a new unary server interceptors that logs the payloads of requests. -/
def PayloadUnaryServerInterceptor {σ ι : Type} (env : Env σ) (asProto : ProtoView σ ι)
    (logger : zerolog.Logger) (decider : ServerPayloadLoggingDecider ι) (ctx : context.Context)
    (req : ι) (info : UnaryServerInfo ι) (handler : UnaryHandler σ ι) : Go σ (ι × Err) :=
  fun s =>
    if !decider ctx info.FullMethod info.Server then handler ctx req s
    else
      let fields := ctxzerolog.TagsToFields env ctx s
      let zerologCtx := logger.With.Fields fields
      match addServerCallFields info.FullMethod zerologCtx with
      | .error p => .error p
      | .ok zerologCtx =>
        match logProtoMessageAsJson env asProto zerologCtx.Logger req "grpc.request.content"
            "server request payload logged as grpc.request.content field" s with
        | .error p => .error p
        | .ok (_, s1) =>
          match handler ctx req s1 with
          | .error p => .error p
          | .ok ((resp, err), s2) =>
            if err = none then
              match logProtoMessageAsJson env asProto zerologCtx.Logger resp
                  "grpc.response.content"
                  "server response payload logged as grpc.response.content field" s2 with
              | .error p => .error p
              | .ok (_, s3) => .ok ((resp, err), s3)
            else .ok ((resp, err), s2)

/-- The struct `loggingServerStream`: a server stream and the logger of its payloads. -/
structure loggingServerStream (σ ι : Type) where
  ServerStream : ServerStream σ ι
  logger : zerolog.Logger

def loggingServerStream.SendMsg {σ ι : Type} (env : Env σ) (asProto : ProtoView σ ι)
    (l : loggingServerStream σ ι) (m : ι) : Go σ Err :=
  fun s =>
    match l.ServerStream.SendMsg m s with
    | .error p => .error p
    | .ok (err, s1) =>
      if err = none then
        match logProtoMessageAsJson env asProto l.logger m "grpc.response.content"
            "server response payload logged as grpc.response.content field" s1 with
        | .error p => .error p
        | .ok (_, s2) => .ok (err, s2)
      else .ok (err, s1)

def loggingServerStream.RecvMsg {σ ι : Type} (env : Env σ) (asProto : ProtoView σ ι)
    (l : loggingServerStream σ ι) (m : ι) : Go σ (ι × Err) :=
  fun s =>
    match l.ServerStream.RecvMsg m s with
    | .error p => .error p
    | .ok ((m1, err), s1) =>
      if err = none then
        match logProtoMessageAsJson env asProto l.logger m1 "grpc.request.content"
            "server request payload logged as grpc.request.content field" s1 with
        | .error p => .error p
        | .ok (_, s2) => .ok ((m1, err), s2)
      else .ok ((m1, err), s1)

/-- The struct `loggingServerStream` seen as a `grpc.ServerStream`: `Context()` is
that of the stream inside, the message operations are its own. -/
def loggingServerStream.asStream {σ ι : Type} (env : Env σ) (asProto : ProtoView σ ι)
    (l : loggingServerStream σ ι) : grpc_zerolog.ServerStream σ ι :=
  { Context := l.ServerStream.Context
    SendMsg := l.SendMsg env asProto
    RecvMsg := l.RecvMsg env asProto }

/-- PayloadStreamServerInterceptor returns a new server server interceptors that logs the payloads of requests. -/
def PayloadStreamServerInterceptor {σ ι : Type} (env : Env σ) (asProto : ProtoView σ ι)
    (logger : zerolog.Logger) (decider : ServerPayloadLoggingDecider ι) (srv : ι)
    (stream : ServerStream σ ι) (info : StreamServerInfo) (handler : StreamHandler σ ι) :
    Go σ Err :=
  fun s =>
    if !decider stream.Context info.FullMethod srv then handler srv stream s
    else
      let fields := ctxzerolog.TagsToFields env stream.Context s
      let zerologCtx := logger.With.Fields fields
      match addServerCallFields info.FullMethod zerologCtx with
      | .error p => .error p
      | .ok zerologCtx =>
        let newStream : loggingServerStream σ ι :=
          { ServerStream := stream, logger := zerologCtx.Logger }
        handler srv (newStream.asStream env asProto) s

/-- PayloadUnaryClientInterceptor returns a new unary client interceptor that logs the payloads of requests and responses. -/
def PayloadUnaryClientInterceptor {σ ι : Type} (env : Env σ) (asProto : ProtoView σ ι)
    (logger : zerolog.Logger) (decider : ClientPayloadLoggingDecider) (ctx : context.Context)
    (method : String) (req reply : ι) (cc : ClientConn) (invoker : UnaryInvoker σ ι)
    (callOpts : List CallOption) : Go σ Err :=
  fun s =>
    if !decider ctx method then invoker ctx method req reply cc callOpts s
    else
      match newClientLogger ctx method logger with
      | .error p => .error p
      | .ok logEntry =>
        match logProtoMessageAsJson env asProto logEntry req "grpc.request.content"
            "client request payload logged as grpc.request.content" s with
        | .error p => .error p
        | .ok (_, s1) =>
          match invoker ctx method req reply cc callOpts s1 with
          | .error p => .error p
          | .ok (err, s2) =>
            if err = none then
              match logProtoMessageAsJson env asProto logEntry reply "grpc.response.content"
                  "client response payload logged as grpc.response.content" s2 with
              | .error p => .error p
              | .ok (_, s3) => .ok (err, s3)
            else .ok (err, s2)

/-- The struct `loggingClientStream`: a client stream, nil when `none`, and the
logger of its payloads. -/
structure loggingClientStream (σ ι : Type) where
  ClientStream : Option (ClientStream σ ι)
  logger : zerolog.Logger

/-- The panic of a method call on the nil stream inside a `loggingClientStream`. -/
def nilDereference : Panic := "runtime error: invalid memory address or nil pointer dereference"

def loggingClientStream.SendMsg {σ ι : Type} (env : Env σ) (asProto : ProtoView σ ι)
    (l : loggingClientStream σ ι) (m : ι) : Go σ Err :=
  fun s =>
    match l.ClientStream with
    | none => .error nilDereference
    | some cs =>
      match cs.SendMsg m s with
      | .error p => .error p
      | .ok (err, s1) =>
        if err = none then
          match logProtoMessageAsJson env asProto l.logger m "grpc.request.content"
              "server request payload logged as grpc.request.content field" s1 with
          | .error p => .error p
          | .ok (_, s2) => .ok (err, s2)
        else .ok (err, s1)

def loggingClientStream.RecvMsg {σ ι : Type} (env : Env σ) (asProto : ProtoView σ ι)
    (l : loggingClientStream σ ι) (m : ι) : Go σ (ι × Err) :=
  fun s =>
    match l.ClientStream with
    | none => .error nilDereference
    | some cs =>
      match cs.RecvMsg m s with
      | .error p => .error p
      | .ok ((m1, err), s1) =>
        if err = none then
          match logProtoMessageAsJson env asProto l.logger m1 "grpc.response.content"
              "server response payload logged as grpc.response.content field" s1 with
          | .error p => .error p
          | .ok (_, s2) => .ok ((m1, err), s2)
        else .ok ((m1, err), s1)

/-- The struct `loggingClientStream` seen as a `grpc.ClientStream`: the message
operations are its own, the other methods those of the stream inside. -/
def loggingClientStream.asStream {σ ι : Type} (env : Env σ) (asProto : ProtoView σ ι)
    (l : loggingClientStream σ ι) : grpc_zerolog.ClientStream σ ι :=
  { Context :=
      match l.ClientStream with
      | none => .error nilDereference
      | some cs => cs.Context
    SendMsg := l.SendMsg env asProto
    RecvMsg := l.RecvMsg env asProto
    CloseSend := fun s =>
      match l.ClientStream with
      | none => .error nilDereference
      | some cs => cs.CloseSend s }

/-- PayloadStreamClientInterceptor returns a new streaming client interceptor that logs the payloads of requests and responses. -/
def PayloadStreamClientInterceptor {σ ι : Type} (env : Env σ) (asProto : ProtoView σ ι)
    (logger : zerolog.Logger) (decider : ClientPayloadLoggingDecider) (ctx : context.Context)
    (desc : StreamDesc) (cc : ClientConn) (method : String) (streamer : Streamer σ ι)
    (callOpts : List CallOption) : Go σ (Option (ClientStream σ ι) × Err) :=
  fun s =>
    if !decider ctx method then streamer ctx desc cc method callOpts s
    else
      match newClientLogger ctx method logger with
      | .error p => .error p
      | .ok logEntry =>
        match streamer ctx desc cc method callOpts s with
        | .error p => .error p
        | .ok ((clientStream, err), s1) =>
          let newStream : loggingClientStream σ ι :=
            { ClientStream := clientStream, logger := logEntry }
          .ok ((some (newStream.asStream env asProto), err), s1)

/-! Probes and a sample environment, for counting what an interceptor does and
for running the model on concrete calls -/

/-- One invocation of a message producer: the arguments it was given. -/
structure ProducerCall where
  ctx : context.Context
  msg : String
  level : Level
  code : Code
  err : Err
  duration : GoMap
deriving DecidableEq, Repr

/-- A message producer that only records its invocations, in a world that
keeps the list of them next to a state `τ`. -/
def recordingProducer {τ : Type} : MessageProducer (τ × List ProducerCall) :=
  fun ctx msg level code err duration s =>
    .ok ((), (s.1, s.2 ++ [{ ctx := ctx, msg := msg, level := level, code := code, err := err,
                              duration := duration }]))

/-- The state of the sample world: a clock and the events the sink has received. -/
structure SampleState where
  clock : Time
  out : List zerolog.Event
deriving DecidableEq, Repr

/-- The sample world: the sample state and the invocations recorded by `recordingProducer`. -/
abbrev SampleWorld := SampleState × List ProducerCall

/-- The names `codes.Code.String()` gives to the codes, in the sample environment. -/
def sampleCodeString (c : Code) : String :=
  ["OK", "Canceled", "Unknown", "InvalidArgument", "DeadlineExceeded", "NotFound",
    "AlreadyExists", "PermissionDenied", "ResourceExhausted", "FailedPrecondition", "Aborted",
    "OutOfRange", "Unimplemented", "Internal", "Unavailable", "DataLoss",
    "Unauthenticated"].getD c "Code(?)"

/-- A sample environment: the clock of the state, a fixed time format, no tags,
a sink that keeps every event, a decider that logs every call and the code of
the error's status. -/
def sampleEnv : Env SampleWorld :=
  { now := fun s => s.1.clock
    formatRFC3339 := fun _ => "2006-01-02T15:04:05Z"
    codeString := sampleCodeString
    tags := fun _ _ => []
    emit := fun e s => .ok ((), ({ s.1 with out := s.1.out ++ [e] }, s.2))
    DefaultDeciderMethod := fun _ _ => true
    DefaultErrorToCode := fun err =>
      match err with
      | none => codes.OK
      | some e => e.status.getD codes.Unknown }

/-- A sample handler: it takes 5 ms and fails with the given error. -/
def sampleHandler (err : Err) : UnaryHandler SampleWorld String :=
  fun _ctx req s => .ok ((req, err), ({ s.1 with clock := s.1.clock + 5000000 }, s.2))

/-- A sample stream handler: it takes 5 ms and fails with the given error. -/
def sampleStreamHandler (err : Err) : StreamHandler SampleWorld String :=
  fun _srv _stream s => .ok (err, ({ s.1 with clock := s.1.clock + 5000000 }, s.2))

/-- A sample invoker: it takes 5 ms and fails with the given error. -/
def sampleInvoker (err : Err) : UnaryInvoker SampleWorld String :=
  fun _ctx _method _req _reply _cc _opts s =>
    .ok (err, ({ s.1 with clock := s.1.clock + 5000000 }, s.2))

/-- A sample streamer: it takes 5 ms and returns no stream and the given error. -/
def sampleStreamer (err : Err) : Streamer SampleWorld String :=
  fun _ctx _desc _cc _method _opts s =>
    .ok ((none, err), ({ s.1 with clock := s.1.clock + 5000000 }, s.2))

def sampleCtx : context.Context := { deadline := none, marker := none, rest := 0 }

def sampleStream : ServerStream SampleWorld String :=
  { Context := sampleCtx
    SendMsg := fun _ s => .ok (none, s)
    RecvMsg := fun m s => .ok ((m, none), s) }

def sampleLogger : zerolog.Logger := { writer := some 0, fields := [] }

def sampleStart : SampleWorld := ({ clock := 0, out := [] }, [])

def notFoundError : GoError := { text := "not found", status := some codes.NotFound }

def unauthenticatedError : GoError := { text := "no token", status := some codes.Unauthenticated }

def sampleInfo : UnaryServerInfo String := { Server := "srv", FullMethod := "/pkg.Service/Method" }

def sampleStreamInfo : StreamServerInfo :=
  { FullMethod := "/pkg.Service/Method", IsClientStream := true, IsServerStream := true }

/-- The context `newLoggerForCall` builds for the sample call. -/
def sampleServerCtx : context.Context :=
  ctxzerolog.ToContext sampleCtx
    { writer := some 0
      fields := [("grpc.start_time", Value.str "2006-01-02T15:04:05Z"),
        ("system", Value.str "grpc"), ("span.kind", Value.str "server"),
        ("grpc.service", Value.str "pkg.Service"), ("grpc.method", Value.str "Method")] }

/-- The logger `newClientLogger` builds for the sample call. -/
def sampleClientLogger : zerolog.Logger :=
  { writer := some 0
    fields := [("system", Value.str "grpc"), ("span.kind", Value.str "client"),
      ("grpc.service", Value.str "pkg.Service"), ("grpc.method", Value.str "Method")] }

/-- A list of options that overrides four of the five fields. -/
def sampleCalls : List (OptCall SampleWorld) :=
  [OptCall.withCodes (fun _ => codes.Internal), OptCall.withLevels (fun _ => zerolog.DebugLevel),
    OptCall.withDurationField DurationToField, OptCall.withMessageProducer recordingProducer]

/-- The decider of Example_initializationWithDecider (examples_test.go): a call to
the healthcheck that raised no error is not logged, everything else is. -/
def healthcheckDecider : Decider :=
  fun fullMethodName err =>
    if err = none ∧ fullMethodName = "foo.bar.healthcheck" then false else true

def healthcheckInfo : UnaryServerInfo String := { Server := "srv", FullMethod := "foo.bar.healthcheck" }

def sampleConn : ClientConn := { target := "localhost:8080" }

def sampleDesc : StreamDesc := { StreamName := "PingList", ServerStreams := true, ClientStreams := false }

/-- A sample handler that panics. -/
def panickingHandler : UnaryHandler SampleWorld String :=
  fun _ctx _req _s => .error "boom"

/-! Probes for the payload records: a sink that records, streams that do not
touch the records, and a driver that exchanges messages on a stream -/

/-- A sink that only records the events it is handed, in a world that keeps the
list of them next to a state `τ`. -/
def recordingEmit {τ : Type} : zerolog.Event → Go (τ × List zerolog.Event) Unit :=
  fun e s => .ok ((), (s.1, s.2 ++ [e]))

/-- An environment with its sink replaced by the recording one. -/
def withRecordingSink {τ : Type} (env : Env (τ × List zerolog.Event)) :
    Env (τ × List zerolog.Event) :=
  { env with emit := recordingEmit }

/-- The sink of zerolog, with the records it writes kept in the world, in order:
an event that is enabled is written, the event of a logger disabled at its level
(zerolog's nil event) is dropped. What the world holds is the output. -/
def zerologEmit {τ : Type} (globalLevel : Level) :
    zerolog.Event → Go (τ × List zerolog.Event) Unit :=
  fun e s => .ok ((), (s.1, s.2 ++ zerolog.written globalLevel [e]))

/-- An environment whose sink is zerolog under the given global level. -/
def withZerologSink {τ : Type} (globalLevel : Level) (env : Env (τ × List zerolog.Event)) :
    Env (τ × List zerolog.Event) :=
  { env with emit := zerologEmit globalLevel }

/-- A call on the state `τ`, run in the world that keeps the recorded events
next to it: it neither reads nor writes the records. -/
def liftGo {τ α : Type} (x : Go τ α) : Go (τ × List zerolog.Event) α :=
  fun s =>
    match x s.1 with
    | .error p => .error p
    | .ok (a, t) => .ok (a, (t, s.2))

/-- A server stream on the state `τ`, seen in the world with the recorded events. -/
def liftServerStream {τ ι : Type} (st : ServerStream τ ι) :
    ServerStream (τ × List zerolog.Event) ι :=
  { Context := st.Context
    SendMsg := fun m => liftGo (st.SendMsg m)
    RecvMsg := fun m => liftGo (st.RecvMsg m) }

/-- A client stream on the state `τ`, seen in the world with the recorded events. -/
def liftClientStream {τ ι : Type} (st : ClientStream τ ι) :
    ClientStream (τ × List zerolog.Event) ι :=
  { Context := st.Context
    SendMsg := fun m => liftGo (st.SendMsg m)
    RecvMsg := fun m => liftGo (st.RecvMsg m)
    CloseSend := liftGo st.CloseSend }

/-- One message operation of the application on a stream. -/
inductive StreamOp (ι : Type) where
  | send (m : ι)
  | recv (m : ι)

/-- The application exchanging messages: the calls `ops`, in order, on the
`SendMsg` and `RecvMsg` of a stream; the result lists, per call, the message
(as sent, or as filled in by `RecvMsg`) and the error returned. -/
def runOps {σ ι : Type} (sendMsg : ι → Go σ Err) (recvMsg : ι → Go σ (ι × Err)) :
    List (StreamOp ι) → Go σ (List (ι × Err))
  | [] => fun s => .ok ([], s)
  | StreamOp.send m :: rest => fun s =>
    match sendMsg m s with
    | .error p => .error p
    | .ok (err, s1) =>
      match runOps sendMsg recvMsg rest s1 with
      | .error p => .error p
      | .ok (rs, s2) => .ok ((m, err) :: rs, s2)
  | StreamOp.recv m :: rest => fun s =>
    match recvMsg m s with
    | .error p => .error p
    | .ok ((m1, err), s1) =>
      match runOps sendMsg recvMsg rest s1 with
      | .error p => .error p
      | .ok (rs, s2) => .ok ((m1, err) :: rs, s2)

/-- A client streaming call as the application makes it: it opens the stream,
through the interceptor chain `opened`, then exchanges the messages `ops` on the
stream it was returned; on a nil stream nothing is exchanged. -/
def openAndRun {σ ι : Type} (opened : Go σ (Option (ClientStream σ ι) × Err))
    (ops : List (StreamOp ι)) : Go σ (List (ι × Err)) :=
  fun s =>
    match opened s with
    | .error p => .error p
    | .ok ((none, _), s1) => .ok ([], s1)
    | .ok ((some st, _), s1) => runOps st.SendMsg st.RecvMsg ops s1

/-- The number of calls among `ops` of the given kind (`true` for SendMsg, `false`
for RecvMsg) that returned a nil error, `rs` being the results of the calls. -/
def successfulCalls {ι : Type} (isSend : Bool) : List (StreamOp ι) → List (ι × Err) → Nat
  | StreamOp.send _ :: ops, r :: rs =>
    (if isSend = true ∧ r.2 = none then 1 else 0) + successfulCalls isSend ops rs
  | StreamOp.recv _ :: ops, r :: rs =>
    (if isSend = false ∧ r.2 = none then 1 else 0) + successfulCalls isSend ops rs
  | _, _ => 0

/-- The number of events that carry a field with the given key. -/
def countKey (key : String) (events : List zerolog.Event) : Nat :=
  (events.filter (fun e => e.fields.any (fun kv => kv.1 == key))).length

/-- A unary handler that first adds the fields `fields` to the context it is
given, as `loggingPingService.Ping` of shared_test.go does, then runs `body`. -/
def addFieldsHandler {σ ι : Type} (fields : GoMap) (body : UnaryHandler σ ι) : UnaryHandler σ ι :=
  fun ctx req s =>
    match ctxzerolog.AddFields ctx fields with
    | .error p => .error p
    | .ok ctx1 => body ctx1 req s

/-- A stream handler that first adds the fields `fields` to the context of the
stream it is given, then runs `body`. -/
def addFieldsStreamHandler {σ ι : Type} (fields : GoMap) (body : StreamHandler σ ι) :
    StreamHandler σ ι :=
  fun srv stream s =>
    match ctxzerolog.AddFields stream.Context fields with
    | .error p => .error p
    | .ok ctx1 => body srv { stream with Context := ctx1 } s

/-- A sample view of the string values: every value is a protobuf message that
renders as itself. -/
def sampleProto {σ : Type} : ProtoView σ String := fun m _ => some m

/-- The sample world with a recording sink: a clock and the events recorded. -/
abbrev SinkWorld := Time × List zerolog.Event

/-- The sample environment over that world, before its sink is replaced. -/
def sinkBase : Env SinkWorld :=
  { now := fun s => s.1
    formatRFC3339 := fun _ => "2006-01-02T15:04:05Z"
    codeString := sampleCodeString
    tags := fun _ _ => []
    emit := fun _ s => .ok ((), s)
    DefaultDeciderMethod := fun _ _ => true
    DefaultErrorToCode := fun err =>
      match err with
      | none => codes.OK
      | some e => e.status.getD codes.Unknown }

/-- The sample environment over the world with a recording sink. -/
def sinkEnv : Env SinkWorld := withRecordingSink sinkBase

/-- A sample handler in the world with a recording sink: it takes 5 ms, echoes
the request and returns the given error. -/
def sinkHandler (err : Err) : UnaryHandler SinkWorld String :=
  fun _ctx req s => .ok ((req, err), (s.1 + 5000000, s.2))

/-- A sample invoker in the world with a recording sink. -/
def sinkInvoker (err : Err) : UnaryInvoker SinkWorld String :=
  fun _ctx _method _req _reply _cc _opts s => .ok (err, (s.1 + 5000000, s.2))

/-- The logger the payload server interceptors build for the sample call. -/
def samplePayloadLogger : zerolog.Logger :=
  { writer := some 0
    fields := [("system", Value.str "grpc"), ("span.kind", Value.str "server"),
      ("grpc.service", Value.str "pkg.Service"), ("grpc.method", Value.str "Method")] }

def eofError : GoError := { text := "EOF", status := none }

/-- A sample server stream on a clock: every call takes 1 ms; sending succeeds,
receiving fills in the message "ping" until the application asks for "last",
which ends in the error EOF. -/
def clockServerStream : ServerStream Time String :=
  { Context := sampleCtx
    SendMsg := fun _ t => .ok (none, t + 1000000)
    RecvMsg := fun m t =>
      if m = "last" then .ok ((m, some eofError), t + 1000000)
      else .ok (("ping", none), t + 1000000) }

/-- A sample client stream on a clock, with the same behaviour. -/
def clockClientStream : ClientStream Time String :=
  { Context := .ok sampleCtx
    SendMsg := fun _ t => .ok (none, t + 1000000)
    RecvMsg := fun m t =>
      if m = "last" then .ok ((m, some eofError), t + 1000000)
      else .ok (("pong", none), t + 1000000)
    CloseSend := fun t => .ok (none, t) }

/-- A sample streamer in the world with a recording sink: it takes 1 ms and
returns the sample client stream. -/
def clockStreamer : Streamer SinkWorld String :=
  fun _ctx _desc _cc _method _opts s =>
    .ok ((some (liftClientStream clockClientStream), none), (s.1 + 1000000, s.2))

/-- A sample exchange: two messages sent, one received, one receive that fails. -/
def sampleOps : List (StreamOp String) :=
  [StreamOp.send "a", StreamOp.recv "", StreamOp.send "b", StreamOp.recv "last"]

/-- Whether a logger carries a field with the given key. -/
def carriesField (l : zerolog.Logger) (key : String) : Bool :=
  l.fields.any (fun kv => kv.1 == key)

/-- A base logger that already carries a field named grpc.request.deadline. -/
def deadlineLogger : zerolog.Logger :=
  { writer := some 0, fields := [("grpc.request.deadline", Value.str "never")] }

/-- A sample context with a deadline. -/
def deadlineCtx : context.Context := { deadline := some 30000000000, marker := none, rest := 0 }

/-! The options structs as memory cells. `defaultOptions` is a pointer to one
struct shared by the whole package, `evaluateServerOpt` and `evaluateClientOpt`
allocate a struct of their own, and an `Option` is a `func(*options)` that writes
through the pointer it is given. The definitions of namespace `mem` are the same
functions of options.go with the pointers kept. -/

/-- A pointer to a struct `options`: the package variable `defaultOptions`, or
the struct made by the given allocation `&options{}`, counted from zero. -/
inductive OptionsPtr where
  | defaultOptions
  | allocated (i : Nat)
  deriving DecidableEq, Repr

/-- The structs `options` in memory: the one `defaultOptions` points to and the
ones allocated so far, in the order of their allocation. -/
structure OptionsHeap (σ : Type) where
  defaultCell : options σ
  allocated : List (options σ)

/-- The element at the given position replaced by its image; a list without
that position is left as it is. -/
def modifyAt {α : Type} (f : α → α) : Nat → List α → List α
  | _, [] => []
  | 0, a :: l => f a :: l
  | n + 1, a :: l => a :: modifyAt f n l

/-- The read `*p`. -/
def OptionsHeap.read {σ : Type} (h : OptionsHeap σ) : OptionsPtr → Option (options σ)
  | .defaultOptions => some h.defaultCell
  | .allocated i => h.allocated[i]?

/-- A write through `p`: the struct `p` points to is replaced by its image. -/
def OptionsHeap.update {σ : Type} (h : OptionsHeap σ) (p : OptionsPtr)
    (f : options σ → options σ) : OptionsHeap σ :=
  match p with
  | .defaultOptions => { h with defaultCell := f h.defaultCell }
  | .allocated i => { h with allocated := modifyAt f i h.allocated }

/-- The memory when the package is initialised: `defaultOptions` points to the
struct of the five default functions, and nothing else is allocated. -/
def initialHeap {σ : Type} (env : Env σ) : OptionsHeap σ :=
  { defaultCell := defaultOptions env, allocated := [] }

/-- The Go type `Option`, a `func(*options)`, with the pointer kept: what calling
it on a pointer does to the memory. -/
abbrev mem.Option (σ : Type) := OptionsPtr → OptionsHeap σ → OptionsHeap σ

/-- WithDecider: `o.shouldLog = f`. -/
def mem.WithDecider {σ : Type} (f : Decider) : mem.Option σ :=
  fun o h => h.update o (fun c => { c with shouldLog := f })

/-- WithLevels: `o.levelFunc = f`. -/
def mem.WithLevels {σ : Type} (f : CodeToLevel) : mem.Option σ :=
  fun o h => h.update o (fun c => { c with levelFunc := f })

/-- WithCodes: `o.codeFunc = f`. -/
def mem.WithCodes {σ : Type} (f : ErrorToCode) : mem.Option σ :=
  fun o h => h.update o (fun c => { c with codeFunc := f })

/-- WithDurationField: `o.durationFunc = f`. -/
def mem.WithDurationField {σ : Type} (f : DurationToMap) : mem.Option σ :=
  fun o h => h.update o (fun c => { c with durationFunc := f })

/-- WithMessageProducer: `o.messageFunc = f`. -/
def mem.WithMessageProducer {σ : Type} (f : MessageProducer σ) : mem.Option σ :=
  fun o h => h.update o (fun c => { c with messageFunc := f })

/-- The option a With* call returns, with the pointer kept. -/
def OptCall.toMemOption {σ : Type} : OptCall σ → mem.Option σ
  | .withDecider f => mem.WithDecider f
  | .withLevels f => mem.WithLevels f
  | .withCodes f => mem.WithCodes f
  | .withDurationField f => mem.WithDurationField f
  | .withMessageProducer f => mem.WithMessageProducer f

/-- The function evaluateServerOpt with the pointers kept. `optCopy := &options{}`
followed by `*optCopy = *defaultOptions` allocates a struct holding a copy of the
one `defaultOptions` points to; then `optCopy.levelFunc` is written and every
option is called on `optCopy`, which is returned. -/
def mem.evaluateServerOpt {σ : Type} (opts : List (mem.Option σ)) (h : OptionsHeap σ) :
    OptionsPtr × OptionsHeap σ :=
  let optCopy := OptionsPtr.allocated h.allocated.length
  let h := { h with allocated := h.allocated ++ [h.defaultCell] }
  let h := h.update optCopy (fun c => { c with levelFunc := DefaultCodeToLevel })
  (optCopy, opts.foldl (fun h o => o optCopy h) h)

/-- The function evaluateClientOpt with the pointers kept. -/
def mem.evaluateClientOpt {σ : Type} (opts : List (mem.Option σ)) (h : OptionsHeap σ) :
    OptionsPtr × OptionsHeap σ :=
  let optCopy := OptionsPtr.allocated h.allocated.length
  let h := { h with allocated := h.allocated ++ [h.defaultCell] }
  let h := h.update optCopy (fun c => { c with levelFunc := DefaultClientCodeToLevel })
  (optCopy, opts.foldl (fun h o => o optCopy h) h)

/-- The construction of one interceptor with a list of With* options: the server
constructors (UnaryServerInterceptor, StreamServerInterceptor) call
evaluateServerOpt, the client constructors (UnaryClientInterceptor,
StreamClientInterceptor) call evaluateClientOpt, and neither writes to memory
otherwise. -/
inductive Construction (σ : Type) where
  | server (opts : List (OptCall σ))
  | client (opts : List (OptCall σ))

/-- The pointer the constructed interceptor keeps, and the memory after the
construction. -/
def Construction.run {σ : Type} : Construction σ → OptionsHeap σ → OptionsPtr × OptionsHeap σ
  | .server opts => mem.evaluateServerOpt (opts.map OptCall.toMemOption)
  | .client opts => mem.evaluateClientOpt (opts.map OptCall.toMemOption)

/-- The options of the constructed interceptor when `defaultOptions` holds the
defaults, computed on values. -/
def Construction.value {σ : Type} (env : Env σ) : Construction σ → options σ
  | .server opts => evaluateServerOpt env (opts.map OptCall.toOption)
  | .client opts => evaluateClientOpt env (opts.map OptCall.toOption)

/-- The memory after a sequence of constructions, one after the other. -/
def constructAll {σ : Type} (cs : List (Construction σ)) (h : OptionsHeap σ) : OptionsHeap σ :=
  cs.foldl (fun h c => (c.run h).2) h

/-- A sample view of messages in which the message "raw" is not a protobuf
message and every other one is, rendered as itself. -/
def rawOrProto {σ : Type} : ProtoView σ String :=
  fun m _ => if m = "raw" then none else some m

/-- The sample constructions: a server interceptor with a classifier of its own,
then a server and a client interceptor without options. -/
def sampleConstructions : List (Construction SampleWorld) :=
  [Construction.server [OptCall.withLevels customClientCodeToLevel,
      OptCall.withDurationField DurationToField],
    Construction.server [], Construction.client []]

/-! The call context store with the pointers kept. The context holds a
`*ctxLogger`; `ToContext` allocates the struct, `AddFields` writes to it in place
and `Extract` reads it. The definitions of namespace `heap` are the functions of
ctxzerolog/context.go on a memory of such structs. -/

/-- The `ctxLogger` structs in memory, in the order of their allocation; a pointer
`*ctxLogger` is a position in it. -/
abbrev StoreHeap := List ctxzerolog.ctxLogger

/-- A `context.Context` whose value under `ctxMarkerKey` is kept as the pointer it is. -/
structure heap.Context where
  deadline : Option Time
  marker : Option Nat
  rest : Nat
deriving DecidableEq, Repr

/-- The context as it reads in a memory: the pointer replaced by the struct behind it. -/
def heap.Context.read (c : heap.Context) (h : StoreHeap) : context.Context :=
  { deadline := c.deadline, marker := c.marker.bind (fun p => h[p]?), rest := c.rest }

/-- Whether the pointer the context holds, if any, is to a struct of the memory. -/
def heap.Context.allocated (c : heap.Context) (h : StoreHeap) : Bool :=
  match c.marker with
  | none => true
  | some p => decide (p < h.length)

/-- ToContext with the pointer kept: `l := &ctxLogger{logger: logger}` allocates a
struct with a nil field map, and the new context holds the pointer to it. -/
def heap.ToContext (ctx : heap.Context) (logger : zerolog.Logger) (h : StoreHeap) :
    heap.Context × StoreHeap :=
  ({ ctx with marker := some h.length }, h ++ [{ logger := logger, fields := none }])

/-- AddFields with the pointer kept: the assignments `l.fields[k] = v` are made in
the struct the context points to. -/
def heap.AddFields (ctx : heap.Context) (fields : GoMap) (h : StoreHeap) : Except Panic StoreHeap :=
  match ctx.marker with
  | none => .ok h
  | some p =>
    match h[p]? with
    | none => .ok h
    | some l =>
      match ctxzerolog.assignFields l.fields fields with
      | .error e => .error e
      | .ok store => .ok (modifyAt (fun c => { c with fields := store }) p h)

/-- Extract with the pointer kept. -/
def heap.Extract {σ : Type} (env : Env σ) (ctx : heap.Context) (s : σ) (h : StoreHeap) :
    zerolog.Logger :=
  match ctx.marker.bind (fun p => h[p]?) with
  | none => ctxzerolog.nullLogger
  | some l =>
    let fields := ctxzerolog.TagsToFields env (ctx.read h) s
    let fields := (l.fields.getD []).foldl (fun fields kv => fields.set kv.1 kv.2) fields
    ((l.logger.With).Fields fields).Logger

/-- The value that the assignments `fields[k] = v` of a list, made in order, leave
under the key `k`: that of the last assignment to `k`. -/
def lastValue (k : String) : GoMap → Option Value
  | [] => none
  | kv :: rest =>
    match lastValue k rest with
    | some v => some v
    | none => if kv.1 = k then some kv.2 else none

/-- The sample environment with the two tags of the example handler set. -/
def taggedEnv : Env SampleWorld :=
  { sampleEnv with
    tags := fun _ _ =>
      [("custom_tags.string", Value.str "something"), ("custom_tags.int", Value.int 1337)] }

/-- A memory with one store, to which the field custom_field was added. -/
def sampleHeap : StoreHeap :=
  [{ logger := sampleLogger, fields := some [("custom_field", Value.str "custom_value")] }]

/-- A parent context that holds the pointer to the store of the sample memory. -/
def sampleParent : heap.Context := { deadline := none, marker := some 0, rest := 0 }

/-- A logger on the sample writer with the level `WarnLevel`: it makes no event
below warn. -/
def warnLogger : zerolog.Logger := { writer := some 0, fields := [], level := zerolog.WarnLevel }

/-! Theorems -/

section Lemmas

variable {σ ι : Type}

theorem codes_ne (c : Code) (h : 16 < c) :
    c ≠ codes.OK ∧ c ≠ codes.Canceled ∧ c ≠ codes.Unknown ∧ c ≠ codes.InvalidArgument ∧
    c ≠ codes.DeadlineExceeded ∧ c ≠ codes.NotFound ∧ c ≠ codes.AlreadyExists ∧
    c ≠ codes.PermissionDenied ∧ c ≠ codes.ResourceExhausted ∧ c ≠ codes.FailedPrecondition ∧
    c ≠ codes.Aborted ∧ c ≠ codes.OutOfRange ∧ c ≠ codes.Unimplemented ∧ c ≠ codes.Internal ∧
    c ≠ codes.Unavailable ∧ c ≠ codes.DataLoss ∧ c ≠ codes.Unauthenticated := by
  refine ⟨?_, ?_, ?_, ?_, ?_, ?_, ?_, ?_, ?_, ?_, ?_, ?_, ?_, ?_, ?_, ?_, ?_⟩ <;>
    (intro h1; rw [h1] at h; revert h; decide)

theorem lastTouching_nil {α β : Type} (touch : α → Option β) (dflt : β) :
    lastTouching touch dflt [] = dflt := rfl

theorem lastTouching_snoc {α β : Type} (touch : α → Option β) (dflt : β) (l : List α) (c : α) :
    lastTouching touch dflt (l ++ [c]) = (touch c).getD (lastTouching touch dflt l) := by
  unfold lastTouching
  rw [List.reverse_append]
  cases h : touch c <;> simp [List.findSome?, h]

theorem foldl_options_eq_spec (base : options σ) (calls : List (OptCall σ)) :
    (calls.map OptCall.toOption).foldl (fun optCopy o => o optCopy) base = specOptions base calls := by
  induction calls using List.reverseRecOn with
  | nil => rfl
  | append_singleton l c ih =>
    rw [List.map_append, List.foldl_append, ih]
    cases c <;>
      simp [specOptions, lastTouching_snoc, OptCall.toOption, WithDecider, WithLevels, WithCodes,
        WithDurationField, WithMessageProducer, OptCall.decider?, OptCall.levels?, OptCall.codes?,
        OptCall.durationField?, OptCall.messageProducer?]

theorem evaluateServerOpt_eq_spec (env : Env σ) (calls : List (OptCall σ)) :
    evaluateServerOpt env (calls.map OptCall.toOption) = specOptions (serverBaseline env) calls := by
  unfold evaluateServerOpt
  exact foldl_options_eq_spec _ calls

theorem evaluateClientOpt_eq_spec (env : Env σ) (calls : List (OptCall σ)) :
    evaluateClientOpt env (calls.map OptCall.toOption) = specOptions (clientBaseline env) calls := by
  unfold evaluateClientOpt
  exact foldl_options_eq_spec _ calls

theorem dot_if_empty_ne_nil (out : List Char) :
    (if out.length = 0 then ['.'] else out) ≠ [] := by
  split
  · simp
  · intro h
    simp_all

theorem cleanChars_ne_nil (p : List Char) : path.cleanChars p ≠ [] := by
  cases p with
  | nil => simp [path.cleanChars]
  | cons c rest => exact dot_if_empty_ne_nil _

theorem sliceFrom_Dir_ok (fullMethodString : String) :
    ∃ service, sliceFrom (path.Dir fullMethodString) 1 = .ok service := by
  unfold sliceFrom
  have h : 1 ≤ (path.Dir fullMethodString).data.length := by
    have := cleanChars_ne_nil (path.dirPart fullMethodString.data)
    simp only [path.Dir, path.Clean]
    exact List.length_pos.mpr this
  rw [if_pos h]
  exact ⟨_, rfl⟩

theorem addServerCallFields_ok (fullMethodString : String) (zerologCtx : zerolog.Context) :
    ∃ c, addServerCallFields fullMethodString zerologCtx = .ok c := by
  obtain ⟨service, h⟩ := sliceFrom_Dir_ok fullMethodString
  unfold addServerCallFields
  rw [h]
  exact ⟨_, rfl⟩

theorem newLoggerForCall_ok (env : Env σ) (ctx : context.Context) (logger : zerolog.Logger)
    (fullMethodString : String) (start : Time) :
    ∃ newCtx, newLoggerForCall env ctx logger fullMethodString start = .ok newCtx := by
  unfold newLoggerForCall
  simp only
  obtain ⟨c, h⟩ := addServerCallFields_ok fullMethodString
    (match ctx.deadline with
      | some d => (logger.With.Str "grpc.start_time" (env.formatRFC3339 start)).Str
          "grpc.request.deadline" (env.formatRFC3339 d)
      | none => logger.With.Str "grpc.start_time" (env.formatRFC3339 start))
  rw [h]
  exact ⟨_, rfl⟩

theorem newClientLogger_ok (ctx : context.Context) (fullMethodString : String)
    (logger : zerolog.Logger) :
    ∃ l, newClientLogger ctx fullMethodString logger = .ok l := by
  obtain ⟨service, h⟩ := sliceFrom_Dir_ok fullMethodString
  unfold newClientLogger
  rw [h]
  exact ⟨_, rfl⟩

theorem after_producer_eq_map {α : Type} (r : Except Panic (Unit × σ)) (v : α) :
    (match r with
      | .error p => (.error p : Except Panic (α × σ))
      | .ok (_, s2) => .ok (v, s2)) = Except.map (fun r => (v, r.2)) r := by
  cases r <;> rfl

theorem lastTouching_of_none {α β : Type} (touch : α → Option β) (dflt : β) (l : List α)
    (h : ∀ c ∈ l, touch c = none) : lastTouching touch dflt l = dflt := by
  induction l using List.reverseRecOn with
  | nil => rfl
  | append_singleton l c ih =>
    rw [lastTouching_snoc, h c (by simp), Option.getD_none]
    exact ih (fun x hx => h x (by simp [hx]))

end Lemmas

/-- C1: the server policy `DefaultCodeToLevel` returns the tabulated severity for
each of the 17 named gRPC codes: info for OK, Canceled, InvalidArgument, NotFound,
AlreadyExists and Unauthenticated; warn for DeadlineExceeded, PermissionDenied,
ResourceExhausted, FailedPrecondition, Aborted, OutOfRange and Unavailable; error
for Unknown, Unimplemented, Internal and DataLoss. -/
theorem DefaultCodeToLevel_table :
    (DefaultCodeToLevel codes.OK = zerolog.InfoLevel ∧
      DefaultCodeToLevel codes.Canceled = zerolog.InfoLevel ∧
      DefaultCodeToLevel codes.InvalidArgument = zerolog.InfoLevel ∧
      DefaultCodeToLevel codes.NotFound = zerolog.InfoLevel ∧
      DefaultCodeToLevel codes.AlreadyExists = zerolog.InfoLevel ∧
      DefaultCodeToLevel codes.Unauthenticated = zerolog.InfoLevel) ∧
    (DefaultCodeToLevel codes.DeadlineExceeded = zerolog.WarnLevel ∧
      DefaultCodeToLevel codes.PermissionDenied = zerolog.WarnLevel ∧
      DefaultCodeToLevel codes.ResourceExhausted = zerolog.WarnLevel ∧
      DefaultCodeToLevel codes.FailedPrecondition = zerolog.WarnLevel ∧
      DefaultCodeToLevel codes.Aborted = zerolog.WarnLevel ∧
      DefaultCodeToLevel codes.OutOfRange = zerolog.WarnLevel ∧
      DefaultCodeToLevel codes.Unavailable = zerolog.WarnLevel) ∧
    (DefaultCodeToLevel codes.Unknown = zerolog.ErrorLevel ∧
      DefaultCodeToLevel codes.Unimplemented = zerolog.ErrorLevel ∧
      DefaultCodeToLevel codes.Internal = zerolog.ErrorLevel ∧
      DefaultCodeToLevel codes.DataLoss = zerolog.ErrorLevel) := by
  decide

/-- C2, counterexample: the client policy `DefaultClientCodeToLevel` does not
return debug for Unauthenticated; it returns info. -/
theorem DefaultClientCodeToLevel_Unauthenticated_not_debug :
    ¬ (DefaultClientCodeToLevel codes.OK = zerolog.DebugLevel ∧
      DefaultClientCodeToLevel codes.Canceled = zerolog.DebugLevel ∧
      DefaultClientCodeToLevel codes.InvalidArgument = zerolog.DebugLevel ∧
      DefaultClientCodeToLevel codes.NotFound = zerolog.DebugLevel ∧
      DefaultClientCodeToLevel codes.AlreadyExists = zerolog.DebugLevel ∧
      DefaultClientCodeToLevel codes.Unauthenticated = zerolog.DebugLevel) := by
  decide

/-- C2, amended: the client policy `DefaultClientCodeToLevel` returns debug for
OK, Canceled, InvalidArgument, NotFound and AlreadyExists, and info for
Unauthenticated. -/
theorem DefaultClientCodeToLevel_first_row :
    DefaultClientCodeToLevel codes.OK = zerolog.DebugLevel ∧
    DefaultClientCodeToLevel codes.Canceled = zerolog.DebugLevel ∧
    DefaultClientCodeToLevel codes.InvalidArgument = zerolog.DebugLevel ∧
    DefaultClientCodeToLevel codes.NotFound = zerolog.DebugLevel ∧
    DefaultClientCodeToLevel codes.AlreadyExists = zerolog.DebugLevel ∧
    DefaultClientCodeToLevel codes.Unauthenticated = zerolog.InfoLevel := by
  decide

/-- C3, counterexample: the client policy `DefaultClientCodeToLevel` does not
return info for Unavailable; it returns warn, which is neither debug nor info. -/
theorem DefaultClientCodeToLevel_Unavailable_not_info :
    ¬ (DefaultClientCodeToLevel codes.Unavailable = zerolog.InfoLevel ∧
      DefaultClientCodeToLevel codes.DeadlineExceeded = zerolog.InfoLevel) ∧
    DefaultClientCodeToLevel codes.Unavailable = zerolog.WarnLevel := by
  decide

/-- C3, amended: the client policy `DefaultClientCodeToLevel` returns info for
DeadlineExceeded and warn for Unavailable, and returns debug or info for each of
the other codes of that table row: info for PermissionDenied, debug for
ResourceExhausted, FailedPrecondition, Aborted and OutOfRange. -/
theorem DefaultClientCodeToLevel_second_row :
    DefaultClientCodeToLevel codes.DeadlineExceeded = zerolog.InfoLevel ∧
    DefaultClientCodeToLevel codes.Unavailable = zerolog.WarnLevel ∧
    DefaultClientCodeToLevel codes.PermissionDenied = zerolog.InfoLevel ∧
    DefaultClientCodeToLevel codes.ResourceExhausted = zerolog.DebugLevel ∧
    DefaultClientCodeToLevel codes.FailedPrecondition = zerolog.DebugLevel ∧
    DefaultClientCodeToLevel codes.Aborted = zerolog.DebugLevel ∧
    DefaultClientCodeToLevel codes.OutOfRange = zerolog.DebugLevel := by
  decide

/-- C4: both default classifiers are total on the code space, and for every code
that is not one of the 17 named codes (every numeric code greater than 16)
`DefaultCodeToLevel` returns error and `DefaultClientCodeToLevel` returns info. -/
theorem default_classifiers_unknown_code (c : Code) (h : 16 < c) :
    DefaultCodeToLevel c = zerolog.ErrorLevel ∧ DefaultClientCodeToLevel c = zerolog.InfoLevel := by
  obtain ⟨h0, h1, h2, h3, h4, h5, h6, h7, h8, h9, h10, h11, h12, h13, h14, h15, h16⟩ := codes_ne c h
  constructor
  · unfold DefaultCodeToLevel
    rw [if_neg h0, if_neg h1, if_neg h2, if_neg h3, if_neg h4, if_neg h5, if_neg h6, if_neg h7,
      if_neg h16, if_neg h8, if_neg h9, if_neg h10, if_neg h11, if_neg h12, if_neg h13, if_neg h14,
      if_neg h15]
  · unfold DefaultClientCodeToLevel
    rw [if_neg h0, if_neg h1, if_neg h2, if_neg h3, if_neg h4, if_neg h5, if_neg h6, if_neg h7,
      if_neg h16, if_neg h8, if_neg h9, if_neg h10, if_neg h11, if_neg h12, if_neg h13, if_neg h14,
      if_neg h15]

/-- C4, witness: the first unnamed code, 17, and the largest 32-bit code. -/
theorem default_classifiers_unknown_code_witness :
    (16 < 17 ∧ DefaultCodeToLevel 17 = zerolog.ErrorLevel ∧
      DefaultClientCodeToLevel 17 = zerolog.InfoLevel) ∧
    (DefaultCodeToLevel 4294967295 = zerolog.ErrorLevel ∧
      DefaultClientCodeToLevel 4294967295 = zerolog.InfoLevel) :=
  ⟨⟨by decide, default_classifiers_unknown_code 17 (by decide)⟩,
    default_classifiers_unknown_code 4294967295 (by decide)⟩

/-- C10: `evaluateServerOpt` and `evaluateClientOpt` are the left-to-right fold of
the options over the default baseline, and for every list of With* options each
of the five fields holds the function of the last option in the list that
touches it, or the default when none does; the empty list yields the defaults
and `[WithLevels f, WithLevels g]` yields `levelFunc = g`. -/
theorem evaluate_options_last_wins {σ : Type} (env : Env σ) :
    (∀ opts : List (OptionFn σ),
      evaluateServerOpt env opts = opts.foldl (fun o f => f o) (serverBaseline env) ∧
      evaluateClientOpt env opts = opts.foldl (fun o f => f o) (clientBaseline env)) ∧
    (∀ calls : List (OptCall σ),
      evaluateServerOpt env (calls.map OptCall.toOption) =
        { levelFunc := lastTouching OptCall.levels? DefaultCodeToLevel calls
          shouldLog := lastTouching OptCall.decider? env.DefaultDeciderMethod calls
          codeFunc := lastTouching OptCall.codes? env.DefaultErrorToCode calls
          durationFunc := lastTouching OptCall.durationField? DefaultDurationToField calls
          messageFunc := lastTouching OptCall.messageProducer? (DefaultMessageProducer env) calls } ∧
      evaluateClientOpt env (calls.map OptCall.toOption) =
        { levelFunc := lastTouching OptCall.levels? DefaultClientCodeToLevel calls
          shouldLog := lastTouching OptCall.decider? env.DefaultDeciderMethod calls
          codeFunc := lastTouching OptCall.codes? env.DefaultErrorToCode calls
          durationFunc := lastTouching OptCall.durationField? DefaultDurationToField calls
          messageFunc := lastTouching OptCall.messageProducer? (DefaultMessageProducer env) calls }) ∧
    (evaluateServerOpt env [] = serverBaseline env ∧
      evaluateClientOpt env [] = clientBaseline env) ∧
    (∀ f g : CodeToLevel,
      (evaluateServerOpt env [WithLevels f, WithLevels g]).levelFunc = g ∧
      (evaluateClientOpt env [WithLevels f, WithLevels g]).levelFunc = g) := by
  refine ⟨fun opts => ⟨rfl, rfl⟩, fun calls => ⟨?_, ?_⟩, ⟨rfl, rfl⟩, fun f g => ⟨rfl, rfl⟩⟩
  · rw [evaluateServerOpt_eq_spec]
    rfl
  · rw [evaluateClientOpt_eq_spec]
    rfl

/-- C5: for every handler outcome (resp, err) for which the decider returns true,
`UnaryServerInterceptor` and `StreamServerInterceptor` call the configured message
producer, from the world the handler left, with code = codeFunc(err),
level = levelFunc(code), the handler's err, the map durationFunc(elapsed) and the
message "finished unary call with code " + code.String() (respectively
"finished streaming call with code " + code.String()), where every function is the
one of the last With* option that sets it, and the default only when no option
does; the interceptor then returns the handler's outcome. -/
theorem server_interceptors_invoke_producer {σ ι : Type} (env : Env σ) (logger : zerolog.Logger)
    (calls : List (OptCall σ)) :
    let shouldLog := lastTouching OptCall.decider? env.DefaultDeciderMethod calls
    let codeFunc := lastTouching OptCall.codes? env.DefaultErrorToCode calls
    let levelFunc := lastTouching OptCall.levels? DefaultCodeToLevel calls
    let durationFunc := lastTouching OptCall.durationField? DefaultDurationToField calls
    let messageFunc := lastTouching OptCall.messageProducer? (DefaultMessageProducer env) calls
    (∀ (ctx : context.Context) (req : ι) (info : UnaryServerInfo ι) (handler : UnaryHandler σ ι)
        (s s1 : σ) (newCtx : context.Context) (resp : ι) (err : Err),
        newLoggerForCall env ctx logger info.FullMethod (env.now s) = .ok newCtx →
        handler newCtx req s = .ok ((resp, err), s1) →
        shouldLog info.FullMethod err = true →
        UnaryServerInterceptor env logger (calls.map OptCall.toOption) ctx req info handler s =
          Except.map (fun r => ((resp, err), r.2))
            (messageFunc newCtx ("finished unary call with code " ++ env.codeString (codeFunc err))
              (levelFunc (codeFunc err)) (codeFunc err) err
              (durationFunc (time.Sub (env.now s1) (env.now s))) s1)) ∧
    (∀ (srv : ι) (stream : ServerStream σ ι) (info : StreamServerInfo) (handler : StreamHandler σ ι)
        (s s1 : σ) (newCtx : context.Context) (err : Err),
        newLoggerForCall env stream.Context logger info.FullMethod (env.now s) = .ok newCtx →
        handler srv { stream with Context := newCtx } s = .ok (err, s1) →
        shouldLog info.FullMethod err = true →
        StreamServerInterceptor env logger (calls.map OptCall.toOption) srv stream info handler s =
          Except.map (fun r => (err, r.2))
            (messageFunc newCtx
              ("finished streaming call with code " ++ env.codeString (codeFunc err))
              (levelFunc (codeFunc err)) (codeFunc err) err
              (durationFunc (time.Sub (env.now s1) (env.now s))) s1)) := by
  intro shouldLog codeFunc levelFunc durationFunc messageFunc
  constructor
  · intro ctx req info handler s s1 newCtx resp err hctx hh hd
    have hd1 : (specOptions (serverBaseline env) calls).shouldLog info.FullMethod err = true := hd
    unfold UnaryServerInterceptor
    simp only [evaluateServerOpt_eq_spec, hctx, hh, hd1]
    rw [if_neg (by simp)]
    exact after_producer_eq_map _ _
  · intro srv stream info handler s s1 newCtx err hctx hh hd
    have hd1 : (specOptions (serverBaseline env) calls).shouldLog info.FullMethod err = true := hd
    have hh1 : handler srv
        (WrappedServerStream.asStream { WrapServerStream stream with WrappedContext := newCtx }) s =
        .ok (err, s1) := hh
    unfold StreamServerInterceptor
    simp only [evaluateServerOpt_eq_spec, hctx, hh1, hd1]
    rw [if_neg (by simp)]
    exact after_producer_eq_map _ _

/-- C5, witness: a unary and a streaming call that fail with NotFound, through
interceptors built with WithCodes, WithLevels, WithDurationField and
WithMessageProducer: the recording producer is called with the overriding code,
level and duration map. -/
theorem server_interceptors_invoke_producer_witness :
    (newLoggerForCall sampleEnv sampleCtx sampleLogger sampleInfo.FullMethod
        (sampleEnv.now sampleStart) = .ok sampleServerCtx ∧
      UnaryServerInterceptor sampleEnv sampleLogger (sampleCalls.map OptCall.toOption) sampleCtx
        "ping" sampleInfo (sampleHandler (some notFoundError)) sampleStart =
        .ok (("ping", some notFoundError), ({ clock := 5000000, out := [] },
          [{ ctx := sampleServerCtx, msg := "finished unary call with code Internal",
             level := zerolog.DebugLevel, code := codes.Internal, err := some notFoundError,
             duration := [("grpc.duration", Value.int 5000000)] }]))) ∧
    StreamServerInterceptor sampleEnv sampleLogger (sampleCalls.map OptCall.toOption) "srv"
      sampleStream sampleStreamInfo (sampleStreamHandler (some notFoundError)) sampleStart =
      .ok (some notFoundError, ({ clock := 5000000, out := [] },
        [{ ctx := sampleServerCtx, msg := "finished streaming call with code Internal",
           level := zerolog.DebugLevel, code := codes.Internal, err := some notFoundError,
           duration := [("grpc.duration", Value.int 5000000)] }])) :=
  ⟨⟨rfl,
    (server_interceptors_invoke_producer sampleEnv sampleLogger sampleCalls).1 sampleCtx "ping"
      sampleInfo (sampleHandler (some notFoundError)) sampleStart _ sampleServerCtx "ping"
      (some notFoundError) rfl rfl rfl⟩,
    (server_interceptors_invoke_producer sampleEnv sampleLogger sampleCalls).2 "srv" sampleStream
      sampleStreamInfo (sampleStreamHandler (some notFoundError)) sampleStart _ sampleServerCtx
      (some notFoundError) rfl rfl rfl⟩

/-- C6: for every server call through `UnaryServerInterceptor` or
`StreamServerInterceptor` whose message producer is the recording one, the
interceptor returns the handler's outcome and, counted from the world the handler
left, the producer is invoked exactly once if the decider shouldLog(fullMethod, err)
returns true and zero times if it returns false, whatever the handler returned
and did. -/
theorem server_interceptors_producer_count {τ ι : Type} (env : Env (τ × List ProducerCall))
    (logger : zerolog.Logger) (calls : List (OptCall (τ × List ProducerCall))) :
    let opts := calls.map OptCall.toOption ++ [WithMessageProducer recordingProducer]
    let shouldLog := lastTouching OptCall.decider? env.DefaultDeciderMethod calls
    (∀ (ctx : context.Context) (req : ι) (info : UnaryServerInfo ι)
        (handler : UnaryHandler (τ × List ProducerCall) ι) (s s1 : τ × List ProducerCall)
        (newCtx : context.Context) (resp : ι) (err : Err),
        newLoggerForCall env ctx logger info.FullMethod (env.now s) = .ok newCtx →
        handler newCtx req s = .ok ((resp, err), s1) →
        ∃ s2, UnaryServerInterceptor env logger opts ctx req info handler s =
            .ok ((resp, err), s2) ∧ s2.1 = s1.1 ∧
          s2.2.length = s1.2.length + (if shouldLog info.FullMethod err = true then 1 else 0)) ∧
    (∀ (srv : ι) (stream : ServerStream (τ × List ProducerCall) ι) (info : StreamServerInfo)
        (handler : StreamHandler (τ × List ProducerCall) ι) (s s1 : τ × List ProducerCall)
        (newCtx : context.Context) (err : Err),
        newLoggerForCall env stream.Context logger info.FullMethod (env.now s) = .ok newCtx →
        handler srv { stream with Context := newCtx } s = .ok (err, s1) →
        ∃ s2, StreamServerInterceptor env logger opts srv stream info handler s = .ok (err, s2) ∧
          s2.1 = s1.1 ∧
          s2.2.length = s1.2.length + (if shouldLog info.FullMethod err = true then 1 else 0)) := by
  intro opts shouldLog
  have hopts : opts =
      (calls ++ [OptCall.withMessageProducer recordingProducer]).map OptCall.toOption := by
    simp [opts, OptCall.toOption]
  have hdec : (specOptions (serverBaseline env)
      (calls ++ [OptCall.withMessageProducer recordingProducer])).shouldLog = shouldLog := by
    simp only [specOptions, lastTouching_snoc, OptCall.decider?, Option.getD_none]
    rfl
  have hmf : (specOptions (serverBaseline env)
      (calls ++ [OptCall.withMessageProducer recordingProducer])).messageFunc =
      recordingProducer := by
    simp [specOptions, lastTouching_snoc, OptCall.messageProducer?]
  constructor
  · intro ctx req info handler s s1 newCtx resp err hctx hh
    unfold UnaryServerInterceptor
    simp only [hopts, evaluateServerOpt_eq_spec, hctx, hh, hdec, hmf]
    cases hd : shouldLog info.FullMethod err
    · exact ⟨s1, by simp⟩
    · exact ⟨(s1.1, s1.2 ++ [_]), rfl, rfl, by simp⟩
  · intro srv stream info handler s s1 newCtx err hctx hh
    have hh1 : handler srv
        (WrappedServerStream.asStream { WrapServerStream stream with WrappedContext := newCtx }) s =
        .ok (err, s1) := hh
    unfold StreamServerInterceptor
    simp only [hopts, evaluateServerOpt_eq_spec, hctx, hh1, hdec, hmf]
    cases hd : shouldLog info.FullMethod err
    · exact ⟨s1, by simp⟩
    · exact ⟨(s1.1, s1.2 ++ [_]), rfl, rfl, by simp⟩

/-- C6, witness: with the decider of Example_initializationWithDecider, a
healthcheck call without error records no producer call, and the same call
failing with NotFound records exactly one. -/
theorem server_interceptors_producer_count_witness :
    (∃ s2, UnaryServerInterceptor sampleEnv sampleLogger
        ([OptCall.withDecider healthcheckDecider].map OptCall.toOption ++
          [WithMessageProducer recordingProducer])
        sampleCtx "ping" healthcheckInfo (sampleHandler none) sampleStart =
        .ok (("ping", none), s2) ∧ s2.1 = { clock := 5000000, out := [] } ∧ s2.2.length = 0) ∧
    (∃ s2, UnaryServerInterceptor sampleEnv sampleLogger
        ([OptCall.withDecider healthcheckDecider].map OptCall.toOption ++
          [WithMessageProducer recordingProducer])
        sampleCtx "ping" healthcheckInfo (sampleHandler (some notFoundError)) sampleStart =
        .ok (("ping", some notFoundError), s2) ∧ s2.1 = { clock := 5000000, out := [] } ∧
        s2.2.length = 1) ∧
    (∃ s2, StreamServerInterceptor sampleEnv sampleLogger
        ([OptCall.withDecider healthcheckDecider].map OptCall.toOption ++
          [WithMessageProducer recordingProducer])
        "srv" sampleStream sampleStreamInfo (sampleStreamHandler none) sampleStart =
        .ok (none, s2) ∧ s2.1 = { clock := 5000000, out := [] } ∧ s2.2.length = 1) :=
  ⟨(server_interceptors_producer_count sampleEnv sampleLogger
      [OptCall.withDecider healthcheckDecider]).1 sampleCtx "ping" healthcheckInfo
      (sampleHandler none) sampleStart _ _ "ping" none rfl rfl,
    (server_interceptors_producer_count sampleEnv sampleLogger
      [OptCall.withDecider healthcheckDecider]).1 sampleCtx "ping" healthcheckInfo
      (sampleHandler (some notFoundError)) sampleStart _ _ "ping" (some notFoundError) rfl rfl,
    (server_interceptors_producer_count sampleEnv sampleLogger
      [OptCall.withDecider healthcheckDecider]).2 "srv" sampleStream sampleStreamInfo
      (sampleStreamHandler none) sampleStart _ _ none rfl rfl⟩

/-- C7, the code at the failing input: client interceptors built with a decider
that returns false for the call still invoke the message producer once, with the
client completion message; `logFinalClientLine` never consults `shouldLog`. -/
theorem client_interceptors_ignore_decider :
    (evaluateClientOpt sampleEnv
        [WithDecider (fun _ _ => false), WithMessageProducer recordingProducer]).shouldLog
      "/pkg.Service/Method" none = false ∧
    Except.map (fun r => (r.1, r.2.2.map ProducerCall.msg))
      (UnaryClientInterceptor sampleEnv sampleLogger
        [WithDecider (fun _ _ => false), WithMessageProducer recordingProducer]
        sampleCtx "/pkg.Service/Method" "req" "reply" sampleConn (sampleInvoker none) []
        sampleStart) = .ok (none, ["finished client unary call"]) ∧
    Except.map (fun r => (r.1.2, r.2.2.map ProducerCall.msg))
      (StreamClientInterceptor sampleEnv sampleLogger
        [WithDecider (fun _ _ => false), WithMessageProducer recordingProducer]
        sampleCtx sampleDesc sampleConn "/pkg.Service/Method" (sampleStreamer none) []
        sampleStart) = .ok (none, ["finished client streaming call"]) :=
  ⟨rfl, rfl, rfl⟩

/-- C8: for every client call, `UnaryClientInterceptor` / `StreamClientInterceptor`
invoke the configured message producer with the message "finished client unary call" /
"finished client streaming call", code = codeFunc(err) and level = levelFunc(code);
levelFunc is `DefaultClientCodeToLevel` when no WithLevels option is given (so an
OK call is logged at debug); with WithLevels(customClientCodeToLevel) the level is
error for Unauthenticated and the one of `DefaultClientCodeToLevel` for every other
code (Internal -> warn, NotFound -> debug, FailedPrecondition -> debug). -/
theorem client_interceptors_invoke_producer {σ ι : Type} (env : Env σ) (logger : zerolog.Logger)
    (calls : List (OptCall σ)) :
    let codeFunc := lastTouching OptCall.codes? env.DefaultErrorToCode calls
    let levelFunc := lastTouching OptCall.levels? DefaultClientCodeToLevel calls
    let durationFunc := lastTouching OptCall.durationField? DefaultDurationToField calls
    let messageFunc := lastTouching OptCall.messageProducer? (DefaultMessageProducer env) calls
    (∀ (ctx : context.Context) (method : String) (req reply : ι) (cc : ClientConn)
        (invoker : UnaryInvoker σ ι) (callOpts : List CallOption) (s s1 : σ)
        (l : zerolog.Logger) (err : Err),
        newClientLogger ctx method logger = .ok l →
        invoker ctx method req reply cc callOpts s = .ok (err, s1) →
        UnaryClientInterceptor env logger (calls.map OptCall.toOption) ctx method req reply cc
            invoker callOpts s =
          Except.map (fun r => (err, r.2))
            (messageFunc (ctxzerolog.ToContext ctx l) "finished client unary call"
              (levelFunc (codeFunc err)) (codeFunc err) err
              (durationFunc (time.Sub (env.now s1) (env.now s))) s1)) ∧
    (∀ (ctx : context.Context) (desc : StreamDesc) (cc : ClientConn) (method : String)
        (streamer : Streamer σ ι) (callOpts : List CallOption) (s s1 : σ)
        (l : zerolog.Logger) (clientStream : Option (ClientStream σ ι)) (err : Err),
        newClientLogger ctx method logger = .ok l →
        streamer ctx desc cc method callOpts s = .ok ((clientStream, err), s1) →
        StreamClientInterceptor env logger (calls.map OptCall.toOption) ctx desc cc method
            streamer callOpts s =
          Except.map (fun r => ((clientStream, err), r.2))
            (messageFunc (ctxzerolog.ToContext ctx l) "finished client streaming call"
              (levelFunc (codeFunc err)) (codeFunc err) err
              (durationFunc (time.Sub (env.now s1) (env.now s))) s1)) ∧
    ((∀ c ∈ calls, c.levels? = none) →
      levelFunc = DefaultClientCodeToLevel ∧ levelFunc codes.OK = zerolog.DebugLevel) ∧
    ((evaluateClientOpt env [WithLevels customClientCodeToLevel]).levelFunc =
        customClientCodeToLevel ∧
      customClientCodeToLevel codes.Unauthenticated = zerolog.ErrorLevel ∧
      (∀ c : Code, c ≠ codes.Unauthenticated →
        customClientCodeToLevel c = DefaultClientCodeToLevel c) ∧
      customClientCodeToLevel codes.Internal = zerolog.WarnLevel ∧
      customClientCodeToLevel codes.NotFound = zerolog.DebugLevel ∧
      customClientCodeToLevel codes.FailedPrecondition = zerolog.DebugLevel) := by
  intro codeFunc levelFunc durationFunc messageFunc
  refine ⟨?_, ?_, ?_, rfl, by decide, ?_, by decide, by decide, by decide⟩
  · intro ctx method req reply cc invoker callOpts s s1 l err hl hi
    unfold UnaryClientInterceptor
    simp only [evaluateClientOpt_eq_spec, hl, hi, logFinalClientLine]
    exact after_producer_eq_map _ _
  · intro ctx desc cc method streamer callOpts s s1 l clientStream err hl hi
    unfold StreamClientInterceptor
    simp only [evaluateClientOpt_eq_spec, hl, hi, logFinalClientLine]
    exact after_producer_eq_map _ _
  · intro h
    have hlf : levelFunc = DefaultClientCodeToLevel := lastTouching_of_none _ _ _ h
    exact ⟨hlf, by rw [hlf]; decide⟩
  · intro c hc
    unfold customClientCodeToLevel
    rw [if_neg hc]

/-- C8, witness: with no option an OK unary client call reaches the sink as one
event at debug level with the message "finished client unary call"; with
WithLevels(customClientCodeToLevel) a streaming call failing with Unauthenticated
is logged at error level. -/
theorem client_interceptors_invoke_producer_witness :
    UnaryClientInterceptor sampleEnv sampleLogger (([] : List (OptCall SampleWorld)).map
        OptCall.toOption) sampleCtx "/pkg.Service/Method" "req" "reply" sampleConn
        (sampleInvoker none) [] sampleStart =
      .ok (none,
        (SampleState.mk 5000000
          [{ l := sampleClientLogger, level := zerolog.DebugLevel,
             fields := [("grpc.time_ms", Value.float32Millis 5000), ("grpc.code", Value.str "OK")],
             message := "finished client unary call" }], [])) ∧
    Except.map (fun r => (r.1.2, r.2))
      (StreamClientInterceptor sampleEnv sampleLogger
        ([OptCall.withLevels customClientCodeToLevel].map OptCall.toOption) sampleCtx sampleDesc
        sampleConn "/pkg.Service/Method" (sampleStreamer (some unauthenticatedError)) []
        sampleStart) =
      .ok (some unauthenticatedError,
        (SampleState.mk 5000000
          [{ l := sampleClientLogger, level := zerolog.ErrorLevel,
             fields := [("grpc.time_ms", Value.float32Millis 5000),
               ("error", Value.str "no token"), ("grpc.code", Value.str "Unauthenticated")],
             message := "finished client streaming call" }], [])) ∧
    lastTouching OptCall.levels? DefaultClientCodeToLevel ([] : List (OptCall SampleWorld))
      codes.OK = zerolog.DebugLevel :=
  ⟨(client_interceptors_invoke_producer sampleEnv sampleLogger []).1 sampleCtx
      "/pkg.Service/Method" "req" "reply" sampleConn (sampleInvoker none) [] sampleStart _
      sampleClientLogger none rfl rfl,
    congrArg (Except.map (fun r => (r.1.2, r.2)))
      ((client_interceptors_invoke_producer sampleEnv sampleLogger
        [OptCall.withLevels customClientCodeToLevel]).2.1 sampleCtx sampleDesc sampleConn
        "/pkg.Service/Method" (sampleStreamer (some unauthenticatedError)) [] sampleStart _
        sampleClientLogger none (some unauthenticatedError) rfl rfl),
    ((@client_interceptors_invoke_producer SampleWorld String sampleEnv sampleLogger []).2.2.1
      (by simp)).2⟩

/-- C9: all four logging interceptors are purely observational. For every wrapped
handler / invoker / streamer and every list of options: whenever the interceptor
returns, the value it returns (response and error, stream and error, or error) is
exactly the value the wrapped call returned, whatever the decider, classifier and
message producer are; and when the message producer always returns, the interceptor
returns exactly when the wrapped call does, with the same value, and propagates its
panic otherwise. -/
theorem interceptors_return_wrapped_result {σ ι : Type} (env : Env σ) (logger : zerolog.Logger)
    (opts : List (OptionFn σ)) :
    (∀ (ctx : context.Context) (req : ι) (info : UnaryServerInfo ι) (handler : UnaryHandler σ ι)
        (s : σ) (newCtx : context.Context),
        newLoggerForCall env ctx logger info.FullMethod (env.now s) = .ok newCtx →
        (∀ v s2, UnaryServerInterceptor env logger opts ctx req info handler s = .ok (v, s2) →
          ∃ s1, handler newCtx req s = .ok (v, s1)) ∧
        ((∀ c m lv k e d t, ∃ t1,
            (evaluateServerOpt env opts).messageFunc c m lv k e d t = .ok ((), t1)) →
          Except.map Prod.fst (UnaryServerInterceptor env logger opts ctx req info handler s) =
            Except.map Prod.fst (handler newCtx req s))) ∧
    (∀ (srv : ι) (stream : ServerStream σ ι) (info : StreamServerInfo) (handler : StreamHandler σ ι)
        (s : σ) (newCtx : context.Context),
        newLoggerForCall env stream.Context logger info.FullMethod (env.now s) = .ok newCtx →
        (∀ v s2, StreamServerInterceptor env logger opts srv stream info handler s = .ok (v, s2) →
          ∃ s1, handler srv { stream with Context := newCtx } s = .ok (v, s1)) ∧
        ((∀ c m lv k e d t, ∃ t1,
            (evaluateServerOpt env opts).messageFunc c m lv k e d t = .ok ((), t1)) →
          Except.map Prod.fst (StreamServerInterceptor env logger opts srv stream info handler s) =
            Except.map Prod.fst (handler srv { stream with Context := newCtx } s))) ∧
    (∀ (ctx : context.Context) (method : String) (req reply : ι) (cc : ClientConn)
        (invoker : UnaryInvoker σ ι) (callOpts : List CallOption) (s : σ),
        (∀ v s2, UnaryClientInterceptor env logger opts ctx method req reply cc invoker callOpts s =
            .ok (v, s2) → ∃ s1, invoker ctx method req reply cc callOpts s = .ok (v, s1)) ∧
        ((∀ c m lv k e d t, ∃ t1,
            (evaluateClientOpt env opts).messageFunc c m lv k e d t = .ok ((), t1)) →
          Except.map Prod.fst
              (UnaryClientInterceptor env logger opts ctx method req reply cc invoker callOpts s) =
            Except.map Prod.fst (invoker ctx method req reply cc callOpts s))) ∧
    (∀ (ctx : context.Context) (desc : StreamDesc) (cc : ClientConn) (method : String)
        (streamer : Streamer σ ι) (callOpts : List CallOption) (s : σ),
        (∀ v s2, StreamClientInterceptor env logger opts ctx desc cc method streamer callOpts s =
            .ok (v, s2) → ∃ s1, streamer ctx desc cc method callOpts s = .ok (v, s1)) ∧
        ((∀ c m lv k e d t, ∃ t1,
            (evaluateClientOpt env opts).messageFunc c m lv k e d t = .ok ((), t1)) →
          Except.map Prod.fst
              (StreamClientInterceptor env logger opts ctx desc cc method streamer callOpts s) =
            Except.map Prod.fst (streamer ctx desc cc method callOpts s))) := by
  refine ⟨?_, ?_, ?_, ?_⟩
  · intro ctx req info handler s newCtx hctx
    unfold UnaryServerInterceptor
    simp only [hctx]
    constructor
    · intro v s2 h
      cases hh : handler newCtx req s with
      | error p => simp [hh] at h
      | ok r =>
        obtain ⟨⟨resp, err⟩, s1⟩ := r
        simp only [hh] at h
        split at h
        · simp at h
          exact ⟨s1, by rw [h.1]⟩
        · split at h
          · simp at h
          · simp at h
            exact ⟨s1, by rw [h.1]⟩
    · intro hp
      cases hh : handler newCtx req s with
      | error p => rfl
      | ok r =>
        obtain ⟨⟨resp, err⟩, s1⟩ := r
        simp only []
        split
        · rfl
        · obtain ⟨t1, ht⟩ := hp newCtx
            ("finished unary call with code " ++
              env.codeString ((evaluateServerOpt env opts).codeFunc err))
            ((evaluateServerOpt env opts).levelFunc ((evaluateServerOpt env opts).codeFunc err))
            ((evaluateServerOpt env opts).codeFunc err) err
            ((evaluateServerOpt env opts).durationFunc (time.Sub (env.now s1) (env.now s))) s1
          simp only [ht]
          rfl
  · intro srv stream info handler s newCtx hctx
    have key : WrappedServerStream.asStream
        { WrapServerStream stream with WrappedContext := newCtx } =
        { stream with Context := newCtx } := rfl
    unfold StreamServerInterceptor
    simp only [hctx, key]
    constructor
    · intro v s2 h
      cases hh : handler srv { stream with Context := newCtx } s with
      | error p => simp [hh] at h
      | ok r =>
        obtain ⟨err, s1⟩ := r
        simp only [hh] at h
        split at h
        · simp at h
          exact ⟨s1, by rw [h.1]⟩
        · split at h
          · simp at h
          · simp at h
            exact ⟨s1, by rw [h.1]⟩
    · intro hp
      cases hh : handler srv { stream with Context := newCtx } s with
      | error p => rfl
      | ok r =>
        obtain ⟨err, s1⟩ := r
        simp only []
        split
        · rfl
        · obtain ⟨t1, ht⟩ := hp newCtx
            ("finished streaming call with code " ++
              env.codeString ((evaluateServerOpt env opts).codeFunc err))
            ((evaluateServerOpt env opts).levelFunc ((evaluateServerOpt env opts).codeFunc err))
            ((evaluateServerOpt env opts).codeFunc err) err
            ((evaluateServerOpt env opts).durationFunc (time.Sub (env.now s1) (env.now s))) s1
          simp only [ht]
          rfl
  · intro ctx method req reply cc invoker callOpts s
    obtain ⟨l, hl⟩ := newClientLogger_ok ctx method logger
    unfold UnaryClientInterceptor
    simp only [hl, logFinalClientLine]
    constructor
    · intro v s2 h
      cases hh : invoker ctx method req reply cc callOpts s with
      | error p => simp [hh] at h
      | ok r =>
        obtain ⟨err, s1⟩ := r
        simp only [hh] at h
        split at h
        · simp at h
        · simp at h
          exact ⟨s1, by rw [h.1]⟩
    · intro hp
      cases hh : invoker ctx method req reply cc callOpts s with
      | error p => rfl
      | ok r =>
        obtain ⟨err, s1⟩ := r
        obtain ⟨t1, ht⟩ := hp (ctxzerolog.ToContext ctx l) "finished client unary call"
            ((evaluateClientOpt env opts).levelFunc ((evaluateClientOpt env opts).codeFunc err))
            ((evaluateClientOpt env opts).codeFunc err) err
            ((evaluateClientOpt env opts).durationFunc (time.Sub (env.now s1) (env.now s))) s1
        simp only [ht]
        rfl
  · intro ctx desc cc method streamer callOpts s
    obtain ⟨l, hl⟩ := newClientLogger_ok ctx method logger
    unfold StreamClientInterceptor
    simp only [hl, logFinalClientLine]
    constructor
    · intro v s2 h
      cases hh : streamer ctx desc cc method callOpts s with
      | error p => simp [hh] at h
      | ok r =>
        obtain ⟨⟨clientStream, err⟩, s1⟩ := r
        simp only [hh] at h
        split at h
        · simp at h
        · simp at h
          exact ⟨s1, by rw [h.1]⟩
    · intro hp
      cases hh : streamer ctx desc cc method callOpts s with
      | error p => rfl
      | ok r =>
        obtain ⟨⟨clientStream, err⟩, s1⟩ := r
        obtain ⟨t1, ht⟩ := hp (ctxzerolog.ToContext ctx l) "finished client streaming call"
            ((evaluateClientOpt env opts).levelFunc ((evaluateClientOpt env opts).codeFunc err))
            ((evaluateClientOpt env opts).codeFunc err) err
            ((evaluateClientOpt env opts).durationFunc (time.Sub (env.now s1) (env.now s))) s1
        simp only [ht]
        rfl

/-- C9, witness: in the sample environment, whose default message producer always
returns, each interceptor returns what the wrapped sample call returns, and the
unary server interceptor propagates the panic of a panicking handler. -/
theorem interceptors_return_wrapped_result_witness :
    Except.map Prod.fst (UnaryServerInterceptor sampleEnv sampleLogger [] sampleCtx "ping"
      sampleInfo (sampleHandler (some notFoundError)) sampleStart) =
      .ok ("ping", some notFoundError) ∧
    Except.map Prod.fst (UnaryServerInterceptor sampleEnv sampleLogger [] sampleCtx "ping"
      sampleInfo panickingHandler sampleStart) = .error "boom" ∧
    Except.map Prod.fst (StreamServerInterceptor sampleEnv sampleLogger [] "srv" sampleStream
      sampleStreamInfo (sampleStreamHandler none) sampleStart) = .ok none ∧
    Except.map Prod.fst (UnaryClientInterceptor sampleEnv sampleLogger [] sampleCtx
      "/pkg.Service/Method" "req" "reply" sampleConn (sampleInvoker (some notFoundError)) []
      sampleStart) = .ok (some notFoundError) ∧
    Except.map Prod.fst (StreamClientInterceptor sampleEnv sampleLogger [] sampleCtx
      sampleDesc sampleConn "/pkg.Service/Method" (sampleStreamer (some notFoundError)) []
      sampleStart) =
      Except.map Prod.fst (sampleStreamer (some notFoundError) sampleCtx sampleDesc sampleConn
        "/pkg.Service/Method" [] sampleStart) :=
  ⟨((interceptors_return_wrapped_result sampleEnv sampleLogger []).1 sampleCtx "ping" sampleInfo
      (sampleHandler (some notFoundError)) sampleStart sampleServerCtx rfl).2
      (fun _ _ _ _ _ _ _ => ⟨_, rfl⟩),
    ((interceptors_return_wrapped_result sampleEnv sampleLogger []).1 sampleCtx "ping" sampleInfo
      panickingHandler sampleStart sampleServerCtx rfl).2 (fun _ _ _ _ _ _ _ => ⟨_, rfl⟩),
    ((interceptors_return_wrapped_result sampleEnv sampleLogger []).2.1 "srv" sampleStream
      sampleStreamInfo (sampleStreamHandler none) sampleStart sampleServerCtx rfl).2
      (fun _ _ _ _ _ _ _ => ⟨_, rfl⟩),
    ((interceptors_return_wrapped_result sampleEnv sampleLogger []).2.2.1 sampleCtx
      "/pkg.Service/Method" "req" "reply" sampleConn (sampleInvoker (some notFoundError)) []
      sampleStart).2 (fun _ _ _ _ _ _ _ => ⟨_, rfl⟩),
    ((interceptors_return_wrapped_result sampleEnv sampleLogger []).2.2.2 sampleCtx sampleDesc
      sampleConn "/pkg.Service/Method" (sampleStreamer (some notFoundError)) []
      sampleStart).2 (fun _ _ _ _ _ _ _ => ⟨_, rfl⟩)⟩

section PathLemmas

theorem dropWhile_append_stop {α : Type} (p : α → Bool) (l r : List α) (x : α)
    (hl : ∀ a ∈ l, p a = true) (hx : p x = false) :
    (l ++ x :: r).dropWhile p = x :: r := by
  induction l with
  | nil => simp [List.dropWhile, hx]
  | cons a t ih =>
    have ha : p a = true := hl a (by simp)
    simp only [List.cons_append, List.dropWhile, ha]
    exact ih (fun b hb => hl b (by simp [hb]))

theorem takeWhile_append_stop {α : Type} (p : α → Bool) (l r : List α) (x : α)
    (hl : ∀ a ∈ l, p a = true) (hx : p x = false) :
    (l ++ x :: r).takeWhile p = l := by
  induction l with
  | nil => simp [List.takeWhile, hx]
  | cons a t ih =>
    have ha : p a = true := hl a (by simp)
    simp only [List.cons_append, List.takeWhile, ha]
    exact congrArg (List.cons a) (ih (fun b hb => hl b (by simp [hb])))

theorem dirPart_split (S M : List Char) (hM : '/' ∉ M) :
    path.dirPart ('/' :: S ++ '/' :: M) = '/' :: S ++ ['/'] := by
  unfold path.dirPart
  have h : ('/' :: S ++ '/' :: M).reverse = M.reverse ++ '/' :: (S.reverse ++ ['/']) := by
    simp
  rw [h, dropWhile_append_stop _ _ _ _ _ (by simp)]
  · simp
  · intro a ha
    have : a ≠ '/' := fun e => hM (by rw [← e]; exact List.mem_reverse.mp ha)
    simpa using this

theorem filePart_split (P M : List Char) (hM : '/' ∉ M) :
    path.filePart (P ++ '/' :: M) = M := by
  unfold path.filePart
  have h : (P ++ '/' :: M).reverse = M.reverse ++ '/' :: P.reverse := by simp
  rw [h, takeWhile_append_stop _ _ _ _ _ (by simp)]
  · simp
  · intro a ha
    have : a ≠ '/' := fun e => hM (by rw [← e]; exact List.mem_reverse.mp ha)
    simpa using this

theorem cleanLoop_copy (rooted : Bool) (rest out : List Char) (dotdot : Nat) (h : '/' ∉ rest) :
    path.cleanLoop rooted (rest ++ ['/']) path.Mode.copy out dotdot = out ++ rest := by
  induction rest generalizing out with
  | nil => simp [path.cleanLoop]
  | cons c t ih =>
    have hc : c ≠ '/' := fun e => h (by simp [e])
    have ht : '/' ∉ t := fun e => h (by simp [e])
    simp only [List.cons_append, path.cleanLoop, if_neg hc]
    exact (ih _ ht).trans (by simp)

theorem cleanLoop_rooted_element (S : List Char) (hne : S ≠ []) (hS : '/' ∉ S)
    (hdot : S ≠ ['.']) (hdotdot : S ≠ ['.', '.']) :
    path.cleanLoop true (S ++ ['/']) path.Mode.scan ['/'] 1 = '/' :: S := by
  cases S with
  | nil => exact absurd rfl hne
  | cons c rest =>
    have hc : c ≠ '/' := fun e => hS (by simp [e])
    have hrest : '/' ∉ rest := fun e => hS (by simp [e])
    have hdefault :
        path.cleanLoop true (rest ++ ['/']) path.Mode.copy (['/'] ++ [c]) 1 = '/' :: c :: rest :=
      (cleanLoop_copy true rest _ 1 hrest).trans (by simp)
    have h2 : ¬ (c = '.' ∧ ((rest ++ ['/']).head? = none ∨ (rest ++ ['/']).head? = some '/')) := by
      rintro ⟨rfl, h⟩
      cases rest with
      | nil => exact hdot rfl
      | cons d t =>
        have hd : d ≠ '/' := fun e => hrest (by simp [e])
        simp [hd] at h
    have h3 : ¬ (c = '.' ∧ (rest ++ ['/']).head? = some '.' ∧
        ((rest ++ ['/']).tail.head? = none ∨ (rest ++ ['/']).tail.head? = some '/')) := by
      rintro ⟨rfl, h, h'⟩
      cases rest with
      | nil => simp at h
      | cons d t =>
        have hd : d = '.' := by simpa using h
        subst hd
        cases t with
        | nil => exact hdotdot rfl
        | cons e u =>
          have he : e ≠ '/' := fun e1 => hrest (by simp [e1])
          simp [he] at h'
    simp only [List.cons_append, path.cleanLoop, if_neg hc, List.append_eq]
    rw [if_neg h2, if_neg h3]
    simpa using hdefault

theorem cleanChars_rooted_element (S : List Char) (hne : S ≠ []) (hS : '/' ∉ S)
    (hdot : S ≠ ['.']) (hdotdot : S ≠ ['.', '.']) :
    path.cleanChars ('/' :: S ++ ['/']) = '/' :: S := by
  simp only [path.cleanChars, List.cons_append, if_true,
    cleanLoop_rooted_element S hne hS hdot hdotdot]
  simp

theorem full_method_data (S M : String) :
    ("/" ++ S ++ "/" ++ M).data = '/' :: S.data ++ '/' :: M.data := by
  simp [String.data_append]

theorem dropWhile_slash_last (P M : List Char) (hne : M ≠ []) (hM : '/' ∉ M) :
    ((P ++ '/' :: M).reverse.dropWhile (fun c => c == '/')).reverse = P ++ '/' :: M := by
  have h : (P ++ '/' :: M).reverse = M.reverse ++ '/' :: P.reverse := by simp
  rw [h]
  cases hr : M.reverse with
  | nil => exact absurd (List.reverse_eq_nil_iff.mp hr) hne
  | cons x t =>
    have hx : x ≠ '/' := by
      intro e
      apply hM
      have : x ∈ M.reverse := by rw [hr]; simp
      rw [← e]
      exact List.mem_reverse.mp this
    have hb : (x == '/') = false := by simpa using hx
    simp only [List.cons_append, List.dropWhile, hb, List.append_eq]
    rw [← List.cons_append, ← hr, ← h, List.reverse_reverse]

theorem Dir_slice_of_full (S M : String) (hS0 : S.data ≠ []) (hS : '/' ∉ S.data)
    (hM : '/' ∉ M.data) (hdot : S ≠ ".") (hdotdot : S ≠ "..") :
    sliceFrom (path.Dir ("/" ++ S ++ "/" ++ M)) 1 = .ok S := by
  have h1 : S.data ≠ ['.'] := fun h => hdot (String.ext h)
  have h2 : S.data ≠ ['.', '.'] := fun h => hdotdot (String.ext h)
  have hd : (path.Dir ("/" ++ S ++ "/" ++ M)).data = '/' :: S.data := by
    simp only [path.Dir, path.Clean, full_method_data, dirPart_split S.data M.data hM]
    exact cleanChars_rooted_element S.data hS0 hS h1 h2
  unfold sliceFrom
  rw [hd]
  simp

theorem Base_of_full (S M : String) (hM0 : M.data ≠ []) (hM : '/' ∉ M.data) :
    path.Base ("/" ++ S ++ "/" ++ M) = M := by
  unfold path.Base
  rw [full_method_data]
  have hq : path.filePart ((('/' :: S.data ++ '/' :: M.data).reverse.dropWhile
      (fun c => c == '/')).reverse) = M.data := by
    rw [show '/' :: S.data ++ '/' :: M.data = ('/' :: S.data) ++ '/' :: M.data from rfl,
      dropWhile_slash_last _ _ hM0 hM]
    exact filePart_split _ _ hM
  simp only [hq, if_neg hM0]
  simp

end PathLemmas

/-- C11, counterexample: for the method string "/../Ping" (S = "..", M = "Ping",
both non-empty and without a slash) the call logger built by `addServerCallFields`
and by `newClientLogger` carries the empty string as grpc.service, not S:
`path.Dir` cleans the `..` element away. -/
theorem call_fields_service_of_dotdot :
    (addServerCallFields ("/" ++ ".." ++ "/" ++ "Ping") sampleLogger.With).toOption.map
        (fun c => c.l.fields) =
      some [("system", Value.str "grpc"), ("span.kind", Value.str "server"),
        ("grpc.service", Value.str ""), ("grpc.method", Value.str "Ping")] ∧
    (newClientLogger sampleCtx ("/" ++ ".." ++ "/" ++ "Ping") sampleLogger).toOption.map
        (fun l => l.fields) =
      some [("system", Value.str "grpc"), ("span.kind", Value.str "client"),
        ("grpc.service", Value.str ""), ("grpc.method", Value.str "Ping")] := by
  decide

/-- C11, amended: for every method string of the form "/" + S + "/" + M where S and
M are non-empty and contain no "/" and S is neither "." nor "..", the call logger
built by `addServerCallFields` and by `newClientLogger` carries grpc.service = S
and grpc.method = M, added in that order after the system and span.kind fields. -/
theorem call_fields_service_and_method (S M : String) (hS0 : S ≠ "") (hM0 : M ≠ "")
    (hS : '/' ∉ S.data) (hM : '/' ∉ M.data) (hdot : S ≠ ".") (hdotdot : S ≠ "..")
    (zerologCtx : zerolog.Context) (ctx : context.Context) (logger : zerolog.Logger) :
    addServerCallFields ("/" ++ S ++ "/" ++ M) zerologCtx =
      .ok (((ServerField (SystemField zerologCtx)).Str "grpc.service" S).Str "grpc.method" M) ∧
    newClientLogger ctx ("/" ++ S ++ "/" ++ M) logger =
      .ok (((ClientField (SystemField logger.With)).Str "grpc.service" S).Str
        "grpc.method" M).Logger := by
  have hS1 : S.data ≠ [] := fun h => hS0 (String.ext h)
  have hM1 : M.data ≠ [] := fun h => hM0 (String.ext h)
  have hdir := Dir_slice_of_full S M hS1 hS hM hdot hdotdot
  have hbase := Base_of_full S M hM1 hM
  constructor
  · unfold addServerCallFields
    rw [hdir, hbase]
  · unfold newClientLogger
    rw [hdir, hbase]

/-- C11, witness: "/mwitkow.testproto.TestService/Ping" gives the service
"mwitkow.testproto.TestService" and the method "Ping". -/
theorem call_fields_service_and_method_witness :
    addServerCallFields ("/" ++ "mwitkow.testproto.TestService" ++ "/" ++ "Ping")
        sampleLogger.With =
      .ok (((ServerField (SystemField sampleLogger.With)).Str "grpc.service"
        "mwitkow.testproto.TestService").Str "grpc.method" "Ping") ∧
    newClientLogger sampleCtx ("/" ++ "mwitkow.testproto.TestService" ++ "/" ++ "Ping")
        sampleLogger =
      .ok (((ClientField (SystemField sampleLogger.With)).Str "grpc.service"
        "mwitkow.testproto.TestService").Str "grpc.method" "Ping").Logger :=
  call_fields_service_and_method "mwitkow.testproto.TestService" "Ping" (by decide) (by decide)
    (by decide) (by decide) (by decide) (by decide) sampleLogger.With sampleCtx sampleLogger

section StoreLemmas

variable {σ ι : Type}

theorem newLoggerForCall_eq_ToContext (env : Env σ) (ctx : context.Context)
    (logger : zerolog.Logger) (fullMethodString : String) (start : Time) :
    ∃ l, newLoggerForCall env ctx logger fullMethodString start =
      .ok (ctxzerolog.ToContext ctx l) := by
  unfold newLoggerForCall
  simp only
  obtain ⟨c, h⟩ := addServerCallFields_ok fullMethodString
    (match ctx.deadline with
      | some d => (logger.With.Str "grpc.start_time" (env.formatRFC3339 start)).Str
          "grpc.request.deadline" (env.formatRFC3339 d)
      | none => logger.With.Str "grpc.start_time" (env.formatRFC3339 start))
  rw [h]
  exact ⟨_, rfl⟩

theorem AddFields_ToContext_cons (parent : context.Context) (logger : zerolog.Logger)
    (kv : String × Value) (rest : GoMap) :
    ctxzerolog.AddFields (ctxzerolog.ToContext parent logger) (kv :: rest) =
      .error "assignment to entry in nil map" := rfl

end StoreLemmas

/-- C12, the code at the failing input: a handler that passes a non-empty field map
to `AddFields` on the context it received from `UnaryServerInterceptor` /
`StreamServerInterceptor` does not complete. The store attached by `ToContext` has
a nil field map, the first assignment panics, and the interceptor ends in that
panic without calling the message producer, whatever the options and the rest of
the handler are. -/
theorem server_call_AddFields_panics {σ ι : Type} (env : Env σ) (logger : zerolog.Logger)
    (opts : List (OptionFn σ)) (kv : String × Value) (rest : GoMap) :
    (∀ (ctx : context.Context) (req : ι) (info : UnaryServerInfo ι) (body : UnaryHandler σ ι)
        (s : σ),
        UnaryServerInterceptor env logger opts ctx req info (addFieldsHandler (kv :: rest) body) s =
          .error "assignment to entry in nil map") ∧
    (∀ (srv : ι) (stream : ServerStream σ ι) (info : StreamServerInfo) (body : StreamHandler σ ι)
        (s : σ),
        StreamServerInterceptor env logger opts srv stream info
            (addFieldsStreamHandler (kv :: rest) body) s =
          .error "assignment to entry in nil map") := by
  constructor
  · intro ctx req info body s
    obtain ⟨l, hl⟩ := newLoggerForCall_eq_ToContext env ctx logger info.FullMethod (env.now s)
    unfold UnaryServerInterceptor
    simp only [hl, addFieldsHandler, AddFields_ToContext_cons]
  · intro srv stream info body s
    obtain ⟨l, hl⟩ :=
      newLoggerForCall_eq_ToContext env stream.Context logger info.FullMethod (env.now s)
    unfold StreamServerInterceptor
    simp only [hl, addFieldsStreamHandler, WrappedServerStream.asStream,
      AddFields_ToContext_cons]

/-- C13, the code at the failing input: after ctx = ToContext(parent, logger), the
call AddFields(ctx, fields) with any non-empty field map (a single pair k: v
included) panics on the nil field map of the fresh store, so there is no logger to
extract afterwards. -/
theorem AddFields_after_ToContext_panics (parent : context.Context) (logger : zerolog.Logger)
    (k : String) (v : Value) (rest : GoMap) :
    ctxzerolog.AddFields (ctxzerolog.ToContext parent logger) [(k, v)] =
      .error "assignment to entry in nil map" ∧
    ctxzerolog.AddFields (ctxzerolog.ToContext parent logger) ((k, v) :: rest) =
      .error "assignment to entry in nil map" :=
  ⟨rfl, rfl⟩

/-- C14: observability misuse never fails. For every context from which no store
is reachable and every field map, `AddFields` returns normally and leaves the
context as it was, and `Extract` returns the no-op (discarding) logger. -/
theorem no_store_AddFields_Extract {σ : Type} (env : Env σ) (ctx : context.Context)
    (h : ctx.marker = none) (fields : GoMap) (s : σ) :
    ctxzerolog.AddFields ctx fields = .ok ctx ∧
    ctxzerolog.Extract env ctx s = zerolog.Nop := by
  unfold ctxzerolog.AddFields ctxzerolog.Extract
  rw [h]
  exact ⟨rfl, rfl⟩

/-- C14, witness: the sample context carries no store. -/
theorem no_store_AddFields_Extract_witness :
    sampleCtx.marker = none ∧
    ctxzerolog.AddFields sampleCtx [("custom_field", Value.str "custom_value")] = .ok sampleCtx ∧
    ctxzerolog.Extract sampleEnv sampleCtx sampleStart = zerolog.Nop :=
  ⟨rfl, no_store_AddFields_Extract sampleEnv sampleCtx rfl
    [("custom_field", Value.str "custom_value")] sampleStart⟩

/-- C16: when the payload decider returns false, each of the four payload
interceptors is the undecorated call: as a computation it equals the handler /
invoker / streamer applied to the original context, request and stream, so the
wrapped call runs exactly once, no record is emitted and its result is returned. -/
theorem payload_interceptors_bypassed {σ ι : Type} (env : Env σ) (asProto : ProtoView σ ι)
    (logger : zerolog.Logger) :
    (∀ (decider : ServerPayloadLoggingDecider ι) (ctx : context.Context) (req : ι)
        (info : UnaryServerInfo ι) (handler : UnaryHandler σ ι),
        decider ctx info.FullMethod info.Server = false →
        PayloadUnaryServerInterceptor env asProto logger decider ctx req info handler =
          handler ctx req) ∧
    (∀ (decider : ServerPayloadLoggingDecider ι) (srv : ι) (stream : ServerStream σ ι)
        (info : StreamServerInfo) (handler : StreamHandler σ ι),
        decider stream.Context info.FullMethod srv = false →
        PayloadStreamServerInterceptor env asProto logger decider srv stream info handler =
          handler srv stream) ∧
    (∀ (decider : ClientPayloadLoggingDecider) (ctx : context.Context) (method : String)
        (req reply : ι) (cc : ClientConn) (invoker : UnaryInvoker σ ι)
        (callOpts : List CallOption),
        decider ctx method = false →
        PayloadUnaryClientInterceptor env asProto logger decider ctx method req reply cc invoker
            callOpts =
          invoker ctx method req reply cc callOpts) ∧
    (∀ (decider : ClientPayloadLoggingDecider) (ctx : context.Context) (desc : StreamDesc)
        (cc : ClientConn) (method : String) (streamer : Streamer σ ι)
        (callOpts : List CallOption),
        decider ctx method = false →
        PayloadStreamClientInterceptor env asProto logger decider ctx desc cc method streamer
            callOpts =
          streamer ctx desc cc method callOpts) := by
  refine ⟨?_, ?_, ?_, ?_⟩
  · intro decider ctx req info handler h
    funext s
    simp [PayloadUnaryServerInterceptor, h]
  · intro decider srv stream info handler h
    funext s
    simp [PayloadStreamServerInterceptor, h]
  · intro decider ctx method req reply cc invoker callOpts h
    funext s
    simp [PayloadUnaryClientInterceptor, h]
  · intro decider ctx desc cc method streamer callOpts h
    funext s
    simp [PayloadStreamClientInterceptor, h]

/-- C16, witness: with a decider that always returns false the payload
interceptors leave the sample calls as they are; the sink receives nothing. -/
theorem payload_interceptors_bypassed_witness :
    PayloadUnaryServerInterceptor sampleEnv sampleProto sampleLogger (fun _ _ _ => false)
        sampleCtx "ping" sampleInfo (sampleHandler none) sampleStart =
      .ok (("ping", none), (SampleState.mk 5000000 [], [])) ∧
    PayloadUnaryClientInterceptor sampleEnv sampleProto sampleLogger (fun _ _ => false)
        sampleCtx "/pkg.Service/Method" "req" "reply" sampleConn (sampleInvoker none) []
        sampleStart =
      .ok (none, (SampleState.mk 5000000 [], [])) :=
  ⟨congrFun ((payload_interceptors_bypassed sampleEnv sampleProto sampleLogger).1
      (fun _ _ _ => false) sampleCtx "ping" sampleInfo (sampleHandler none) rfl) sampleStart,
    congrFun ((payload_interceptors_bypassed sampleEnv sampleProto sampleLogger).2.2.1
      (fun _ _ => false) sampleCtx "/pkg.Service/Method" "req" "reply" sampleConn
      (sampleInvoker none) [] rfl) sampleStart⟩

section PayloadLemmas

variable {τ ι : Type}

theorem logProto_recording (base : Env (τ × List zerolog.Event))
    (asProto : ProtoView (τ × List zerolog.Event) ι) (logger : zerolog.Logger) (m : ι)
    (key msg rendered : String) (s : τ × List zerolog.Event) (h : asProto m s = some rendered) :
    logProtoMessageAsJson (withRecordingSink base) asProto logger m key msg s =
      .ok ((), (s.1, s.2 ++ [payloadEvent logger key rendered msg])) := by
  unfold logProtoMessageAsJson
  rw [h]
  rfl

theorem logProto_not_proto {σ : Type} (env : Env σ) (asProto : ProtoView σ ι)
    (logger : zerolog.Logger) (m : ι) (key msg : String) (s : σ) (h : asProto m s = none) :
    logProtoMessageAsJson env asProto logger m key msg s = .ok ((), s) := by
  unfold logProtoMessageAsJson
  rw [h]

theorem countKey_append (key : String) (a b : List zerolog.Event) :
    countKey key (a ++ b) = countKey key a + countKey key b := by
  simp [countKey]

theorem countKey_nil (key : String) : countKey key [] = 0 := rfl

theorem countKey_payloadEvent (k key : String) (logger : zerolog.Logger) (r msg : String) :
    countKey k [payloadEvent logger key r msg] = if key = k then 1 else 0 := by
  by_cases h : key = k <;>
    simp [countKey, payloadEvent, zerolog.Event.Object, zerolog.Logger.WithLevel, h]

theorem liftGo_ok {α : Type} (x : Go τ α) (t t1 : τ) (a : α) (log : List zerolog.Event)
    (h : x t = .ok (a, t1)) : liftGo x (t, log) = .ok (a, (t1, log)) := by
  simp [liftGo, h]

theorem runOps_send_ok {σ : Type} (sendMsg : ι → Go σ Err) (recvMsg : ι → Go σ (ι × Err))
    (m : ι) (rest : List (StreamOp ι)) (s s2 : σ) (rs : List (ι × Err))
    (h : runOps sendMsg recvMsg (StreamOp.send m :: rest) s = .ok (rs, s2)) :
    ∃ err s1 rs1, sendMsg m s = .ok (err, s1) ∧ runOps sendMsg recvMsg rest s1 = .ok (rs1, s2) ∧
      rs = (m, err) :: rs1 := by
  simp only [runOps] at h
  cases h1 : sendMsg m s with
  | error p => simp [h1] at h
  | ok r =>
    obtain ⟨err, s1⟩ := r
    simp only [h1] at h
    cases h2 : runOps sendMsg recvMsg rest s1 with
    | error p => simp [h2] at h
    | ok r2 =>
      obtain ⟨rs1, s3⟩ := r2
      simp only [h2, Except.ok.injEq, Prod.mk.injEq] at h
      exact ⟨err, s1, rs1, rfl, h.2 ▸ h2, h.1.symm⟩

theorem runOps_recv_ok {σ : Type} (sendMsg : ι → Go σ Err) (recvMsg : ι → Go σ (ι × Err))
    (m : ι) (rest : List (StreamOp ι)) (s s2 : σ) (rs : List (ι × Err))
    (h : runOps sendMsg recvMsg (StreamOp.recv m :: rest) s = .ok (rs, s2)) :
    ∃ m1 err s1 rs1, recvMsg m s = .ok ((m1, err), s1) ∧
      runOps sendMsg recvMsg rest s1 = .ok (rs1, s2) ∧ rs = (m1, err) :: rs1 := by
  simp only [runOps] at h
  cases h1 : recvMsg m s with
  | error p => simp [h1] at h
  | ok r =>
    obtain ⟨⟨m1, err⟩, s1⟩ := r
    simp only [h1] at h
    cases h2 : runOps sendMsg recvMsg rest s1 with
    | error p => simp [h2] at h
    | ok r2 =>
      obtain ⟨rs1, s3⟩ := r2
      simp only [h2, Except.ok.injEq, Prod.mk.injEq] at h
      exact ⟨m1, err, s1, rs1, rfl, h.2 ▸ h2, h.1.symm⟩

theorem runOps_logged (send : ι → Go τ Err) (recv : ι → Go τ (ι × Err))
    (wsend : ι → Go (τ × List zerolog.Event) Err)
    (wrecv : ι → Go (τ × List zerolog.Event) (ι × Err)) (ksend krecv : String)
    (hs : ∀ m t log err t1, send m t = .ok (err, t1) →
      ∃ e, wsend m (t, log) = .ok (err, (t1, log ++ e)) ∧
        ∀ k, countKey k e = if err = none ∧ ksend = k then 1 else 0)
    (hr : ∀ m t log m1 err t1, recv m t = .ok ((m1, err), t1) →
      ∃ e, wrecv m (t, log) = .ok ((m1, err), (t1, log ++ e)) ∧
        ∀ k, countKey k e = if err = none ∧ krecv = k then 1 else 0)
    (ops : List (StreamOp ι)) :
    ∀ (t t1 : τ) (log : List zerolog.Event) (rs : List (ι × Err)),
      runOps send recv ops t = .ok (rs, t1) →
      ∃ evs, runOps wsend wrecv ops (t, log) = .ok (rs, (t1, log ++ evs)) ∧
        ∀ k, countKey k evs =
          (if ksend = k then successfulCalls true ops rs else 0) +
          (if krecv = k then successfulCalls false ops rs else 0) := by
  induction ops with
  | nil =>
    intro t t1 log rs h
    simp only [runOps, Except.ok.injEq, Prod.mk.injEq] at h
    obtain ⟨h1, h2⟩ := h
    subst h1 h2
    exact ⟨[], by simp [runOps], fun k => by simp [countKey_nil, successfulCalls]⟩
  | cons op rest ih =>
    intro t t1 log rs h
    cases op with
    | send m =>
      obtain ⟨err, t2, rs1, h1, h2, h3⟩ := runOps_send_ok send recv m rest t t1 rs h
      obtain ⟨e, he, hc⟩ := hs m t log err t2 h1
      obtain ⟨evs, hev, hcount⟩ := ih t2 t1 (log ++ e) rs1 h2
      refine ⟨e ++ evs, ?_, ?_⟩
      · simp only [runOps, he, hev, h3, List.append_assoc]
      · intro k
        rw [countKey_append, hc k, hcount k, h3]
        by_cases hk1 : ksend = k <;> by_cases hk2 : krecv = k <;> by_cases he0 : err = none <;>
          (simp [successfulCalls, hk1, hk2, he0]; try omega)
    | recv m =>
      obtain ⟨m1, err, t2, rs1, h1, h2, h3⟩ := runOps_recv_ok send recv m rest t t1 rs h
      obtain ⟨e, he, hc⟩ := hr m t log m1 err t2 h1
      obtain ⟨evs, hev, hcount⟩ := ih t2 t1 (log ++ e) rs1 h2
      refine ⟨e ++ evs, ?_, ?_⟩
      · simp only [runOps, he, hev, h3, List.append_assoc]
      · intro k
        rw [countKey_append, hc k, hcount k, h3]
        by_cases hk1 : ksend = k <;> by_cases hk2 : krecv = k <;> by_cases he0 : err = none <;>
          (simp [successfulCalls, hk1, hk2, he0]; try omega)

theorem client_wrapper_run (base : Env (τ × List zerolog.Event))
    (asProto : ProtoView (τ × List zerolog.Event) ι) (logger : zerolog.Logger)
    (hproto : ∀ m s, ∃ r, asProto m s = some r) (inner : ClientStream τ ι)
    (ops : List (StreamOp ι)) (t t1 : τ) (log : List zerolog.Event) (rs : List (ι × Err))
    (h : runOps inner.SendMsg inner.RecvMsg ops t = .ok (rs, t1)) :
    ∃ evs,
      runOps
        (loggingClientStream.asStream (withRecordingSink base) asProto
          { ClientStream := some (liftClientStream inner), logger := logger }).SendMsg
        (loggingClientStream.asStream (withRecordingSink base) asProto
          { ClientStream := some (liftClientStream inner), logger := logger }).RecvMsg
        ops (t, log) = .ok (rs, (t1, log ++ evs)) ∧
      countKey "grpc.request.content" evs = successfulCalls true ops rs ∧
      countKey "grpc.response.content" evs = successfulCalls false ops rs := by
  obtain ⟨evs, hev, hc⟩ := runOps_logged inner.SendMsg inner.RecvMsg
    (loggingClientStream.asStream (withRecordingSink base) asProto
      { ClientStream := some (liftClientStream inner), logger := logger }).SendMsg
    (loggingClientStream.asStream (withRecordingSink base) asProto
      { ClientStream := some (liftClientStream inner), logger := logger }).RecvMsg
    "grpc.request.content" "grpc.response.content"
    (by
      intro m t log err t2 h1
      by_cases he : err = none
      · obtain ⟨r, hr⟩ := hproto m (t2, log)
        refine ⟨[payloadEvent logger "grpc.request.content" r
          "server request payload logged as grpc.request.content field"], ?_, ?_⟩
        · simp only [loggingClientStream.asStream, loggingClientStream.SendMsg,
            liftClientStream, liftGo_ok _ _ _ _ _ h1, he, if_true,
            logProto_recording base asProto _ m _ _ r (t2, log) hr]
        · intro k
          rw [countKey_payloadEvent]
          simp [he]
      · refine ⟨[], ?_, ?_⟩
        · simp only [loggingClientStream.asStream, loggingClientStream.SendMsg,
            liftClientStream, liftGo_ok _ _ _ _ _ h1, he, if_false, List.append_nil]
        · intro k
          simp [countKey_nil, he])
    (by
      intro m t log m1 err t2 h1
      by_cases he : err = none
      · obtain ⟨r, hr⟩ := hproto m1 (t2, log)
        refine ⟨[payloadEvent logger "grpc.response.content" r
          "server response payload logged as grpc.response.content field"], ?_, ?_⟩
        · simp only [loggingClientStream.asStream, loggingClientStream.RecvMsg,
            liftClientStream, liftGo_ok _ _ _ _ _ h1, he, if_true,
            logProto_recording base asProto _ m1 _ _ r (t2, log) hr]
        · intro k
          rw [countKey_payloadEvent]
          simp [he]
      · refine ⟨[], ?_, ?_⟩
        · simp only [loggingClientStream.asStream, loggingClientStream.RecvMsg,
            liftClientStream, liftGo_ok _ _ _ _ _ h1, he, if_false, List.append_nil]
        · intro k
          simp [countKey_nil, he])
    ops t t1 log rs h
  refine ⟨evs, hev, ?_, ?_⟩
  · rw [hc]; simp
  · rw [hc]; simp

end PayloadLemmas

section CompletionLemmas

variable {τ ι : Type}

theorem DefaultMessageProducer_recording (base : Env (τ × List zerolog.Event))
    (ctx : context.Context) (msg : String) (level : Level) (code : Code) (err : Err)
    (duration : GoMap) (s : τ × List zerolog.Event) :
    DefaultMessageProducer (withRecordingSink base) ctx msg level code err duration s =
      .ok ((), (s.1, s.2 ++
        [completionEvent (withRecordingSink base) ctx msg level code err duration s])) := rfl

end CompletionLemmas

/-- C19: for every server call through `UnaryServerInterceptor` /
`StreamServerInterceptor` with the default message producer, in a world whose sink
records, and for which the decider returns true: the completion record is handed
to the sink after the wrapped handler has returned, so the records are those the
handler left, every record emitted while it ran included, followed by the
completion record as the last one. This holds in particular when the handler is a
payload interceptor placed after the logging interceptor in the chain. -/
theorem completion_record_last {τ ι : Type} (base : Env (τ × List zerolog.Event))
    (logger : zerolog.Logger) (calls : List (OptCall (τ × List zerolog.Event)))
    (hprod : ∀ c ∈ calls, c.messageProducer? = none) :
    let env := withRecordingSink base
    let shouldLog := lastTouching OptCall.decider? env.DefaultDeciderMethod calls
    let codeFunc := lastTouching OptCall.codes? env.DefaultErrorToCode calls
    let levelFunc := lastTouching OptCall.levels? DefaultCodeToLevel calls
    let durationFunc := lastTouching OptCall.durationField? DefaultDurationToField calls
    (∀ (ctx : context.Context) (req : ι) (info : UnaryServerInfo ι)
        (handler : UnaryHandler (τ × List zerolog.Event) ι) (s s1 : τ × List zerolog.Event)
        (newCtx : context.Context) (resp : ι) (err : Err),
        newLoggerForCall env ctx logger info.FullMethod (env.now s) = .ok newCtx →
        handler newCtx req s = .ok ((resp, err), s1) →
        shouldLog info.FullMethod err = true →
        UnaryServerInterceptor env logger (calls.map OptCall.toOption) ctx req info handler s =
          .ok ((resp, err), (s1.1, s1.2 ++
            [completionEvent env newCtx
              ("finished unary call with code " ++ env.codeString (codeFunc err))
              (levelFunc (codeFunc err)) (codeFunc err) err
              (durationFunc (time.Sub (env.now s1) (env.now s))) s1]))) ∧
    (∀ (srv : ι) (stream : ServerStream (τ × List zerolog.Event) ι) (info : StreamServerInfo)
        (handler : StreamHandler (τ × List zerolog.Event) ι) (s s1 : τ × List zerolog.Event)
        (newCtx : context.Context) (err : Err),
        newLoggerForCall env stream.Context logger info.FullMethod (env.now s) = .ok newCtx →
        handler srv { stream with Context := newCtx } s = .ok (err, s1) →
        shouldLog info.FullMethod err = true →
        StreamServerInterceptor env logger (calls.map OptCall.toOption) srv stream info handler s =
          .ok (err, (s1.1, s1.2 ++
            [completionEvent env newCtx
              ("finished streaming call with code " ++ env.codeString (codeFunc err))
              (levelFunc (codeFunc err)) (codeFunc err) err
              (durationFunc (time.Sub (env.now s1) (env.now s))) s1]))) ∧
    (∀ (asProto : ProtoView (τ × List zerolog.Event) ι) (payloadLogger : zerolog.Logger)
        (decider : ServerPayloadLoggingDecider ι) (ctx : context.Context) (req : ι)
        (info : UnaryServerInfo ι) (inner : UnaryHandler (τ × List zerolog.Event) ι)
        (s s1 : τ × List zerolog.Event) (newCtx : context.Context) (resp : ι) (err : Err),
        newLoggerForCall env ctx logger info.FullMethod (env.now s) = .ok newCtx →
        PayloadUnaryServerInterceptor env asProto payloadLogger decider newCtx req info inner s =
          .ok ((resp, err), s1) →
        shouldLog info.FullMethod err = true →
        UnaryServerInterceptor env logger (calls.map OptCall.toOption) ctx req info
            (fun c r => PayloadUnaryServerInterceptor env asProto payloadLogger decider c r info
              inner) s =
          .ok ((resp, err), (s1.1, s1.2 ++
            [completionEvent env newCtx
              ("finished unary call with code " ++ env.codeString (codeFunc err))
              (levelFunc (codeFunc err)) (codeFunc err) err
              (durationFunc (time.Sub (env.now s1) (env.now s))) s1]))) ∧
    (∀ (asProto : ProtoView (τ × List zerolog.Event) ι) (payloadLogger : zerolog.Logger)
        (decider : ServerPayloadLoggingDecider ι) (srv : ι)
        (stream : ServerStream (τ × List zerolog.Event) ι) (info : StreamServerInfo)
        (inner : StreamHandler (τ × List zerolog.Event) ι) (s s1 : τ × List zerolog.Event)
        (newCtx : context.Context) (err : Err),
        newLoggerForCall env stream.Context logger info.FullMethod (env.now s) = .ok newCtx →
        PayloadStreamServerInterceptor env asProto payloadLogger decider srv
            { stream with Context := newCtx } info inner s = .ok (err, s1) →
        shouldLog info.FullMethod err = true →
        StreamServerInterceptor env logger (calls.map OptCall.toOption) srv stream info
            (fun v st => PayloadStreamServerInterceptor env asProto payloadLogger decider v st
              info inner) s =
          .ok (err, (s1.1, s1.2 ++
            [completionEvent env newCtx
              ("finished streaming call with code " ++ env.codeString (codeFunc err))
              (levelFunc (codeFunc err)) (codeFunc err) err
              (durationFunc (time.Sub (env.now s1) (env.now s))) s1]))) := by
  intro env shouldLog codeFunc levelFunc durationFunc
  have hmf : (specOptions (serverBaseline env) calls).messageFunc = DefaultMessageProducer env :=
    lastTouching_of_none _ _ _ hprod
  have hunary : ∀ (ctx : context.Context) (req : ι) (info : UnaryServerInfo ι)
      (handler : UnaryHandler (τ × List zerolog.Event) ι) (s s1 : τ × List zerolog.Event)
      (newCtx : context.Context) (resp : ι) (err : Err),
      newLoggerForCall env ctx logger info.FullMethod (env.now s) = .ok newCtx →
      handler newCtx req s = .ok ((resp, err), s1) →
      shouldLog info.FullMethod err = true →
      UnaryServerInterceptor env logger (calls.map OptCall.toOption) ctx req info handler s =
        .ok ((resp, err), (s1.1, s1.2 ++
          [completionEvent env newCtx
            ("finished unary call with code " ++ env.codeString (codeFunc err))
            (levelFunc (codeFunc err)) (codeFunc err) err
            (durationFunc (time.Sub (env.now s1) (env.now s))) s1])) := by
    intro ctx req info handler s s1 newCtx resp err hctx hh hd
    have hd1 : (specOptions (serverBaseline env) calls).shouldLog info.FullMethod err = true := hd
    unfold UnaryServerInterceptor
    simp only [evaluateServerOpt_eq_spec, hctx, hh, hd1, hmf]
    rfl
  have hstream : ∀ (srv : ι) (stream : ServerStream (τ × List zerolog.Event) ι)
      (info : StreamServerInfo) (handler : StreamHandler (τ × List zerolog.Event) ι)
      (s s1 : τ × List zerolog.Event) (newCtx : context.Context) (err : Err),
      newLoggerForCall env stream.Context logger info.FullMethod (env.now s) = .ok newCtx →
      handler srv { stream with Context := newCtx } s = .ok (err, s1) →
      shouldLog info.FullMethod err = true →
      StreamServerInterceptor env logger (calls.map OptCall.toOption) srv stream info handler s =
        .ok (err, (s1.1, s1.2 ++
          [completionEvent env newCtx
            ("finished streaming call with code " ++ env.codeString (codeFunc err))
            (levelFunc (codeFunc err)) (codeFunc err) err
            (durationFunc (time.Sub (env.now s1) (env.now s))) s1])) := by
    intro srv stream info handler s s1 newCtx err hctx hh hd
    have hd1 : (specOptions (serverBaseline env) calls).shouldLog info.FullMethod err = true := hd
    have hh1 : handler srv
        (WrappedServerStream.asStream { WrapServerStream stream with WrappedContext := newCtx }) s =
        .ok (err, s1) := hh
    unfold StreamServerInterceptor
    simp only [evaluateServerOpt_eq_spec, hctx, hh1, hd1, hmf]
    rfl
  refine ⟨hunary, hstream, ?_, ?_⟩
  · intro asProto payloadLogger decider ctx req info inner s s1 newCtx resp err hctx hh hd
    exact hunary ctx req info _ s s1 newCtx resp err hctx hh hd
  · intro asProto payloadLogger decider srv stream info inner s s1 newCtx err hctx hh hd
    exact hstream srv stream info _ s s1 newCtx err hctx hh hd

/-- C19, witness: the sample call through `UnaryServerInterceptor` followed in the
chain by `PayloadUnaryServerInterceptor`: the sink receives the request record, the
response record and then, last, the completion record. -/
theorem completion_record_last_witness :
    UnaryServerInterceptor sinkEnv sampleLogger
        (([] : List (OptCall SinkWorld)).map OptCall.toOption) sampleCtx "ping" sampleInfo
        (fun c r => PayloadUnaryServerInterceptor sinkEnv sampleProto sampleLogger
          (fun _ _ _ => true) c r sampleInfo (sinkHandler none)) (0, []) =
      .ok (("ping", none), (5000000,
        [payloadEvent samplePayloadLogger "grpc.request.content" "ping"
          "server request payload logged as grpc.request.content field",
         payloadEvent samplePayloadLogger "grpc.response.content" "ping"
          "server response payload logged as grpc.response.content field",
         { l := ctxzerolog.Extract sinkEnv sampleServerCtx (0, []),
           level := zerolog.InfoLevel,
           fields := [("grpc.time_ms", Value.float32Millis 5000), ("grpc.code", Value.str "OK")],
           message := "finished unary call with code OK" }])) :=
  (completion_record_last sinkBase sampleLogger [] (by simp)).2.2.1 sampleProto sampleLogger
    (fun _ _ _ => true) sampleCtx "ping" sampleInfo (sinkHandler none) (0, [])
    (5000000,
      [payloadEvent samplePayloadLogger "grpc.request.content" "ping"
        "server request payload logged as grpc.request.content field",
       payloadEvent samplePayloadLogger "grpc.response.content" "ping"
        "server response payload logged as grpc.response.content field"])
    sampleServerCtx "ping" none rfl rfl rfl

/-- C20, counterexample: the sample client streaming call through
`StreamClientInterceptor` chained with `PayloadStreamClientInterceptor`, with two
messages sent and one received on the stream: the completion record is the first
record the sink receives and the three payload records follow it. -/
theorem client_stream_completion_precedes_payload :
    Except.map
      (fun r => (r.1.map (fun x => x.2), r.2.2.map (fun e => (e.message, e.fields.map Prod.fst))))
      (openAndRun
        (StreamClientInterceptor sinkEnv sampleLogger [] sampleCtx sampleDesc sampleConn
          "/pkg.Service/Method"
          (fun c d k m o => PayloadStreamClientInterceptor sinkEnv sampleProto sampleLogger
            (fun _ _ => true) c d k m clockStreamer o) [])
        sampleOps (0, [])) =
      .ok ([none, none, none, some eofError],
        [("finished client streaming call", ["grpc.time_ms", "grpc.code"]),
         ("server request payload logged as grpc.request.content field",
           ["grpc.request.content"]),
         ("server response payload logged as grpc.response.content field",
           ["grpc.response.content"]),
         ("server request payload logged as grpc.request.content field",
           ["grpc.request.content"])]) := by
  rfl

/-- C20, amended: for every client streaming call through `StreamClientInterceptor`
chained with `PayloadStreamClientInterceptor` (in either order), in a world whose
sink records and with the default message producer, the single completion record
is emitted when the streamer returns, before any message is exchanged: the records
are those the streamer left, then the completion record, then the request-content
and response-content records of the messages exchanged on the stream, one per
successful SendMsg and RecvMsg. -/
theorem client_stream_completion_then_payload {τ ι : Type}
    (base : Env (τ × List zerolog.Event)) (logger payloadLogger : zerolog.Logger)
    (calls : List (OptCall (τ × List zerolog.Event)))
    (asProto : ProtoView (τ × List zerolog.Event) ι)
    (hprod : ∀ c ∈ calls, c.messageProducer? = none)
    (hproto : ∀ m s, ∃ r, asProto m s = some r)
    (decider : ClientPayloadLoggingDecider) (ctx : context.Context) (desc : StreamDesc)
    (cc : ClientConn) (method : String) (streamer : Streamer (τ × List zerolog.Event) ι)
    (callOpts : List CallOption) (inner : ClientStream τ ι) (s s1 : τ × List zerolog.Event)
    (err : Err) (l : zerolog.Logger) (ops : List (StreamOp ι)) (rs : List (ι × Err)) (t1 : τ)
    (hd : decider ctx method = true)
    (hl : newClientLogger ctx method logger = .ok l)
    (hs : streamer ctx desc cc method callOpts s = .ok ((some (liftClientStream inner), err), s1))
    (hrun : runOps inner.SendMsg inner.RecvMsg ops s1.1 = .ok (rs, t1)) :
    let env := withRecordingSink base
    let codeFunc := lastTouching OptCall.codes? env.DefaultErrorToCode calls
    let levelFunc := lastTouching OptCall.levels? DefaultClientCodeToLevel calls
    let durationFunc := lastTouching OptCall.durationField? DefaultDurationToField calls
    let completion := completionEvent env (ctxzerolog.ToContext ctx l)
      "finished client streaming call" (levelFunc (codeFunc err)) (codeFunc err) err
      (durationFunc (time.Sub (env.now s1) (env.now s))) s1
    ∃ evs,
      openAndRun
        (StreamClientInterceptor env logger (calls.map OptCall.toOption) ctx desc cc method
          (fun c d k m o => PayloadStreamClientInterceptor env asProto payloadLogger decider
            c d k m streamer o) callOpts) ops s =
        .ok (rs, (t1, s1.2 ++ completion :: evs)) ∧
      openAndRun
        (PayloadStreamClientInterceptor env asProto payloadLogger decider ctx desc cc method
          (fun c d k m o => StreamClientInterceptor env logger (calls.map OptCall.toOption)
            c d k m streamer o) callOpts) ops s =
        .ok (rs, (t1, s1.2 ++ completion :: evs)) ∧
      countKey "grpc.request.content" evs = successfulCalls true ops rs ∧
      countKey "grpc.response.content" evs = successfulCalls false ops rs := by
  intro env codeFunc levelFunc durationFunc completion
  obtain ⟨pl, hpl⟩ := newClientLogger_ok ctx method payloadLogger
  have hmf : (specOptions (clientBaseline env) calls).messageFunc = DefaultMessageProducer env :=
    lastTouching_of_none _ _ _ hprod
  obtain ⟨evs, hev, hc1, hc2⟩ := client_wrapper_run base asProto pl hproto inner ops s1.1 t1
    (s1.2 ++ [completion]) rs hrun
  refine ⟨evs, ?_, ?_, hc1, hc2⟩
  · unfold openAndRun StreamClientInterceptor PayloadStreamClientInterceptor
    simp only [hd, hl, hpl, hs, logFinalClientLine, evaluateClientOpt_eq_spec, hmf,
      DefaultMessageProducer_recording]
    simpa using hev
  · unfold openAndRun StreamClientInterceptor PayloadStreamClientInterceptor
    simp only [hd, hl, hpl, hs, logFinalClientLine, evaluateClientOpt_eq_spec, hmf,
      DefaultMessageProducer_recording]
    simpa using hev

/-- C20, witness: the sample client streaming call, in both orders of the chain:
the completion record comes first, then two request records and one response
record. -/
theorem client_stream_completion_then_payload_witness :
    ∃ evs,
      openAndRun
        (StreamClientInterceptor sinkEnv sampleLogger
          (([] : List (OptCall SinkWorld)).map OptCall.toOption) sampleCtx sampleDesc sampleConn
          "/pkg.Service/Method"
          (fun c d k m o => PayloadStreamClientInterceptor sinkEnv sampleProto sampleLogger
            (fun _ _ => true) c d k m clockStreamer o) [])
        sampleOps (0, []) =
        .ok ([("a", none), ("pong", none), ("b", none), ("last", some eofError)],
          (5000000, [] ++ completionEvent sinkEnv
            (ctxzerolog.ToContext sampleCtx sampleClientLogger) "finished client streaming call"
            zerolog.DebugLevel codes.OK none [("grpc.time_ms", Value.float32Millis 1000)]
            (1000000, []) :: evs)) ∧
      openAndRun
        (PayloadStreamClientInterceptor sinkEnv sampleProto sampleLogger (fun _ _ => true)
          sampleCtx sampleDesc sampleConn "/pkg.Service/Method"
          (fun c d k m o => StreamClientInterceptor sinkEnv sampleLogger
            (([] : List (OptCall SinkWorld)).map OptCall.toOption) c d k m clockStreamer o) [])
        sampleOps (0, []) =
        .ok ([("a", none), ("pong", none), ("b", none), ("last", some eofError)],
          (5000000, [] ++ completionEvent sinkEnv
            (ctxzerolog.ToContext sampleCtx sampleClientLogger) "finished client streaming call"
            zerolog.DebugLevel codes.OK none [("grpc.time_ms", Value.float32Millis 1000)]
            (1000000, []) :: evs)) ∧
      countKey "grpc.request.content" evs = 2 ∧ countKey "grpc.response.content" evs = 1 :=
  client_stream_completion_then_payload sinkBase sampleLogger sampleLogger [] sampleProto
    (by simp) (fun m _ => ⟨m, rfl⟩) (fun _ _ => true) sampleCtx sampleDesc sampleConn
    "/pkg.Service/Method" clockStreamer [] clockClientStream (0, []) (1000000, []) none
    sampleClientLogger sampleOps _ 5000000 rfl rfl rfl rfl

section InterceptorLemmas

variable {σ ι : Type}

theorem lastTouching_cons_of_none {α β : Type} (touch : α → Option β) (dflt f : β)
    (pre post : List α) (c : α) (hc : touch c = some f) (hpost : ∀ x ∈ post, touch x = none) :
    lastTouching touch dflt (pre ++ c :: post) = f := by
  induction post using List.reverseRecOn with
  | nil =>
    rw [show pre ++ [c] = pre ++ [c] from rfl, lastTouching_snoc, hc]
    rfl
  | append_singleton l x ih =>
    have hx : touch x = none := hpost x (by simp)
    rw [show pre ++ c :: (l ++ [x]) = (pre ++ c :: l) ++ [x] by simp, lastTouching_snoc, hx,
      Option.getD_none]
    exact ih (fun y hy => hpost y (by simp [hy]))

theorem UnaryServerInterceptor_logged (env : Env σ) (logger : zerolog.Logger)
    (opts : List (OptionFn σ)) (ctx : context.Context) (req : ι) (info : UnaryServerInfo ι)
    (handler : UnaryHandler σ ι) (s s1 : σ) (newCtx : context.Context) (resp : ι) (err : Err)
    (hctx : newLoggerForCall env ctx logger info.FullMethod (env.now s) = .ok newCtx)
    (hh : handler newCtx req s = .ok ((resp, err), s1))
    (hd : (evaluateServerOpt env opts).shouldLog info.FullMethod err = true) :
    UnaryServerInterceptor env logger opts ctx req info handler s =
      Except.map (fun r => ((resp, err), r.2))
        ((evaluateServerOpt env opts).messageFunc newCtx
          ("finished unary call with code " ++
            env.codeString ((evaluateServerOpt env opts).codeFunc err))
          ((evaluateServerOpt env opts).levelFunc ((evaluateServerOpt env opts).codeFunc err))
          ((evaluateServerOpt env opts).codeFunc err) err
          ((evaluateServerOpt env opts).durationFunc (time.Sub (env.now s1) (env.now s))) s1) := by
  unfold UnaryServerInterceptor
  simp only [hctx, hh, hd]
  rw [if_neg (by simp)]
  exact after_producer_eq_map _ _

theorem StreamServerInterceptor_logged (env : Env σ) (logger : zerolog.Logger)
    (opts : List (OptionFn σ)) (srv : ι) (stream : ServerStream σ ι) (info : StreamServerInfo)
    (handler : StreamHandler σ ι) (s s1 : σ) (newCtx : context.Context) (err : Err)
    (hctx : newLoggerForCall env stream.Context logger info.FullMethod (env.now s) = .ok newCtx)
    (hh : handler srv { stream with Context := newCtx } s = .ok (err, s1))
    (hd : (evaluateServerOpt env opts).shouldLog info.FullMethod err = true) :
    StreamServerInterceptor env logger opts srv stream info handler s =
      Except.map (fun r => (err, r.2))
        ((evaluateServerOpt env opts).messageFunc newCtx
          ("finished streaming call with code " ++
            env.codeString ((evaluateServerOpt env opts).codeFunc err))
          ((evaluateServerOpt env opts).levelFunc ((evaluateServerOpt env opts).codeFunc err))
          ((evaluateServerOpt env opts).codeFunc err) err
          ((evaluateServerOpt env opts).durationFunc (time.Sub (env.now s1) (env.now s))) s1) := by
  have hh1 : handler srv
      (WrappedServerStream.asStream { WrapServerStream stream with WrappedContext := newCtx }) s =
      .ok (err, s1) := hh
  unfold StreamServerInterceptor
  simp only [hctx, hh1, hd]
  rw [if_neg (by simp)]
  exact after_producer_eq_map _ _

theorem UnaryClientInterceptor_logged (env : Env σ) (logger : zerolog.Logger)
    (opts : List (OptionFn σ)) (ctx : context.Context) (method : String) (req reply : ι)
    (cc : ClientConn) (invoker : UnaryInvoker σ ι) (callOpts : List CallOption) (s s1 : σ)
    (l : zerolog.Logger) (err : Err)
    (hl : newClientLogger ctx method logger = .ok l)
    (hi : invoker ctx method req reply cc callOpts s = .ok (err, s1)) :
    UnaryClientInterceptor env logger opts ctx method req reply cc invoker callOpts s =
      Except.map (fun r => (err, r.2))
        ((evaluateClientOpt env opts).messageFunc (ctxzerolog.ToContext ctx l)
          "finished client unary call"
          ((evaluateClientOpt env opts).levelFunc ((evaluateClientOpt env opts).codeFunc err))
          ((evaluateClientOpt env opts).codeFunc err) err
          ((evaluateClientOpt env opts).durationFunc (time.Sub (env.now s1) (env.now s))) s1) := by
  unfold UnaryClientInterceptor
  simp only [hl, hi, logFinalClientLine]
  exact after_producer_eq_map _ _

theorem StreamClientInterceptor_logged (env : Env σ) (logger : zerolog.Logger)
    (opts : List (OptionFn σ)) (ctx : context.Context) (desc : StreamDesc) (cc : ClientConn)
    (method : String) (streamer : Streamer σ ι) (callOpts : List CallOption) (s s1 : σ)
    (l : zerolog.Logger) (clientStream : Option (ClientStream σ ι)) (err : Err)
    (hl : newClientLogger ctx method logger = .ok l)
    (hi : streamer ctx desc cc method callOpts s = .ok ((clientStream, err), s1)) :
    StreamClientInterceptor env logger opts ctx desc cc method streamer callOpts s =
      Except.map (fun r => ((clientStream, err), r.2))
        ((evaluateClientOpt env opts).messageFunc (ctxzerolog.ToContext ctx l)
          "finished client streaming call"
          ((evaluateClientOpt env opts).levelFunc ((evaluateClientOpt env opts).codeFunc err))
          ((evaluateClientOpt env opts).codeFunc err) err
          ((evaluateClientOpt env opts).durationFunc (time.Sub (env.now s1) (env.now s))) s1) := by
  unfold StreamClientInterceptor
  simp only [hl, hi, logFinalClientLine]
  exact after_producer_eq_map _ _

theorem durationFunc_of_WithDurationField (env : Env σ) (f : DurationToMap)
    (pre post : List (OptCall σ)) (hpost : ∀ c ∈ post, c.durationField? = none) :
    (evaluateServerOpt env
      ((pre ++ OptCall.withDurationField f :: post).map OptCall.toOption)).durationFunc = f ∧
    (evaluateClientOpt env
      ((pre ++ OptCall.withDurationField f :: post).map OptCall.toOption)).durationFunc = f := by
  rw [evaluateServerOpt_eq_spec, evaluateClientOpt_eq_spec]
  exact ⟨lastTouching_cons_of_none _ _ f pre post _ rfl hpost,
    lastTouching_cons_of_none _ _ f pre post _ rfl hpost⟩

end InterceptorLemmas

/-- C21: for every duration d the default duration mapper, `DefaultDurationToField`
= `DurationToTimeMillis`, returns a map whose only key is grpc.time_ms, and
`DurationToField` returns the map whose only key is grpc.duration, with value d;
so an interceptor built with WithDurationField(DurationToField) (and no later
duration option) passes the message producer the duration fields
{grpc.duration: elapsed}, which contain grpc.duration and not grpc.time_ms. -/
theorem duration_mappers {σ ι : Type} (env : Env σ) (logger : zerolog.Logger)
    (pre post : List (OptCall σ)) (hpost : ∀ c ∈ post, c.durationField? = none) :
    let opts := (pre ++ OptCall.withDurationField DurationToField :: post).map OptCall.toOption
    let server := evaluateServerOpt env opts
    let client := evaluateClientOpt env opts
    (DefaultDurationToField = DurationToTimeMillis ∧
      ∀ d : Duration, (DefaultDurationToField d).map Prod.fst = ["grpc.time_ms"] ∧
        DurationToField d = [("grpc.duration", Value.int d)]) ∧
    (∀ (ctx : context.Context) (req : ι) (info : UnaryServerInfo ι) (handler : UnaryHandler σ ι)
        (s s1 : σ) (newCtx : context.Context) (resp : ι) (err : Err),
        newLoggerForCall env ctx logger info.FullMethod (env.now s) = .ok newCtx →
        handler newCtx req s = .ok ((resp, err), s1) →
        server.shouldLog info.FullMethod err = true →
        UnaryServerInterceptor env logger opts ctx req info handler s =
          Except.map (fun r => ((resp, err), r.2))
            (server.messageFunc newCtx
              ("finished unary call with code " ++ env.codeString (server.codeFunc err))
              (server.levelFunc (server.codeFunc err)) (server.codeFunc err) err
              [("grpc.duration", Value.int (time.Sub (env.now s1) (env.now s)))] s1)) ∧
    (∀ (srv : ι) (stream : ServerStream σ ι) (info : StreamServerInfo) (handler : StreamHandler σ ι)
        (s s1 : σ) (newCtx : context.Context) (err : Err),
        newLoggerForCall env stream.Context logger info.FullMethod (env.now s) = .ok newCtx →
        handler srv { stream with Context := newCtx } s = .ok (err, s1) →
        server.shouldLog info.FullMethod err = true →
        StreamServerInterceptor env logger opts srv stream info handler s =
          Except.map (fun r => (err, r.2))
            (server.messageFunc newCtx
              ("finished streaming call with code " ++ env.codeString (server.codeFunc err))
              (server.levelFunc (server.codeFunc err)) (server.codeFunc err) err
              [("grpc.duration", Value.int (time.Sub (env.now s1) (env.now s)))] s1)) ∧
    (∀ (ctx : context.Context) (method : String) (req reply : ι) (cc : ClientConn)
        (invoker : UnaryInvoker σ ι) (callOpts : List CallOption) (s s1 : σ)
        (l : zerolog.Logger) (err : Err),
        newClientLogger ctx method logger = .ok l →
        invoker ctx method req reply cc callOpts s = .ok (err, s1) →
        UnaryClientInterceptor env logger opts ctx method req reply cc invoker callOpts s =
          Except.map (fun r => (err, r.2))
            (client.messageFunc (ctxzerolog.ToContext ctx l) "finished client unary call"
              (client.levelFunc (client.codeFunc err)) (client.codeFunc err) err
              [("grpc.duration", Value.int (time.Sub (env.now s1) (env.now s)))] s1)) ∧
    (∀ (ctx : context.Context) (desc : StreamDesc) (cc : ClientConn) (method : String)
        (streamer : Streamer σ ι) (callOpts : List CallOption) (s s1 : σ)
        (l : zerolog.Logger) (clientStream : Option (ClientStream σ ι)) (err : Err),
        newClientLogger ctx method logger = .ok l →
        streamer ctx desc cc method callOpts s = .ok ((clientStream, err), s1) →
        StreamClientInterceptor env logger opts ctx desc cc method streamer callOpts s =
          Except.map (fun r => ((clientStream, err), r.2))
            (client.messageFunc (ctxzerolog.ToContext ctx l) "finished client streaming call"
              (client.levelFunc (client.codeFunc err)) (client.codeFunc err) err
              [("grpc.duration", Value.int (time.Sub (env.now s1) (env.now s)))] s1)) := by
  intro opts server client
  obtain ⟨hsd, hcd⟩ := durationFunc_of_WithDurationField env DurationToField pre post hpost
  refine ⟨⟨rfl, fun d => ⟨rfl, rfl⟩⟩, ?_, ?_, ?_, ?_⟩
  · intro ctx req info handler s s1 newCtx resp err hctx hh hd
    have h := UnaryServerInterceptor_logged env logger opts ctx req info handler s s1 newCtx resp
      err hctx hh hd
    rw [hsd] at h
    exact h
  · intro srv stream info handler s s1 newCtx err hctx hh hd
    have h := StreamServerInterceptor_logged env logger opts srv stream info handler s s1 newCtx
      err hctx hh hd
    rw [hsd] at h
    exact h
  · intro ctx method req reply cc invoker callOpts s s1 l err hl hi
    have h := UnaryClientInterceptor_logged env logger opts ctx method req reply cc invoker
      callOpts s s1 l err hl hi
    rw [hcd] at h
    exact h
  · intro ctx desc cc method streamer callOpts s s1 l clientStream err hl hi
    have h := StreamClientInterceptor_logged env logger opts ctx desc cc method streamer callOpts
      s s1 l clientStream err hl hi
    rw [hcd] at h
    exact h

/-- C21, witness: the call of TestPing_HasOverrides, a successful unary client call
through an interceptor built with WithDurationField(DurationToField): the one event
the sink receives has the fields grpc.duration and grpc.code, and no grpc.time_ms. -/
theorem duration_mappers_witness :
    UnaryClientInterceptor sampleEnv sampleLogger
        (([] ++ OptCall.withDurationField DurationToField :: []).map OptCall.toOption)
        sampleCtx "/pkg.Service/Method" "req" "reply" sampleConn (sampleInvoker none) []
        sampleStart =
      .ok (none,
        (SampleState.mk 5000000
          [{ l := sampleClientLogger, level := zerolog.DebugLevel,
             fields := [("grpc.duration", Value.int 5000000), ("grpc.code", Value.str "OK")],
             message := "finished client unary call" }], [])) :=
  (@duration_mappers SampleWorld String sampleEnv sampleLogger [] [] (by simp)).2.2.2.1 sampleCtx
    "/pkg.Service/Method" "req" "reply" sampleConn (sampleInvoker none) [] sampleStart _
    sampleClientLogger none rfl rfl

section CallLoggerLemmas

variable {σ : Type}

theorem newLoggerForCall_fields (env : Env σ) (ctx : context.Context) (logger : zerolog.Logger)
    (fullMethodString : String) (start : Time) :
    ∃ service, sliceFrom (path.Dir fullMethodString) 1 = .ok service ∧
      newLoggerForCall env ctx logger fullMethodString start =
        .ok (ctxzerolog.ToContext ctx
          { logger with fields := logger.fields ++
              ("grpc.start_time", Value.str (env.formatRFC3339 start)) ::
              ((match ctx.deadline with
                | some d => [("grpc.request.deadline", Value.str (env.formatRFC3339 d))]
                | none => []) ++
              [("system", Value.str "grpc"), ("span.kind", Value.str "server"),
                ("grpc.service", Value.str service),
                ("grpc.method", Value.str (path.Base fullMethodString))]) }) := by
  obtain ⟨service, h⟩ := sliceFrom_Dir_ok fullMethodString
  refine ⟨service, h, ?_⟩
  unfold newLoggerForCall addServerCallFields
  simp only [h]
  cases ctx.deadline <;>
    simp [ctxzerolog.ToContext, zerolog.Context.Logger, zerolog.Context.Str, zerolog.Logger.With,
      SystemField, ServerField]

end CallLoggerLemmas

/-- C22, counterexample: for a base logger that already has a field named
grpc.request.deadline and an incoming context without deadline, the call logger
built by `newLoggerForCall` carries a grpc.request.deadline field: the one of the
base logger, which `logger.With()` keeps. -/
theorem call_logger_inherits_deadline_field :
    sampleCtx.deadline = none ∧
    (newLoggerForCall sampleEnv sampleCtx deadlineLogger "/pkg.Service/Method" 0).toOption.map
        (fun c => c.marker.map (fun l => carriesField l.logger "grpc.request.deadline")) =
      some (some true) := by
  decide

/-- C22, amended: for every server call, the call logger built by `newLoggerForCall`
is the base logger with these fields added, in this order: grpc.start_time;
grpc.request.deadline if and only if the incoming context has a deadline; system,
span.kind, grpc.service and grpc.method. So it always carries a grpc.start_time
field, and when the base logger has no grpc.request.deadline field of its own it
carries one if and only if the incoming context has a deadline. -/
theorem call_logger_start_time_and_deadline {σ : Type} (env : Env σ) (ctx : context.Context)
    (logger : zerolog.Logger) (fullMethodString : String) (start : Time) :
    ∃ callLogger added,
      newLoggerForCall env ctx logger fullMethodString start =
        .ok (ctxzerolog.ToContext ctx callLogger) ∧
      callLogger.writer = logger.writer ∧
      callLogger.fields = logger.fields ++ added ∧
      added.map Prod.fst =
        "grpc.start_time" ::
          ((if ctx.deadline.isSome = true then ["grpc.request.deadline"] else []) ++
            ["system", "span.kind", "grpc.service", "grpc.method"]) ∧
      carriesField callLogger "grpc.start_time" = true ∧
      (carriesField logger "grpc.request.deadline" = false →
        (carriesField callLogger "grpc.request.deadline" = true ↔ ctx.deadline.isSome = true)) := by
  obtain ⟨service, _, h⟩ := newLoggerForCall_fields env ctx logger fullMethodString start
  refine ⟨_, _, h, rfl, rfl, ?_, ?_, ?_⟩
  · cases ctx.deadline <;> simp
  · simp [carriesField]
  · intro hbase
    have hbase1 : ∀ a b, (a, b) ∈ logger.fields → ¬ a = "grpc.request.deadline" := by
      simpa [carriesField] using hbase
    cases hd : ctx.deadline with
    | none =>
      have hb : logger.fields.any (fun kv => kv.1 == "grpc.request.deadline") = false := hbase
      simp [carriesField, hb]
    | some d => simp [carriesField]

/-- C22, witness: the sample base logger has no deadline field; with the sample
context that has a deadline the call logger carries grpc.start_time and
grpc.request.deadline, with the one that has none it carries grpc.start_time only. -/
theorem call_logger_start_time_and_deadline_witness :
    (∃ callLogger,
      newLoggerForCall sampleEnv deadlineCtx sampleLogger "/pkg.Service/Method" 0 =
        .ok (ctxzerolog.ToContext deadlineCtx callLogger) ∧
      carriesField callLogger "grpc.start_time" = true ∧
      carriesField callLogger "grpc.request.deadline" = true) ∧
    (∃ callLogger,
      newLoggerForCall sampleEnv sampleCtx sampleLogger "/pkg.Service/Method" 0 =
        .ok (ctxzerolog.ToContext sampleCtx callLogger) ∧
      carriesField callLogger "grpc.start_time" = true ∧
      carriesField callLogger "grpc.request.deadline" = false) := by
  constructor
  · obtain ⟨callLogger, added, h, _, _, _, h1, h2⟩ :=
      call_logger_start_time_and_deadline sampleEnv deadlineCtx sampleLogger
        "/pkg.Service/Method" 0
    exact ⟨callLogger, h, h1, (h2 rfl).mpr rfl⟩
  · obtain ⟨callLogger, added, h, _, _, _, h1, h2⟩ :=
      call_logger_start_time_and_deadline sampleEnv sampleCtx sampleLogger
        "/pkg.Service/Method" 0
    refine ⟨callLogger, h, h1, ?_⟩
    cases hc : carriesField callLogger "grpc.request.deadline" with
    | false => rfl
    | true => exact absurd ((h2 rfl).mp hc) (by decide)

section OptionsMemoryLemmas

variable {σ : Type}

theorem modifyAt_length_append {α : Type} (f : α → α) (pre : List α) (c : α) :
    modifyAt f pre.length (pre ++ [c]) = pre ++ [f c] := by
  induction pre with
  | nil => rfl
  | cons a pre ih => simp [modifyAt, ih]

theorem update_fresh (d : options σ) (pre : List (options σ)) (c : options σ)
    (f : options σ → options σ) :
    OptionsHeap.update { defaultCell := d, allocated := pre ++ [c] }
        (OptionsPtr.allocated pre.length) f =
      { defaultCell := d, allocated := pre ++ [f c] } := by
  simp [OptionsHeap.update, modifyAt_length_append]

theorem toMemOption_fresh (call : OptCall σ) (d : options σ) (pre : List (options σ))
    (c : options σ) :
    call.toMemOption (OptionsPtr.allocated pre.length)
        { defaultCell := d, allocated := pre ++ [c] } =
      { defaultCell := d, allocated := pre ++ [call.toOption c] } := by
  cases call <;> exact update_fresh d pre c _

theorem foldl_toMemOption_fresh (calls : List (OptCall σ)) (d : options σ)
    (pre : List (options σ)) (c : options σ) :
    (calls.map OptCall.toMemOption).foldl
        (fun h o => o (OptionsPtr.allocated pre.length) h)
        { defaultCell := d, allocated := pre ++ [c] } =
      { defaultCell := d,
        allocated := pre ++ [(calls.map OptCall.toOption).foldl (fun optCopy o => o optCopy) c] } := by
  induction calls generalizing c with
  | nil => rfl
  | cons call calls ih =>
    simp only [List.map_cons, List.foldl_cons, toMemOption_fresh]
    exact ih _

theorem Construction_run_eq (c : Construction σ) (h : OptionsHeap σ) :
    c.run h =
      (OptionsPtr.allocated h.allocated.length,
        { defaultCell := h.defaultCell,
          allocated := h.allocated ++
            [match c with
              | .server opts => (opts.map OptCall.toOption).foldl (fun optCopy o => o optCopy)
                  { h.defaultCell with levelFunc := DefaultCodeToLevel }
              | .client opts => (opts.map OptCall.toOption).foldl (fun optCopy o => o optCopy)
                  { h.defaultCell with levelFunc := DefaultClientCodeToLevel }] }) := by
  cases c with
  | server opts =>
    simp only [Construction.run, mem.evaluateServerOpt, update_fresh, foldl_toMemOption_fresh]
  | client opts =>
    simp only [Construction.run, mem.evaluateClientOpt, update_fresh, foldl_toMemOption_fresh]

theorem Construction_run_default (env : Env σ) (c : Construction σ) (h : OptionsHeap σ)
    (hd : h.defaultCell = defaultOptions env) :
    (c.run h).2 =
      { defaultCell := defaultOptions env, allocated := h.allocated ++ [c.value env] } := by
  rw [Construction_run_eq, hd]
  cases c <;> rfl

theorem constructAll_eq (env : Env σ) (cs : List (Construction σ)) (h : OptionsHeap σ)
    (hd : h.defaultCell = defaultOptions env) :
    constructAll cs h =
      { defaultCell := defaultOptions env,
        allocated := h.allocated ++ cs.map (Construction.value env) } := by
  induction cs generalizing h with
  | nil =>
    cases h
    simp_all [constructAll]
  | cons c cs ih =>
    have h1 := Construction_run_default env c h hd
    have h2 := ih (c.run h).2 (by rw [h1])
    simp only [constructAll, List.foldl_cons] at h2 ⊢
    rw [h2, h1]
    simp

end OptionsMemoryLemmas

/-- C23: constructing an interceptor never changes the shared default baseline.
With the options structs as memory cells: for every memory and every list of
With* options, evaluateServerOpt and evaluateClientOpt return a pointer to a
struct that was not allocated before, and leave the struct `defaultOptions`
points to and every struct allocated before as they were. So, starting from the
initial memory, after any sequence of constructions `defaultOptions` still holds
its five default functions and the options of each interceptor are the ones
computed from its own option list alone; an interceptor built with no options
has the defaults. -/
theorem construction_keeps_defaultOptions {σ : Type} (env : Env σ) :
    (∀ (c : Construction σ) (h : OptionsHeap σ),
      (c.run h).1 = OptionsPtr.allocated h.allocated.length ∧
      h.read (c.run h).1 = none ∧
      (c.run h).2.defaultCell = h.defaultCell ∧
      (∀ p o, h.read p = some o → (c.run h).2.read p = some o) ∧
      (h.defaultCell = defaultOptions env →
        (c.run h).2.read (c.run h).1 = some (c.value env))) ∧
    (∀ cs : List (Construction σ),
      (constructAll cs (initialHeap env)).defaultCell = defaultOptions env ∧
      (constructAll cs (initialHeap env)).allocated = cs.map (Construction.value env)) ∧
    ((defaultOptions env).levelFunc = DefaultCodeToLevel ∧
      (defaultOptions env).shouldLog = env.DefaultDeciderMethod ∧
      (defaultOptions env).codeFunc = env.DefaultErrorToCode ∧
      (defaultOptions env).durationFunc = DefaultDurationToField ∧
      (defaultOptions env).messageFunc = DefaultMessageProducer env) ∧
    Construction.value env (.server []) = serverBaseline env ∧
    Construction.value env (.client []) = clientBaseline env := by
  refine ⟨?_, ?_, ⟨rfl, rfl, rfl, rfl, rfl⟩, rfl, rfl⟩
  · intro c h
    refine ⟨by rw [Construction_run_eq], ?_, by rw [Construction_run_eq], ?_, ?_⟩
    · rw [Construction_run_eq]
      simp [OptionsHeap.read]
    · intro p o hp
      rw [Construction_run_eq]
      cases p with
      | defaultOptions => exact hp
      | allocated i =>
        simp only [OptionsHeap.read] at hp ⊢
        have hi : i < h.allocated.length := by
          by_contra hn
          rw [List.getElem?_eq_none (by omega)] at hp
          cases hp
        rw [List.getElem?_append_left hi]
        exact hp
    · intro hd
      rw [Construction_run_default env c h hd, Construction_run_eq]
      simp [OptionsHeap.read]
  · intro cs
    rw [constructAll_eq env cs (initialHeap env) rfl]
    exact ⟨rfl, by simp [initialHeap]⟩

/-- C23, witness: after the sample constructions, the first of them with a
classifier and a duration mapper of its own, `defaultOptions` and the two
interceptors built without options have the default classifiers and the default
duration mapper; and a construction on the initial memory returns a pointer to
the options computed from its own list. -/
theorem construction_keeps_defaultOptions_witness :
    ((constructAll sampleConstructions (initialHeap sampleEnv)).defaultCell.levelFunc
        codes.Unauthenticated = zerolog.InfoLevel ∧
      (constructAll sampleConstructions (initialHeap sampleEnv)).allocated.map
          (fun o => (o.levelFunc codes.Unauthenticated, o.durationFunc 5000000)) =
        [(zerolog.ErrorLevel, [("grpc.duration", Value.int 5000000)]),
          (zerolog.InfoLevel, [("grpc.time_ms", Value.float32Millis 5000)]),
          (zerolog.InfoLevel, [("grpc.time_ms", Value.float32Millis 5000)])]) ∧
    (initialHeap sampleEnv).defaultCell = defaultOptions sampleEnv ∧
    ((Construction.server []).run (initialHeap sampleEnv)).2.read
        ((Construction.server []).run (initialHeap sampleEnv)).1 =
      some (serverBaseline sampleEnv) := by
  refine ⟨?_, rfl, ?_⟩
  · rw [((construction_keeps_defaultOptions sampleEnv).2.1 sampleConstructions).1,
      ((construction_keeps_defaultOptions sampleEnv).2.1 sampleConstructions).2]
    exact ⟨by decide, by decide⟩
  · exact ((construction_keeps_defaultOptions sampleEnv).1 (Construction.server [])
      (initialHeap sampleEnv)).2.2.2.2 rfl

/-- C25: the service/method split never fails. For every full-method string,
`path.Dir` of it is non-empty, so the slice `path.Dir(s)[1:]` is in range, and
addServerCallFields, newLoggerForCall and newClientLogger return a logger
without panicking; so it is for the empty string, a string without a leading
slash, one without any slash and one with a trailing slash. -/
theorem service_method_split_never_fails (fullMethodString : String) :
    (path.Dir fullMethodString).data ≠ [] ∧
    1 ≤ (path.Dir fullMethodString).data.length ∧
    (∃ service, sliceFrom (path.Dir fullMethodString) 1 = .ok service) ∧
    (∀ zerologCtx : zerolog.Context,
      ∃ c, addServerCallFields fullMethodString zerologCtx = .ok c) ∧
    (∀ (σ : Type) (env : Env σ) (ctx : context.Context) (logger : zerolog.Logger) (start : Time),
      ∃ newCtx, newLoggerForCall env ctx logger fullMethodString start = .ok newCtx) ∧
    (∀ (ctx : context.Context) (logger : zerolog.Logger),
      ∃ l, newClientLogger ctx fullMethodString logger = .ok l) ∧
    (path.Dir "" = "." ∧ sliceFrom (path.Dir "") 1 = .ok "") ∧
    (path.Dir "pkg.Service/Method" = "pkg.Service" ∧
      sliceFrom (path.Dir "pkg.Service/Method") 1 = .ok "kg.Service") ∧
    (path.Dir "Method" = "." ∧ sliceFrom (path.Dir "Method") 1 = .ok "") ∧
    (path.Dir "/pkg.Service/Method/" = "/pkg.Service/Method" ∧
      sliceFrom (path.Dir "/pkg.Service/Method/") 1 = .ok "pkg.Service/Method") ∧
    (path.Dir "/" = "/" ∧ sliceFrom (path.Dir "/") 1 = .ok "") := by
  have hne : (path.Dir fullMethodString).data ≠ [] := by
    simp only [path.Dir, path.Clean]
    exact cleanChars_ne_nil _
  refine ⟨hne, List.length_pos.mpr hne, sliceFrom_Dir_ok fullMethodString,
    fun zerologCtx => addServerCallFields_ok fullMethodString zerologCtx,
    fun σ env ctx logger start => newLoggerForCall_ok env ctx logger fullMethodString start,
    fun ctx logger => newClientLogger_ok ctx fullMethodString logger,
    ⟨by decide, rfl⟩, ⟨by decide, rfl⟩, ⟨by decide, rfl⟩, ⟨by decide, rfl⟩, ⟨by decide, rfl⟩⟩

section StoreMemoryLemmas

variable {σ : Type}

theorem lastValue_append_singleton (k : String) (m : GoMap) (x : String × Value) :
    lastValue k (m ++ [x]) = if x.1 = k then some x.2 else lastValue k m := by
  induction m with
  | nil => simp [lastValue]
  | cons kv rest ih =>
    simp only [List.cons_append, lastValue, List.append_eq]
    rw [ih]
    by_cases hx : x.1 = k
    · simp [hx]
    · simp [hx]

theorem lastValue_map_other (k k1 : String) (v : Value) (m : GoMap) (hk : ¬ k1 = k) :
    lastValue k (m.map (fun kv => if kv.1 == k1 then (k1, v) else kv)) = lastValue k m := by
  induction m with
  | nil => rfl
  | cons kv rest ih =>
    simp only [List.map_cons, lastValue, ih]
    by_cases h1 : kv.1 = k1
    · have h2 : ¬ kv.1 = k := fun h => hk (h1 ▸ h)
      simp [h1, h2, hk]
    · simp [h1]

theorem lastValue_map_same (k : String) (v : Value) (m : GoMap) :
    lastValue k (m.map (fun kv => if kv.1 == k then (k, v) else kv)) =
      if m.any (fun kv => kv.1 == k) = true then some v else none := by
  induction m with
  | nil => rfl
  | cons kv rest ih =>
    simp only [List.map_cons, lastValue, ih, List.any_cons]
    by_cases h1 : kv.1 = k <;> by_cases h2 : rest.any (fun kv => kv.1 == k) = true <;>
      simp [h1, h2]

theorem lastValue_set (m : GoMap) (k k1 : String) (v : Value) :
    lastValue k (m.set k1 v) = if k1 = k then some v else lastValue k m := by
  unfold GoMap.set
  by_cases hany : m.any (fun kv => kv.1 == k1) = true
  · rw [if_pos hany]
    by_cases hk : k1 = k
    · subst hk
      rw [lastValue_map_same, if_pos hany, if_pos rfl]
    · rw [lastValue_map_other k k1 v m hk, if_neg hk]
  · rw [if_neg hany, lastValue_append_singleton]

theorem lastValue_foldl_set (k : String) (tags acc : GoMap) :
    lastValue k (tags.foldl (fun fields kv => fields.set kv.1 kv.2) acc) =
      match lastValue k tags with
      | some v => some v
      | none => lastValue k acc := by
  induction tags generalizing acc with
  | nil => rfl
  | cons kv rest ih =>
    simp only [List.foldl_cons, ih, lastValue_set, lastValue]
    cases lastValue k rest with
    | some v => rfl
    | none =>
      by_cases h : kv.1 = k
      · simp [h]
      · simp [h]

theorem set_of_absent (m : GoMap) (k : String) (v : Value) (h : k ∉ m.map Prod.fst) :
    m.set k v = m ++ [(k, v)] := by
  unfold GoMap.set
  have hany : ¬ m.any (fun kv => kv.1 == k) = true := by
    intro ha
    obtain ⟨kv, hkv, hk⟩ := List.any_eq_true.mp ha
    exact h (List.mem_map.mpr ⟨kv, hkv, by simpa using hk⟩)
  rw [if_neg hany]

theorem set_keys (m : GoMap) (k : String) (v : Value) :
    (m.set k v).map Prod.fst =
      if m.any (fun kv => kv.1 == k) = true then m.map Prod.fst else m.map Prod.fst ++ [k] := by
  unfold GoMap.set
  by_cases hany : m.any (fun kv => kv.1 == k) = true
  · rw [if_pos hany, if_pos hany, List.map_map]
    apply List.map_congr_left
    intro kv _
    by_cases h1 : kv.1 = k
    · simp [h1]
    · simp [h1]
  · rw [if_neg hany, if_neg hany, List.map_append]
    rfl

theorem set_keys_nodup (m : GoMap) (k : String) (v : Value) (h : (m.map Prod.fst).Nodup) :
    ((m.set k v).map Prod.fst).Nodup := by
  rw [set_keys]
  by_cases hany : m.any (fun kv => kv.1 == k) = true
  · rw [if_pos hany]
    exact h
  · rw [if_neg hany]
    refine List.Nodup.append h (List.nodup_singleton k) ?_
    intro a ha hk
    rw [List.mem_singleton] at hk
    subst hk
    apply hany
    obtain ⟨kv, hkv, hk⟩ := List.mem_map.mp ha
    exact List.any_eq_true.mpr ⟨kv, hkv, by simpa using hk⟩

theorem foldl_set_keys_nodup (tags acc : GoMap) (h : (acc.map Prod.fst).Nodup) :
    ((tags.foldl (fun fields kv => fields.set kv.1 kv.2) acc).map Prod.fst).Nodup := by
  induction tags generalizing acc with
  | nil => exact h
  | cons kv rest ih => exact ih _ (set_keys_nodup acc kv.1 kv.2 h)

theorem foldl_set_of_nodup (tags acc : GoMap)
    (h : (acc.map Prod.fst ++ tags.map Prod.fst).Nodup) :
    tags.foldl (fun fields kv => fields.set kv.1 kv.2) acc = acc ++ tags := by
  induction tags generalizing acc with
  | nil => simp
  | cons kv rest ih =>
    have habs : kv.1 ∉ acc.map Prod.fst := by
      intro hmem
      have := (List.nodup_append.mp h).2.2
      exact this hmem (by simp) 
    rw [List.foldl_cons, set_of_absent acc kv.1 kv.2 habs, ih (acc ++ [kv]) (by simpa using h)]
    simp

theorem TagsToFields_spec (env : Env σ) (ctx : context.Context) (s : σ) :
    ((ctxzerolog.TagsToFields env ctx s).map Prod.fst).Nodup ∧
    (∀ k, lastValue k (ctxzerolog.TagsToFields env ctx s) = lastValue k (env.tags ctx s)) ∧
    (((env.tags ctx s).map Prod.fst).Nodup →
      ctxzerolog.TagsToFields env ctx s = env.tags ctx s) := by
  unfold ctxzerolog.TagsToFields
  refine ⟨foldl_set_keys_nodup _ _ (by simp), ?_, ?_⟩
  · intro k
    rw [lastValue_foldl_set]
    cases lastValue k (env.tags ctx s) <;> rfl
  · intro hn
    rw [foldl_set_of_nodup _ _ (by simpa using hn)]
    simp

theorem heap_Extract_eq (env : Env σ) (ctx : heap.Context) (s : σ) (h : StoreHeap) :
    heap.Extract env ctx s h = ctxzerolog.Extract env (ctx.read h) s := rfl

theorem read_after_alloc (ctx : heap.Context) (h : StoreHeap) (l : ctxzerolog.ctxLogger)
    (hp : ctx.allocated h = true) : ctx.read (h ++ [l]) = ctx.read h := by
  unfold heap.Context.read
  cases hm : ctx.marker with
  | none => rfl
  | some p =>
    have hlt : p < h.length := by
      simpa [heap.Context.allocated, hm] using hp
    simp [List.getElem?_append_left hlt]

theorem modifyAt_getElem_ne {α : Type} (f : α → α) (n : Nat) (l : List α) (i : Nat)
    (hi : i ≠ n) : (modifyAt f n l)[i]? = l[i]? := by
  induction l generalizing n i with
  | nil => cases n <;> rfl
  | cons a rest ih =>
    cases n with
    | zero =>
      cases i with
      | zero => exact absurd rfl hi
      | succ j => rfl
    | succ m =>
      cases i with
      | zero => simp [modifyAt]
      | succ j =>
        simp only [modifyAt, List.getElem?_cons_succ]
        exact ih m j (fun hj => hi (by rw [hj]))

theorem AddFields_other_store (ctx : heap.Context) (fields : GoMap) (h h2 : StoreHeap)
    (i : Nat) (hi : ctx.marker ≠ some i) (hadd : heap.AddFields ctx fields h = .ok h2) :
    h2[i]? = h[i]? := by
  unfold heap.AddFields at hadd
  cases hm : ctx.marker with
  | none =>
    simp only [hm] at hadd
    cases hadd
    rfl
  | some p =>
    simp only [hm] at hadd
    cases hl : h[p]? with
    | none =>
      simp only [hl] at hadd
      cases hadd
      rfl
    | some l =>
      simp only [hl] at hadd
      cases hs : ctxzerolog.assignFields l.fields fields with
      | error e =>
        simp only [hs] at hadd
        cases hadd
      | ok store =>
        simp only [hs] at hadd
        cases hadd
        exact modifyAt_getElem_ne _ p h i (fun hip => hi (by rw [hm, hip]))

end StoreMemoryLemmas

/-- C15: `ToContext` never fails and attaches a fresh store with an empty (nil)
field set. With the stores as structs in memory: for every memory, every parent
context whose store, if it has one, is in that memory (also one with fields
added) and every logger, `ToContext` returns a context that points to a struct
not allocated before, holding the given logger and no fields; every struct
allocated before, the parent's store included, is as it was, so the parent
reads the same and `Extract(parent)` returns what it returned before. `Extract`
on the new context yields the given logger with the tags only appended to its
fields: one field per tag key, with the value the tags have for it, and nothing
of the parent's store. -/
theorem ToContext_fresh_store {σ : Type} (env : Env σ) (h : StoreHeap) (parent : heap.Context)
    (logger : zerolog.Logger) (s : σ) (hp : parent.allocated h = true) :
    ((heap.ToContext parent logger h).1.marker = some h.length ∧
      h[h.length]? = none ∧
      (heap.ToContext parent logger h).2 = h ++ [{ logger := logger, fields := none }] ∧
      (heap.ToContext parent logger h).1.deadline = parent.deadline ∧
      (heap.ToContext parent logger h).1.rest = parent.rest) ∧
    (∀ (p : Nat) (l : ctxzerolog.ctxLogger),
      h[p]? = some l → (heap.ToContext parent logger h).2[p]? = some l) ∧
    parent.read (heap.ToContext parent logger h).2 = parent.read h ∧
    heap.Extract env parent s (heap.ToContext parent logger h).2 = heap.Extract env parent s h ∧
    (heap.ToContext parent logger h).1.read (heap.ToContext parent logger h).2 =
      ctxzerolog.ToContext (parent.read h) logger ∧
    ((heap.ToContext parent logger h).1.read (heap.ToContext parent logger h).2).marker =
      some { logger := logger, fields := none } ∧
    (∀ (fields : GoMap) (h2 : StoreHeap),
      heap.AddFields parent fields (heap.ToContext parent logger h).2 = .ok h2 →
      (heap.ToContext parent logger h).1.read h2 =
        ctxzerolog.ToContext (parent.read h) logger) ∧
    ∃ added,
      heap.Extract env (heap.ToContext parent logger h).1 s (heap.ToContext parent logger h).2 =
        { logger with fields := logger.fields ++ added } ∧
      (added.map Prod.fst).Nodup ∧
      (∀ k, lastValue k added =
        lastValue k (env.tags (ctxzerolog.ToContext (parent.read h) logger) s)) ∧
      (((env.tags (ctxzerolog.ToContext (parent.read h) logger) s).map Prod.fst).Nodup →
        added = env.tags (ctxzerolog.ToContext (parent.read h) logger) s) := by
  have hread : (heap.ToContext parent logger h).1.read (heap.ToContext parent logger h).2 =
      ctxzerolog.ToContext (parent.read h) logger := by
    simp [heap.ToContext, heap.Context.read, ctxzerolog.ToContext]
  have hparent := read_after_alloc parent h { logger := logger, fields := none } hp
  refine ⟨⟨rfl, by simp, rfl, rfl, rfl⟩, ?_, hparent, ?_, hread, ?_, ?_, ?_⟩
  · intro p l hl
    have hlt : p < h.length := by
      by_contra hn
      rw [List.getElem?_eq_none (by omega)] at hl
      cases hl
    simp only [heap.ToContext]
    rw [List.getElem?_append_left hlt]
    exact hl
  · rw [heap_Extract_eq, heap_Extract_eq]
    exact congrArg (fun c => ctxzerolog.Extract env c s) hparent
  · rw [hread]
    rfl
  · intro fields h2 hadd
    have hne : parent.marker ≠ some h.length := by
      intro hm
      simp [heap.Context.allocated, hm] at hp
    have hsame := AddFields_other_store parent fields _ h2 h.length hne hadd
    rw [← hread]
    simp only [heap.Context.read, heap.ToContext] at hsame ⊢
    simp only [Option.bind, hsame]
  · obtain ⟨h1, h2, h3⟩ :=
      TagsToFields_spec env (ctxzerolog.ToContext (parent.read h) logger) s
    refine ⟨ctxzerolog.TagsToFields env (ctxzerolog.ToContext (parent.read h) logger) s,
      ?_, h1, h2, h3⟩
    rw [heap_Extract_eq, hread]
    rfl

/-- C15, witness: on the sample memory, whose one store has the field custom_field
added, and with two tags set: the new context points to a second struct, the
store of the parent is as it was, `Extract` on the parent still yields the logger
with the tags and custom_field, and `Extract` on the new context yields the given
logger with the two tags and without custom_field. -/
theorem ToContext_fresh_store_witness :
    sampleParent.allocated sampleHeap = true ∧
    (heap.ToContext sampleParent deadlineLogger sampleHeap).1.marker = some 1 ∧
    (heap.ToContext sampleParent deadlineLogger sampleHeap).2[0]? = sampleHeap[0]? ∧
    heap.Extract taggedEnv sampleParent sampleStart
        (heap.ToContext sampleParent deadlineLogger sampleHeap).2 =
      { sampleLogger with
        fields := [("custom_tags.string", Value.str "something"),
          ("custom_tags.int", Value.int 1337), ("custom_field", Value.str "custom_value")] } ∧
    heap.Extract taggedEnv (heap.ToContext sampleParent deadlineLogger sampleHeap).1 sampleStart
        (heap.ToContext sampleParent deadlineLogger sampleHeap).2 =
      { deadlineLogger with
        fields := [("grpc.request.deadline", Value.str "never"),
          ("custom_tags.string", Value.str "something"),
          ("custom_tags.int", Value.int 1337)] } := by
  have hw := ToContext_fresh_store taggedEnv sampleHeap sampleParent deadlineLogger sampleStart rfl
  refine ⟨rfl, hw.1.1, ?_, ?_, ?_⟩
  · exact hw.2.1 0 _ rfl
  · rw [hw.2.2.2.1]
    rfl
  · obtain ⟨added, h1, _, _, h4⟩ := hw.2.2.2.2.2.2.2
    rw [h1, h4 (by decide)]
    rfl

section ZerologSinkLemmas

variable {τ ι : Type}

theorem written_payloadEvent (globalLevel : Level) (logger : zerolog.Logger)
    (key rendered msg : String) :
    zerolog.written globalLevel [payloadEvent logger key rendered msg] =
      if logger.should globalLevel zerolog.InfoLevel = true then
        [payloadEvent logger key rendered msg]
      else [] := by
  have hen : zerolog.Event.enabled globalLevel (payloadEvent logger key rendered msg) =
      logger.should globalLevel zerolog.InfoLevel := by
    simp [zerolog.Event.enabled, payloadEvent, zerolog.Event.Object, zerolog.Logger.WithLevel,
      zerolog.InfoLevel, zerolog.Disabled]
  by_cases h : logger.should globalLevel zerolog.InfoLevel = true
  · simp [zerolog.written, hen, h]
  · simp [zerolog.written, hen, h]

theorem written_level (globalLevel : Level) (logger : zerolog.Logger)
    (key rendered msg : String) :
    ∀ e ∈ zerolog.written globalLevel [payloadEvent logger key rendered msg],
      e = payloadEvent logger key rendered msg ∧ e.level = zerolog.InfoLevel := by
  intro e he
  have := (List.mem_filter.mp he).1
  rw [List.mem_singleton] at this
  subst this
  exact ⟨rfl, rfl⟩

theorem logProto_zerolog (base : Env (τ × List zerolog.Event)) (globalLevel : Level)
    (asProto : ProtoView (τ × List zerolog.Event) ι) (logger : zerolog.Logger) (m : ι)
    (key msg rendered : String) (s : τ × List zerolog.Event) (h : asProto m s = some rendered) :
    logProtoMessageAsJson (withZerologSink globalLevel base) asProto logger m key msg s =
      .ok ((), (s.1, s.2 ++ zerolog.written globalLevel [payloadEvent logger key rendered msg])) := by
  unfold logProtoMessageAsJson
  rw [h]
  rfl

theorem addServerCallFields_should (fullMethodString : String) (zc zl : zerolog.Context)
    (h : addServerCallFields fullMethodString zc = .ok zl) (globalLevel lvl : Level) :
    zl.Logger.should globalLevel lvl = zc.l.should globalLevel lvl := by
  unfold addServerCallFields at h
  cases hs : sliceFrom (path.Dir fullMethodString) 1 with
  | error p =>
    simp only [hs] at h
    cases h
  | ok service =>
    simp only [hs] at h
    cases h
    rfl

theorem newClientLogger_should (ctx : context.Context) (fullMethodString : String)
    (logger l : zerolog.Logger) (h : newClientLogger ctx fullMethodString logger = .ok l)
    (globalLevel lvl : Level) :
    l.should globalLevel lvl = logger.should globalLevel lvl := by
  unfold newClientLogger at h
  cases hs : sliceFrom (path.Dir fullMethodString) 1 with
  | error p =>
    simp only [hs] at h
    cases h
  | ok service =>
    simp only [hs] at h
    cases h
    rfl

theorem logProto_written (base : Env (τ × List zerolog.Event)) (globalLevel : Level)
    (asProto : ProtoView (τ × List zerolog.Event) ι) (logger : zerolog.Logger) (m : ι)
    (key msg : String) (s : τ × List zerolog.Event) :
    ∃ evs,
      logProtoMessageAsJson (withZerologSink globalLevel base) asProto logger m key msg s =
        .ok ((), (s.1, s.2 ++ evs)) ∧
      (∀ e ∈ evs, e.level = zerolog.InfoLevel) ∧
      (asProto m s = none → evs = []) ∧
      (logger.should globalLevel zerolog.InfoLevel = false → evs = []) ∧
      (∀ k, countKey k evs =
        if logger.should globalLevel zerolog.InfoLevel = true ∧ (asProto m s).isSome = true ∧ key = k
        then 1 else 0) := by
  cases h : asProto m s with
  | none =>
    refine ⟨[], ?_, by simp, fun _ => rfl, fun _ => rfl, fun k => by simp [countKey_nil]⟩
    rw [logProto_not_proto _ _ _ _ _ _ _ h]
    simp
  | some r =>
    refine ⟨zerolog.written globalLevel [payloadEvent logger key r msg],
      logProto_zerolog base globalLevel asProto logger m key msg r s h,
      fun e he => (written_level globalLevel logger key r msg e he).2, by simp, ?_, ?_⟩
    · intro hoff
      rw [written_payloadEvent, hoff]
      rfl
    · intro k
      rw [written_payloadEvent]
      by_cases hon : logger.should globalLevel zerolog.InfoLevel = true
      · rw [if_pos hon, countKey_payloadEvent]
        by_cases hk : key = k <;> simp [hon, hk]
      · rw [if_neg hon]
        simp [countKey_nil, hon]

theorem after_logProto_written {α : Type} (base : Env (τ × List zerolog.Event))
    (globalLevel : Level) (asProto : ProtoView (τ × List zerolog.Event) ι)
    (logger : zerolog.Logger) (m : ι) (key msg : String) (s : τ × List zerolog.Event) (a : α)
    (err : Err) :
    ∃ evs,
      (if err = none then
          Except.map (fun r => (a, r.2))
            (logProtoMessageAsJson (withZerologSink globalLevel base) asProto logger m key msg s)
        else (.ok (a, s) : Except Panic (α × (τ × List zerolog.Event)))) =
        .ok (a, (s.1, s.2 ++ evs)) ∧
      (∀ e ∈ evs, e.level = zerolog.InfoLevel) ∧
      (asProto m s = none → evs = []) ∧
      (logger.should globalLevel zerolog.InfoLevel = false → evs = []) ∧
      (∀ k, countKey k evs =
        if logger.should globalLevel zerolog.InfoLevel = true ∧
          (err = none ∧ (asProto m s).isSome = true) ∧ key = k
        then 1 else 0) := by
  by_cases he : err = none
  · obtain ⟨evs, h1, h2, h3, h4, h5⟩ :=
      logProto_written base globalLevel asProto logger m key msg s
    refine ⟨evs, ?_, h2, h3, h4, ?_⟩
    · rw [if_pos he, h1]
      rfl
    · intro k
      rw [h5 k]
      simp [he]
  · refine ⟨[], ?_, by simp, fun _ => rfl, fun _ => rfl, fun k => by simp [countKey_nil, he]⟩
    rw [if_neg he]
    simp

theorem runOps_gated (gate : Bool) (send : ι → Go τ Err) (recv : ι → Go τ (ι × Err))
    (wsend : ι → Go (τ × List zerolog.Event) Err)
    (wrecv : ι → Go (τ × List zerolog.Event) (ι × Err)) (ksend krecv : String)
    (hs : ∀ m t log err t1, send m t = .ok (err, t1) →
      ∃ e, wsend m (t, log) = .ok (err, (t1, log ++ e)) ∧
        ∀ k, countKey k e = if gate = true ∧ err = none ∧ ksend = k then 1 else 0)
    (hr : ∀ m t log m1 err t1, recv m t = .ok ((m1, err), t1) →
      ∃ e, wrecv m (t, log) = .ok ((m1, err), (t1, log ++ e)) ∧
        ∀ k, countKey k e = if gate = true ∧ err = none ∧ krecv = k then 1 else 0)
    (ops : List (StreamOp ι)) :
    ∀ (t t1 : τ) (log : List zerolog.Event) (rs : List (ι × Err)),
      runOps send recv ops t = .ok (rs, t1) →
      ∃ evs, runOps wsend wrecv ops (t, log) = .ok (rs, (t1, log ++ evs)) ∧
        ∀ k, countKey k evs =
          if gate = true then
            (if ksend = k then successfulCalls true ops rs else 0) +
            (if krecv = k then successfulCalls false ops rs else 0)
          else 0 := by
  induction ops with
  | nil =>
    intro t t1 log rs h
    simp only [runOps, Except.ok.injEq, Prod.mk.injEq] at h
    obtain ⟨h1, h2⟩ := h
    subst h1 h2
    exact ⟨[], by simp [runOps], fun k => by simp [countKey_nil, successfulCalls]⟩
  | cons op rest ih =>
    intro t t1 log rs h
    cases op with
    | send m =>
      obtain ⟨err, t2, rs1, h1, h2, h3⟩ := runOps_send_ok send recv m rest t t1 rs h
      obtain ⟨e, he, hc⟩ := hs m t log err t2 h1
      obtain ⟨evs, hev, hcount⟩ := ih t2 t1 (log ++ e) rs1 h2
      refine ⟨e ++ evs, ?_, ?_⟩
      · simp only [runOps, he, hev, h3, List.append_assoc]
      · intro k
        rw [countKey_append, hc k, hcount k, h3]
        cases gate <;> by_cases hk1 : ksend = k <;> by_cases hk2 : krecv = k <;>
          by_cases he0 : err = none <;>
          (simp [successfulCalls, hk1, hk2, he0]; try omega)
    | recv m =>
      obtain ⟨m1, err, t2, rs1, h1, h2, h3⟩ := runOps_recv_ok send recv m rest t t1 rs h
      obtain ⟨e, he, hc⟩ := hr m t log m1 err t2 h1
      obtain ⟨evs, hev, hcount⟩ := ih t2 t1 (log ++ e) rs1 h2
      refine ⟨e ++ evs, ?_, ?_⟩
      · simp only [runOps, he, hev, h3, List.append_assoc]
      · intro k
        rw [countKey_append, hc k, hcount k, h3]
        cases gate <;> by_cases hk1 : ksend = k <;> by_cases hk2 : krecv = k <;>
          by_cases he0 : err = none <;>
          (simp [successfulCalls, hk1, hk2, he0]; try omega)

theorem gated_count {α : Type} (base : Env (τ × List zerolog.Event)) (globalLevel : Level)
    (asProto : ProtoView (τ × List zerolog.Event) ι) (logger : zerolog.Logger)
    (hproto : ∀ m s, ∃ r, asProto m s = some r) (m : ι) (key msg : String)
    (s : τ × List zerolog.Event) (a : α) (err : Err) :
    ∃ e,
      (if err = none then
          Except.map (fun r => (a, r.2))
            (logProtoMessageAsJson (withZerologSink globalLevel base) asProto logger m key msg s)
        else (.ok (a, s) : Except Panic (α × (τ × List zerolog.Event)))) =
        .ok (a, (s.1, s.2 ++ e)) ∧
      ∀ k, countKey k e =
        if logger.should globalLevel zerolog.InfoLevel = true ∧ err = none ∧ key = k
        then 1 else 0 := by
  obtain ⟨evs, h1, _, _, _, h5⟩ :=
    after_logProto_written base globalLevel asProto logger m key msg s a err
  refine ⟨evs, h1, fun k => ?_⟩
  obtain ⟨r, hr⟩ := hproto m s
  rw [h5 k, hr]
  simp

theorem server_wrapper_written (base : Env (τ × List zerolog.Event)) (globalLevel : Level)
    (asProto : ProtoView (τ × List zerolog.Event) ι) (logger : zerolog.Logger)
    (hproto : ∀ m s, ∃ r, asProto m s = some r) (inner : ServerStream τ ι)
    (ops : List (StreamOp ι)) (t t1 : τ) (log : List zerolog.Event) (rs : List (ι × Err))
    (h : runOps inner.SendMsg inner.RecvMsg ops t = .ok (rs, t1)) :
    ∃ evs,
      runOps
        (loggingServerStream.asStream (withZerologSink globalLevel base) asProto
          { ServerStream := liftServerStream inner, logger := logger }).SendMsg
        (loggingServerStream.asStream (withZerologSink globalLevel base) asProto
          { ServerStream := liftServerStream inner, logger := logger }).RecvMsg
        ops (t, log) = .ok (rs, (t1, log ++ evs)) ∧
      countKey "grpc.request.content" evs =
        (if logger.should globalLevel zerolog.InfoLevel = true
          then successfulCalls false ops rs else 0) ∧
      countKey "grpc.response.content" evs =
        (if logger.should globalLevel zerolog.InfoLevel = true
          then successfulCalls true ops rs else 0) := by
  obtain ⟨evs, hev, hc⟩ := runOps_gated (logger.should globalLevel zerolog.InfoLevel)
    inner.SendMsg inner.RecvMsg
    (loggingServerStream.asStream (withZerologSink globalLevel base) asProto
      { ServerStream := liftServerStream inner, logger := logger }).SendMsg
    (loggingServerStream.asStream (withZerologSink globalLevel base) asProto
      { ServerStream := liftServerStream inner, logger := logger }).RecvMsg
    "grpc.response.content" "grpc.request.content"
    (by
      intro m t log err t2 h1
      simp only [loggingServerStream.asStream, loggingServerStream.SendMsg, liftServerStream,
        liftGo_ok _ _ _ _ _ h1, after_producer_eq_map]
      exact gated_count base globalLevel asProto logger hproto m _ _ (t2, log) err err)
    (by
      intro m t log m1 err t2 h1
      simp only [loggingServerStream.asStream, loggingServerStream.RecvMsg, liftServerStream,
        liftGo_ok _ _ _ _ _ h1, after_producer_eq_map]
      exact gated_count base globalLevel asProto logger hproto m1 _ _ (t2, log) (m1, err) err)
    ops t t1 log rs h
  refine ⟨evs, hev, ?_, ?_⟩
  · rw [hc]
    by_cases hon : logger.should globalLevel zerolog.InfoLevel = true <;> simp [hon]
  · rw [hc]
    by_cases hon : logger.should globalLevel zerolog.InfoLevel = true <;> simp [hon]

theorem client_wrapper_written (base : Env (τ × List zerolog.Event)) (globalLevel : Level)
    (asProto : ProtoView (τ × List zerolog.Event) ι) (logger : zerolog.Logger)
    (hproto : ∀ m s, ∃ r, asProto m s = some r) (inner : ClientStream τ ι)
    (ops : List (StreamOp ι)) (t t1 : τ) (log : List zerolog.Event) (rs : List (ι × Err))
    (h : runOps inner.SendMsg inner.RecvMsg ops t = .ok (rs, t1)) :
    ∃ evs,
      runOps
        (loggingClientStream.asStream (withZerologSink globalLevel base) asProto
          { ClientStream := some (liftClientStream inner), logger := logger }).SendMsg
        (loggingClientStream.asStream (withZerologSink globalLevel base) asProto
          { ClientStream := some (liftClientStream inner), logger := logger }).RecvMsg
        ops (t, log) = .ok (rs, (t1, log ++ evs)) ∧
      countKey "grpc.request.content" evs =
        (if logger.should globalLevel zerolog.InfoLevel = true
          then successfulCalls true ops rs else 0) ∧
      countKey "grpc.response.content" evs =
        (if logger.should globalLevel zerolog.InfoLevel = true
          then successfulCalls false ops rs else 0) := by
  obtain ⟨evs, hev, hc⟩ := runOps_gated (logger.should globalLevel zerolog.InfoLevel)
    inner.SendMsg inner.RecvMsg
    (loggingClientStream.asStream (withZerologSink globalLevel base) asProto
      { ClientStream := some (liftClientStream inner), logger := logger }).SendMsg
    (loggingClientStream.asStream (withZerologSink globalLevel base) asProto
      { ClientStream := some (liftClientStream inner), logger := logger }).RecvMsg
    "grpc.request.content" "grpc.response.content"
    (by
      intro m t log err t2 h1
      simp only [loggingClientStream.asStream, loggingClientStream.SendMsg, liftClientStream,
        liftGo_ok _ _ _ _ _ h1, after_producer_eq_map]
      exact gated_count base globalLevel asProto logger hproto m _ _ (t2, log) err err)
    (by
      intro m t log m1 err t2 h1
      simp only [loggingClientStream.asStream, loggingClientStream.RecvMsg, liftClientStream,
        liftGo_ok _ _ _ _ _ h1, after_producer_eq_map]
      exact gated_count base globalLevel asProto logger hproto m1 _ _ (t2, log) (m1, err) err)
    ops t t1 log rs h
  refine ⟨evs, hev, ?_, ?_⟩
  · rw [hc]
    by_cases hon : logger.should globalLevel zerolog.InfoLevel = true <;> simp [hon]
  · rw [hc]
    by_cases hon : logger.should globalLevel zerolog.InfoLevel = true <;> simp [hon]

end ZerologSinkLemmas

/-- C17, counterexample: with zerolog as the sink, the sample unary call with
protobuf request and response, the decider returning true and a nil error emits
no record through the payload server interceptor built on `zerolog.Nop()`, and
none through the payload client interceptor built on a logger of level warn. -/
theorem payload_unary_no_record_when_disabled :
    @sampleProto SinkWorld "ping" (0, []) = some "ping" ∧
    PayloadUnaryServerInterceptor (withZerologSink zerolog.TraceLevel sinkBase) sampleProto
        zerolog.Nop (fun _ _ _ => true) sampleCtx "ping" sampleInfo (sinkHandler none) (0, []) =
      .ok (("ping", none), (5000000, [])) ∧
    PayloadUnaryClientInterceptor (withZerologSink zerolog.TraceLevel sinkBase) sampleProto
        warnLogger (fun _ _ => true) sampleCtx "/pkg.Service/Method" "req" "reply" sampleConn
        (sinkInvoker none) [] (0, []) =
      .ok (none, (5000000, [])) :=
  ⟨rfl, rfl, rfl⟩

/-- C17, amended: for every unary call with protobuf request and response through
`PayloadUnaryServerInterceptor` or `PayloadUnaryClientInterceptor` with the decider
returning true, with zerolog as the sink. The record with key grpc.request.content
goes to the logger before the handler / invoker runs (the wrapped call starts from
the output so far and what zerolog wrote of that record); when the wrapped call
returns a nil error the record with key grpc.response.content follows what the
wrapped call left, and when it returns an error nothing follows; the result of
the wrapped call is returned unchanged. Of each such record zerolog writes exactly
one when the logger given to the interceptor emits info-level events (info is
neither below its level nor below the global level), and none when it does not. -/
theorem payload_unary_records {τ ι : Type} (base : Env (τ × List zerolog.Event))
    (globalLevel : Level) (asProto : ProtoView (τ × List zerolog.Event) ι)
    (logger : zerolog.Logger) :
    (∀ (decider : ServerPayloadLoggingDecider ι) (ctx : context.Context) (req : ι)
        (info : UnaryServerInfo ι) (handler : UnaryHandler (τ × List zerolog.Event) ι)
        (s s2 : τ × List zerolog.Event) (zl : zerolog.Context) (rq : String) (resp : ι)
        (err : Err),
        decider ctx info.FullMethod info.Server = true →
        addServerCallFields info.FullMethod
          (logger.With.Fields
            (ctxzerolog.TagsToFields (withZerologSink globalLevel base) ctx s)) = .ok zl →
        asProto req s = some rq →
        handler ctx req (s.1, s.2 ++ zerolog.written globalLevel
          [payloadEvent zl.Logger "grpc.request.content" rq
            "server request payload logged as grpc.request.content field"]) =
          .ok ((resp, err), s2) →
        (∀ rp, err = none → asProto resp s2 = some rp →
          PayloadUnaryServerInterceptor (withZerologSink globalLevel base) asProto logger decider
              ctx req info handler s =
            .ok ((resp, err), (s2.1, s2.2 ++ zerolog.written globalLevel
              [payloadEvent zl.Logger "grpc.response.content" rp
                "server response payload logged as grpc.response.content field"]))) ∧
        (err ≠ none →
          PayloadUnaryServerInterceptor (withZerologSink globalLevel base) asProto logger decider
              ctx req info handler s = .ok ((resp, err), s2)) ∧
        (∀ key rendered msg,
          zerolog.written globalLevel [payloadEvent zl.Logger key rendered msg] =
            if logger.should globalLevel zerolog.InfoLevel = true then
              [payloadEvent zl.Logger key rendered msg]
            else [])) ∧
    (∀ (decider : ClientPayloadLoggingDecider) (ctx : context.Context) (method : String)
        (req reply : ι) (cc : ClientConn) (invoker : UnaryInvoker (τ × List zerolog.Event) ι)
        (callOpts : List CallOption) (s s2 : τ × List zerolog.Event) (logEntry : zerolog.Logger)
        (rq : String) (err : Err),
        decider ctx method = true →
        newClientLogger ctx method logger = .ok logEntry →
        asProto req s = some rq →
        invoker ctx method req reply cc callOpts
          (s.1, s.2 ++ zerolog.written globalLevel
            [payloadEvent logEntry "grpc.request.content" rq
              "client request payload logged as grpc.request.content"]) = .ok (err, s2) →
        (∀ rp, err = none → asProto reply s2 = some rp →
          PayloadUnaryClientInterceptor (withZerologSink globalLevel base) asProto logger decider
              ctx method req reply cc invoker callOpts s =
            .ok (err, (s2.1, s2.2 ++ zerolog.written globalLevel
              [payloadEvent logEntry "grpc.response.content" rp
                "client response payload logged as grpc.response.content"]))) ∧
        (err ≠ none →
          PayloadUnaryClientInterceptor (withZerologSink globalLevel base) asProto logger decider
              ctx method req reply cc invoker callOpts s = .ok (err, s2)) ∧
        (∀ key rendered msg,
          zerolog.written globalLevel [payloadEvent logEntry key rendered msg] =
            if logger.should globalLevel zerolog.InfoLevel = true then
              [payloadEvent logEntry key rendered msg]
            else [])) := by
  constructor
  · intro decider ctx req info handler s s2 zl rq resp err hd hzl hrq hh
    refine ⟨?_, ?_, ?_⟩
    · intro rp he hrp
      unfold PayloadUnaryServerInterceptor
      simp only [hd, hzl, logProto_zerolog base globalLevel asProto _ req _ _ rq s hrq, hh, he,
        logProto_zerolog base globalLevel asProto _ resp _ _ rp s2 hrp]
      rfl
    · intro he
      unfold PayloadUnaryServerInterceptor
      simp only [hd, hzl, logProto_zerolog base globalLevel asProto _ req _ _ rq s hrq, hh,
        if_neg he]
      rfl
    · intro key rendered msg
      rw [written_payloadEvent, addServerCallFields_should _ _ _ hzl]
      rfl
  · intro decider ctx method req reply cc invoker callOpts s s2 logEntry rq err hd hl hrq hh
    refine ⟨?_, ?_, ?_⟩
    · intro rp he hrp
      unfold PayloadUnaryClientInterceptor
      simp only [hd, hl, logProto_zerolog base globalLevel asProto _ req _ _ rq s hrq, hh, he,
        logProto_zerolog base globalLevel asProto _ reply _ _ rp s2 hrp]
      rfl
    · intro he
      unfold PayloadUnaryClientInterceptor
      simp only [hd, hl, logProto_zerolog base globalLevel asProto _ req _ _ rq s hrq, hh,
        if_neg he]
      rfl
    · intro key rendered msg
      rw [written_payloadEvent, newClientLogger_should _ _ _ _ hl]

/-- C17, witness: with zerolog as the sink and the sample logger, which emits
info-level events, a successful sample call through the payload server
interceptor writes the request record and then the response record; a failing
call through the payload client interceptor writes the request record only. -/
theorem payload_unary_records_witness :
    sampleLogger.should zerolog.TraceLevel zerolog.InfoLevel = true ∧
    PayloadUnaryServerInterceptor (withZerologSink zerolog.TraceLevel sinkBase) sampleProto
        sampleLogger (fun _ _ _ => true) sampleCtx "ping" sampleInfo (sinkHandler none) (0, []) =
      .ok (("ping", none), (5000000,
        [payloadEvent samplePayloadLogger "grpc.request.content" "ping"
          "server request payload logged as grpc.request.content field",
         payloadEvent samplePayloadLogger "grpc.response.content" "ping"
          "server response payload logged as grpc.response.content field"])) ∧
    PayloadUnaryClientInterceptor (withZerologSink zerolog.TraceLevel sinkBase) sampleProto
        sampleLogger (fun _ _ => true) sampleCtx "/pkg.Service/Method" "req" "reply" sampleConn
        (sinkInvoker (some notFoundError)) [] (0, []) =
      .ok (some notFoundError, (5000000,
        [payloadEvent sampleClientLogger "grpc.request.content" "req"
          "client request payload logged as grpc.request.content"])) :=
  ⟨rfl,
    ((payload_unary_records sinkBase zerolog.TraceLevel sampleProto sampleLogger).1
      (fun _ _ _ => true) sampleCtx "ping" sampleInfo (sinkHandler none) (0, []) _
      ⟨samplePayloadLogger⟩ "ping" "ping" none rfl rfl rfl rfl).1 "ping" rfl rfl,
    ((payload_unary_records sinkBase zerolog.TraceLevel sampleProto sampleLogger).2
      (fun _ _ => true) sampleCtx "/pkg.Service/Method" "req" "reply" sampleConn
      (sinkInvoker (some notFoundError)) [] (0, []) _ sampleClientLogger "req"
      (some notFoundError) rfl rfl rfl rfl).2.1 (by decide)⟩

/-- C18, counterexample: with zerolog as the sink, the sample exchange on the
sample streams wrapped by the payload decorator with the logger `zerolog.Nop()`:
two messages are sent and one is received successfully, each call returns what
the stream inside returns, and no record is emitted. -/
theorem payload_stream_no_record_when_disabled :
    runOps
        (loggingServerStream.asStream (withZerologSink zerolog.TraceLevel sinkBase) sampleProto
          { ServerStream := liftServerStream clockServerStream, logger := zerolog.Nop }).SendMsg
        (loggingServerStream.asStream (withZerologSink zerolog.TraceLevel sinkBase) sampleProto
          { ServerStream := liftServerStream clockServerStream, logger := zerolog.Nop }).RecvMsg
        sampleOps (0, []) =
      .ok ([("a", none), ("ping", none), ("b", none), ("last", some eofError)], (4000000, [])) ∧
    runOps
        (loggingClientStream.asStream (withZerologSink zerolog.TraceLevel sinkBase) sampleProto
          { ClientStream := some (liftClientStream clockClientStream),
            logger := zerolog.Nop }).SendMsg
        (loggingClientStream.asStream (withZerologSink zerolog.TraceLevel sinkBase) sampleProto
          { ClientStream := some (liftClientStream clockClientStream),
            logger := zerolog.Nop }).RecvMsg
        sampleOps (0, []) =
      .ok ([("a", none), ("pong", none), ("b", none), ("last", some eofError)], (4000000, [])) :=
  ⟨rfl, rfl⟩

/-- C18, amended: for every sequence of SendMsg / RecvMsg calls with protobuf
messages on a stream wrapped by the payload decorator, with zerolog as the sink:
each call returns what the call on the underlying stream returns; when the logger
of the wrapper emits info-level events, the records written are as many with key
grpc.request.content as request messages were successfully exchanged and as many
with key grpc.response.content as response messages were (on the server wrapper
RecvMsg logs request content and SendMsg response content, on the client wrapper
SendMsg logs request content and RecvMsg response content, and a call that
returns an error logs nothing); when the logger does not emit info-level events,
no record is written. -/
theorem payload_stream_records {τ ι : Type} (base : Env (τ × List zerolog.Event))
    (globalLevel : Level) (asProto : ProtoView (τ × List zerolog.Event) ι)
    (logger : zerolog.Logger) (hproto : ∀ m s, ∃ r, asProto m s = some r) :
    (∀ (inner : ServerStream τ ι) (ops : List (StreamOp ι)) (t t1 : τ)
        (log : List zerolog.Event) (rs : List (ι × Err)),
        runOps inner.SendMsg inner.RecvMsg ops t = .ok (rs, t1) →
        ∃ evs,
          runOps
            (loggingServerStream.asStream (withZerologSink globalLevel base) asProto
              { ServerStream := liftServerStream inner, logger := logger }).SendMsg
            (loggingServerStream.asStream (withZerologSink globalLevel base) asProto
              { ServerStream := liftServerStream inner, logger := logger }).RecvMsg
            ops (t, log) = .ok (rs, (t1, log ++ evs)) ∧
          countKey "grpc.request.content" evs =
            (if logger.should globalLevel zerolog.InfoLevel = true
              then successfulCalls false ops rs else 0) ∧
          countKey "grpc.response.content" evs =
            (if logger.should globalLevel zerolog.InfoLevel = true
              then successfulCalls true ops rs else 0)) ∧
    (∀ (inner : ClientStream τ ι) (ops : List (StreamOp ι)) (t t1 : τ)
        (log : List zerolog.Event) (rs : List (ι × Err)),
        runOps inner.SendMsg inner.RecvMsg ops t = .ok (rs, t1) →
        ∃ evs,
          runOps
            (loggingClientStream.asStream (withZerologSink globalLevel base) asProto
              { ClientStream := some (liftClientStream inner), logger := logger }).SendMsg
            (loggingClientStream.asStream (withZerologSink globalLevel base) asProto
              { ClientStream := some (liftClientStream inner), logger := logger }).RecvMsg
            ops (t, log) = .ok (rs, (t1, log ++ evs)) ∧
          countKey "grpc.request.content" evs =
            (if logger.should globalLevel zerolog.InfoLevel = true
              then successfulCalls true ops rs else 0) ∧
          countKey "grpc.response.content" evs =
            (if logger.should globalLevel zerolog.InfoLevel = true
              then successfulCalls false ops rs else 0)) := by
  exact ⟨fun inner ops t t1 log rs h =>
      server_wrapper_written base globalLevel asProto logger hproto inner ops t t1 log rs h,
    fun inner ops t t1 log rs h =>
      client_wrapper_written base globalLevel asProto logger hproto inner ops t t1 log rs h⟩

/-- C18, witness: with zerolog as the sink and the sample logger, which emits
info-level events, the sample exchange (two sends, one receive, one failed
receive) on the wrapped sample streams: the results are those of the streams
inside, the server wrapper writes one request record and two response records,
the client wrapper two request records and one response record. -/
theorem payload_stream_records_witness :
    sampleLogger.should zerolog.TraceLevel zerolog.InfoLevel = true ∧
    (∃ evs,
      runOps
        (loggingServerStream.asStream (withZerologSink zerolog.TraceLevel sinkBase) sampleProto
          { ServerStream := liftServerStream clockServerStream, logger := sampleLogger }).SendMsg
        (loggingServerStream.asStream (withZerologSink zerolog.TraceLevel sinkBase) sampleProto
          { ServerStream := liftServerStream clockServerStream, logger := sampleLogger }).RecvMsg
        sampleOps (0, []) =
        .ok ([("a", none), ("ping", none), ("b", none), ("last", some eofError)],
          (4000000, [] ++ evs)) ∧
      countKey "grpc.request.content" evs = 1 ∧ countKey "grpc.response.content" evs = 2) ∧
    (∃ evs,
      runOps
        (loggingClientStream.asStream (withZerologSink zerolog.TraceLevel sinkBase) sampleProto
          { ClientStream := some (liftClientStream clockClientStream),
            logger := sampleLogger }).SendMsg
        (loggingClientStream.asStream (withZerologSink zerolog.TraceLevel sinkBase) sampleProto
          { ClientStream := some (liftClientStream clockClientStream),
            logger := sampleLogger }).RecvMsg
        sampleOps (0, []) =
        .ok ([("a", none), ("pong", none), ("b", none), ("last", some eofError)],
          (4000000, [] ++ evs)) ∧
      countKey "grpc.request.content" evs = 2 ∧ countKey "grpc.response.content" evs = 1) :=
  ⟨rfl,
    (payload_stream_records sinkBase zerolog.TraceLevel sampleProto sampleLogger
      (fun m _ => ⟨m, rfl⟩)).1 clockServerStream sampleOps 0 4000000 [] _ rfl,
    (payload_stream_records sinkBase zerolog.TraceLevel sampleProto sampleLogger
      (fun m _ => ⟨m, rfl⟩)).2 clockClientStream sampleOps 0 4000000 [] _ rfl⟩

/-- C24, counterexample: with zerolog as the sink, logProtoMessageAsJson on the
protobuf message "ping" emits no record when the logger is `zerolog.Nop()`, and
none when it is a logger of level warn. -/
theorem logProto_no_record_when_disabled :
    @sampleProto SinkWorld "ping" (0, []) = some "ping" ∧
    logProtoMessageAsJson (withZerologSink zerolog.TraceLevel sinkBase) sampleProto zerolog.Nop
        "ping" "grpc.request.content"
        "server request payload logged as grpc.request.content field" (0, []) =
      .ok ((), (0, [])) ∧
    logProtoMessageAsJson (withZerologSink zerolog.TraceLevel sinkBase) sampleProto warnLogger
        "ping" "grpc.request.content"
        "server request payload logged as grpc.request.content field" (0, []) =
      .ok ((), (0, [])) :=
  ⟨rfl, rfl, rfl⟩

/-- C24, amended: with zerolog as the sink, logProtoMessageAsJson on a protobuf
message hands the logger one record, at info level and with the rendered message
under the given key, of which zerolog writes exactly one when the logger emits
info-level events and none when it does not; on a message that is not a protobuf
message it emits nothing (its state is the one it started in). On the stream
wrappers of the payload interceptors every record written by SendMsg and RecvMsg
is at info level, the result of the inner send or receive is returned unchanged,
and a message that is not a protobuf message, or a logger that does not emit
info-level events, gives no record. -/
theorem payload_records_info_level {τ ι : Type} (base : Env (τ × List zerolog.Event))
    (globalLevel : Level) (asProto : ProtoView (τ × List zerolog.Event) ι)
    (logger : zerolog.Logger) :
    (∀ (m : ι) (key msg rendered : String) (s : τ × List zerolog.Event),
      asProto m s = some rendered →
        logProtoMessageAsJson (withZerologSink globalLevel base) asProto logger m key msg s =
          .ok ((), (s.1, s.2 ++
            zerolog.written globalLevel [payloadEvent logger key rendered msg])) ∧
        zerolog.written globalLevel [payloadEvent logger key rendered msg] =
          (if logger.should globalLevel zerolog.InfoLevel = true then
            [payloadEvent logger key rendered msg]
          else []) ∧
        (payloadEvent logger key rendered msg).level = zerolog.InfoLevel ∧
        (payloadEvent logger key rendered msg).l = logger ∧
        (payloadEvent logger key rendered msg).fields = [(key, Value.msgObject rendered)] ∧
        (payloadEvent logger key rendered msg).message = msg ∧
        countKey key [payloadEvent logger key rendered msg] = 1) ∧
    (∀ (m : ι) (key msg : String) (s : τ × List zerolog.Event),
      asProto m s = none →
        logProtoMessageAsJson (withZerologSink globalLevel base) asProto logger m key msg s =
          .ok ((), s)) ∧
    (∀ (inner : ServerStream τ ι) (m : ι) (t t1 : τ) (log : List zerolog.Event) (err : Err),
      inner.SendMsg m t = .ok (err, t1) →
        ∃ evs,
          (loggingServerStream.asStream (withZerologSink globalLevel base) asProto
              { ServerStream := liftServerStream inner, logger := logger }).SendMsg m (t, log) =
            .ok (err, (t1, log ++ evs)) ∧
          (∀ e ∈ evs, e.level = zerolog.InfoLevel) ∧
          (asProto m (t1, log) = none → evs = []) ∧
          (logger.should globalLevel zerolog.InfoLevel = false → evs = [])) ∧
    (∀ (inner : ServerStream τ ι) (m m1 : ι) (t t1 : τ) (log : List zerolog.Event) (err : Err),
      inner.RecvMsg m t = .ok ((m1, err), t1) →
        ∃ evs,
          (loggingServerStream.asStream (withZerologSink globalLevel base) asProto
              { ServerStream := liftServerStream inner, logger := logger }).RecvMsg m (t, log) =
            .ok ((m1, err), (t1, log ++ evs)) ∧
          (∀ e ∈ evs, e.level = zerolog.InfoLevel) ∧
          (asProto m1 (t1, log) = none → evs = []) ∧
          (logger.should globalLevel zerolog.InfoLevel = false → evs = [])) ∧
    (∀ (inner : ClientStream τ ι) (m : ι) (t t1 : τ) (log : List zerolog.Event) (err : Err),
      inner.SendMsg m t = .ok (err, t1) →
        ∃ evs,
          (loggingClientStream.asStream (withZerologSink globalLevel base) asProto
              { ClientStream := some (liftClientStream inner), logger := logger }).SendMsg m
              (t, log) =
            .ok (err, (t1, log ++ evs)) ∧
          (∀ e ∈ evs, e.level = zerolog.InfoLevel) ∧
          (asProto m (t1, log) = none → evs = []) ∧
          (logger.should globalLevel zerolog.InfoLevel = false → evs = [])) ∧
    (∀ (inner : ClientStream τ ι) (m m1 : ι) (t t1 : τ) (log : List zerolog.Event) (err : Err),
      inner.RecvMsg m t = .ok ((m1, err), t1) →
        ∃ evs,
          (loggingClientStream.asStream (withZerologSink globalLevel base) asProto
              { ClientStream := some (liftClientStream inner), logger := logger }).RecvMsg m
              (t, log) =
            .ok ((m1, err), (t1, log ++ evs)) ∧
          (∀ e ∈ evs, e.level = zerolog.InfoLevel) ∧
          (asProto m1 (t1, log) = none → evs = []) ∧
          (logger.should globalLevel zerolog.InfoLevel = false → evs = [])) := by
  have hwrap : ∀ {α : Type} (m : ι) (key msg : String) (s : τ × List zerolog.Event) (a : α)
      (err : Err),
      ∃ evs,
        (if err = none then
            Except.map (fun r => (a, r.2))
              (logProtoMessageAsJson (withZerologSink globalLevel base) asProto logger m key msg s)
          else (.ok (a, s) : Except Panic (α × (τ × List zerolog.Event)))) =
          .ok (a, (s.1, s.2 ++ evs)) ∧
        (∀ e ∈ evs, e.level = zerolog.InfoLevel) ∧
        (asProto m s = none → evs = []) ∧
        (logger.should globalLevel zerolog.InfoLevel = false → evs = []) := by
    intro α m key msg s a err
    obtain ⟨evs, h1, h2, h3, h4, _⟩ :=
      after_logProto_written base globalLevel asProto logger m key msg s a err
    exact ⟨evs, h1, h2, h3, h4⟩
  refine ⟨?_, ?_, ?_, ?_, ?_, ?_⟩
  · intro m key msg rendered s h
    refine ⟨logProto_zerolog base globalLevel asProto logger m key msg rendered s h,
      written_payloadEvent globalLevel logger key rendered msg, rfl, rfl, rfl, rfl, ?_⟩
    rw [countKey_payloadEvent]
    simp
  · intro m key msg s h
    exact logProto_not_proto _ asProto logger m key msg s h
  · intro inner m t t1 log err h
    simp only [loggingServerStream.asStream, loggingServerStream.SendMsg, liftServerStream,
      liftGo_ok _ _ _ _ _ h, after_producer_eq_map]
    exact hwrap m _ _ (t1, log) err err
  · intro inner m m1 t t1 log err h
    simp only [loggingServerStream.asStream, loggingServerStream.RecvMsg, liftServerStream,
      liftGo_ok _ _ _ _ _ h, after_producer_eq_map]
    exact hwrap m1 _ _ (t1, log) (m1, err) err
  · intro inner m t t1 log err h
    simp only [loggingClientStream.asStream, loggingClientStream.SendMsg, liftClientStream,
      liftGo_ok _ _ _ _ _ h, after_producer_eq_map]
    exact hwrap m _ _ (t1, log) err err
  · intro inner m m1 t t1 log err h
    simp only [loggingClientStream.asStream, loggingClientStream.RecvMsg, liftClientStream,
      liftGo_ok _ _ _ _ _ h, after_producer_eq_map]
    exact hwrap m1 _ _ (t1, log) (m1, err) err

/-- C24, witness: with zerolog as the sink and the sample payload logger, which
emits info-level events, the protobuf message "ping" gives one record at info
level under the key; the message "raw", which is not a protobuf message, gives
none; and a successful SendMsg of "raw" on the wrapped sample server stream
returns the nil error of the inner stream and leaves the output empty. -/
theorem payload_records_info_level_witness :
    (@rawOrProto SinkWorld "ping" (0, []) = some "ping" ∧
      logProtoMessageAsJson (withZerologSink zerolog.TraceLevel sinkBase) rawOrProto
          samplePayloadLogger "ping" "grpc.request.content"
          "server request payload logged as grpc.request.content field" (0, []) =
        .ok ((), (0, [payloadEvent samplePayloadLogger "grpc.request.content" "ping"
          "server request payload logged as grpc.request.content field"])) ∧
      (payloadEvent samplePayloadLogger "grpc.request.content" "ping"
          "server request payload logged as grpc.request.content field").level =
        zerolog.InfoLevel) ∧
    (@rawOrProto SinkWorld "raw" (0, []) = none ∧
      logProtoMessageAsJson (withZerologSink zerolog.TraceLevel sinkBase) rawOrProto
          samplePayloadLogger "raw" "grpc.request.content"
          "server request payload logged as grpc.request.content field" (0, []) =
        .ok ((), (0, []))) ∧
    (clockServerStream.SendMsg "raw" 0 = .ok (none, 1000000) ∧
      (loggingServerStream.asStream (withZerologSink zerolog.TraceLevel sinkBase) rawOrProto
          { ServerStream := liftServerStream clockServerStream,
            logger := samplePayloadLogger }).SendMsg "raw" (0, []) =
        .ok (none, (1000000, []))) := by
  refine ⟨⟨rfl, ?_, ?_⟩, ⟨rfl, ?_⟩, ⟨rfl, ?_⟩⟩
  · exact ((payload_records_info_level sinkBase zerolog.TraceLevel rawOrProto
      samplePayloadLogger).1 "ping" "grpc.request.content"
      "server request payload logged as grpc.request.content field" "ping" (0, []) rfl).1
  · exact ((payload_records_info_level sinkBase zerolog.TraceLevel rawOrProto
      samplePayloadLogger).1 "ping" "grpc.request.content"
      "server request payload logged as grpc.request.content field" "ping" (0, []) rfl).2.2.1
  · exact (payload_records_info_level sinkBase zerolog.TraceLevel rawOrProto
      samplePayloadLogger).2.1 "raw" "grpc.request.content"
      "server request payload logged as grpc.request.content field" (0, []) rfl
  · obtain ⟨evs, h1, _, h3, _⟩ :=
      (payload_records_info_level sinkBase zerolog.TraceLevel rawOrProto
        samplePayloadLogger).2.2.1 clockServerStream "raw" 0 1000000 [] none rfl
    rw [h3 rfl] at h1
    exact h1

end grpc_zerolog
